import Mathlib

/-! # Volume image backup/restore engine of the SCH-I500 recovery

A shallow embedding of the sparse ext4 image codec:

* the encoder of `ext4_utils/output_file.c` (`emit_skip_chunk`, `write_chunk_raw`,
  `open_output_file`, `close_output_file`, `pad_output_file`, `write_data_block`);
* the decoder of `restore.c` (`simg_validate_and_skip_image_header`,
  `simg_process_raw_chunk`, `simg_process_skip_chunk`, `restore_ext4_sparse_ui`);
* the format detector `cmd_restore_divine_method` and the convert workflow
  `cmd_convert_volume` of `commands.c`;
* the raw dump `backup_dump_ui` and the EXT4 backup entry points of `backup.c`;
* the YAFFS2 restore of `restore.c` (`yaffs2_read_chunk`, `yaffs2_process_chunk`,
  `restore_yaffs2_ui`).

Conventions of the embedding.

* A byte is a `Fin 256`; a file, a stream or a device is a `List u8`.
* `u32`/`u16` values are naturals, reduced `% 2 ^ 32` / `% 2 ^ 16` wherever the C code
  computes or stores them in a field of that width.  `int` and `long` are the 32-bit
  types of the ILP32 ARM target.  64-bit byte offsets (`u64`, `off64_t`) are naturals.
* The gzip layer is transparent: what `gzwrite` stores, `gzread` returns, so a stream
  is modelled by its uncompressed bytes.
* `write(2)`/`gzwrite`/`fwrite` on an open handle store their bytes and succeed; the
  branches that test their result are kept as in the source.  `malloc` succeeds.
* Messages passed to `warn()` and to the UI callbacks are recorded as tags.
* Calls on the file system and on the volumes are recorded in the order they are made;
  their results are part of the environment of a function or, where the code ignores
  them, left out.
* A result `none` of the YAFFS2 restore and of the EXT4 backup stands for undefined
  behaviour of the C code (a read through a NULL pointer, an index outside a table).
-/

namespace Recovery

/-! ## Bytes and little-endian fields -/

/-- A byte, the `u8` of `ext4_utils.h`. -/
abbrev u8 := Fin 256

/-- Reduction of a natural number to an unsigned 32-bit value. -/
def u32_wrap (n : Nat) : Nat := n % 4294967296

/-- Bitwise complement of an unsigned 32-bit value (the C operator `~` on a `u32`). -/
def u32_not (n : Nat) : Nat := 4294967295 - n % 4294967296

/-- Conversion of an unsigned 32-bit value to the 32-bit `int`/`long` of the target. -/
def to_int32 (n : Nat) : Int :=
  if n % 4294967296 < 2147483648 then (n % 4294967296 : Nat) else (n % 4294967296 : Nat) - 4294967296

/-- The two bytes of a little-endian 16-bit field. -/
def le16 (n : Nat) : List u8 := [Fin.ofNat n, Fin.ofNat (n / 256)]

/-- The four bytes of a little-endian 32-bit field. -/
def le32 (n : Nat) : List u8 :=
  [Fin.ofNat n, Fin.ofNat (n / 256), Fin.ofNat (n / 65536), Fin.ofNat (n / 16777216)]

/-- The byte at index `i` of a buffer that was zero-filled before it was read into. -/
def byte_at (b : List u8) (i : Nat) : Nat := (b.getD i 0).val

/-- A little-endian 16-bit field read at byte offset `i`. -/
def rd16 (b : List u8) (i : Nat) : Nat := byte_at b i + 256 * byte_at b (i + 1)

/-- A little-endian 32-bit field read at byte offset `i`. -/
def rd32 (b : List u8) (i : Nat) : Nat :=
  byte_at b i + 256 * byte_at b (i + 1) + 65536 * byte_at b (i + 2)
    + 16777216 * byte_at b (i + 3)

/-! ## CRC-32 -/

/-- One shift step of the reflected CRC-32 register (polynomial `0xEDB88320`). -/
def crc32_shift (c : Nat) : Nat :=
  if c % 2 = 1 then (c / 2) ^^^ 3988292384 else c / 2

/-- The CRC-32 register after one more input byte. -/
def crc32_byte (c : Nat) (b : u8) : Nat :=
  crc32_shift (crc32_shift (crc32_shift (crc32_shift
    (crc32_shift (crc32_shift (crc32_shift (crc32_shift (c ^^^ b.val))))))))

/-- Modelled from the spec: `sparse_crc32.c` is not among the sources.  The spec calls
the image checksum a CRC-32 that is accumulated chunk by chunk, so `sparse_crc32`
is the standard reflected CRC-32 in its running form: `crc_in` is the checksum of the
bytes seen so far (0 at the start) and the result is the checksum after `buf`. -/
def sparse_crc32 (crc_in : Nat) (buf : List u8) : Nat :=
  (buf.foldl crc32_byte (crc_in ^^^ 4294967295)) ^^^ 4294967295

/-! ## The sparse image format -/

/-- Modelled from the spec: `sparse_format.h` is not among the sources.  The magic
constant of the 28-byte header, with the value of the Android sparse image format. -/
def SPARSE_HEADER_MAGIC : Nat := 3978755898

/-- Modelled from the spec: chunk type `Raw` (`sparse_format.h` is not among the
sources), with the value of the Android sparse image format. -/
def CHUNK_TYPE_RAW : Nat := 51905

/-- Modelled from the spec: chunk type `DontCare` (`sparse_format.h` is not among the
sources), with the value of the Android sparse image format. -/
def CHUNK_TYPE_DONT_CARE : Nat := 51906

/-- Major version written by the encoder and required by the decoder. -/
def SPARSE_HEADER_MAJOR_VER : Nat := 1

/-- Minor version written by the encoder. -/
def SPARSE_HEADER_MINOR_VER : Nat := 0

/-- The `sizeof(sparse_header_t)`: the spec fixes the header at 28 bytes. -/
def SPARSE_HEADER_LEN : Nat := 28

/-- The `sizeof(chunk_header_t)`: the spec fixes the chunk header at 12 bytes. -/
def CHUNK_HEADER_LEN : Nat := 12

/-- Modelled from the spec: `sparse_format.h` is not among the sources.  The 28-byte
header record: magic, major version, minor version, declared header size, declared
chunk-header size, block size, total block count, total chunk count, image checksum;
32-bit fields except the two versions and the two sizes, which are 16-bit. -/
structure sparse_header_t where
  magic : Nat
  major_version : Nat
  minor_version : Nat
  file_hdr_sz : Nat
  chunk_hdr_sz : Nat
  blk_sz : Nat
  total_blks : Nat
  total_chunks : Nat
  image_checksum : Nat
  deriving DecidableEq, Repr

/-- Modelled from the spec: `sparse_format.h` is not among the sources.  The 12-byte
chunk header record: chunk type and a reserved field (16-bit), chunk size in blocks
and total size in bytes including the header (32-bit). -/
structure chunk_header_t where
  chunk_type : Nat
  reserved1 : Nat
  chunk_sz : Nat
  total_sz : Nat
  deriving DecidableEq, Repr

/-- The bytes of a header record as they lie in memory and in the file (little-endian). -/
def sparse_header_bytes (h : sparse_header_t) : List u8 :=
  le32 h.magic ++ le16 h.major_version ++ le16 h.minor_version ++ le16 h.file_hdr_sz
    ++ le16 h.chunk_hdr_sz ++ le32 h.blk_sz ++ le32 h.total_blks ++ le32 h.total_chunks
    ++ le32 h.image_checksum

/-- The bytes of a chunk header record (little-endian). -/
def chunk_header_bytes (c : chunk_header_t) : List u8 :=
  le16 c.chunk_type ++ le16 c.reserved1 ++ le32 c.chunk_sz ++ le32 c.total_sz

/-- The header record overlaid on the first 28 bytes of a zero-filled buffer. -/
def sparse_header_of_bytes (b : List u8) : sparse_header_t where
  magic := rd32 b 0
  major_version := rd16 b 4
  minor_version := rd16 b 6
  file_hdr_sz := rd16 b 8
  chunk_hdr_sz := rd16 b 10
  blk_sz := rd32 b 12
  total_blks := rd32 b 16
  total_chunks := rd32 b 20
  image_checksum := rd32 b 24

/-- The chunk header record overlaid on 12 bytes. -/
def chunk_header_of_bytes (b : List u8) : chunk_header_t where
  chunk_type := rd16 b 0
  reserved1 := rd16 b 2
  chunk_sz := rd32 b 4
  total_sz := rd32 b 8

/-! ## The encoder: `ext4_utils/output_file.c` -/

/-- The two fields of the global `struct fs_info info` that the output file code reads. -/
structure fs_info where
  len : Nat
  block_size : Nat
  deriving DecidableEq, Repr

/-- The lines that the output file code passes to `warn()`. -/
inductive ext4_warn where
  | skip_not_multiple
  | offset_less
  | offset_not_multiple
  | offset_accounting
  | pad_past_end
  | pad_less
  | write_past_end
  | seek_header
  | update_header
  deriving DecidableEq, Repr

/-- The `struct output_file`, together with what it acts on: the bytes and position of
the underlying file, the static `sparse_header` and the warnings printed so far. -/
structure output_file where
  gz_fd : Bool
  sparse : Bool
  cur_out_ptr : Nat
  chunk_cnt : Nat
  crc32 : Nat
  file : List u8
  fpos : Nat
  sparse_header : sparse_header_t
  warns : List ext4_warn
  deriving DecidableEq, Repr

/-- A file after `data` is written at position `pos`; a hole before `pos` reads as zero,
and a write of no bytes changes nothing. -/
def file_write_at (file : List u8) (pos : Nat) (data : List u8) : List u8 :=
  if data.length = 0 then file
  else file.take pos ++ List.replicate (pos - file.length) 0 ++ data
    ++ file.drop (pos + data.length)

/-- The `ops->write` of either handle (`file_write`, `gz_file_write`). -/
def ops_write (out : output_file) (data : List u8) : Int × output_file :=
  (0, { out with file := file_write_at out.file out.fpos data,
                 fpos := out.fpos + data.length })

/-- The `ops->seek` of either handle (`file_seek`, `gz_file_seek`). -/
def ops_seek (out : output_file) (off : Nat) : Int × output_file :=
  (0, { out with fpos := off })

/-- The static `zero_buf`: `info.block_size` zero bytes. -/
def zero_buf (info : fs_info) : List u8 := List.replicate info.block_size 0

/-- The initial value of the static `sparse_header`. -/
def sparse_header_init : sparse_header_t where
  magic := SPARSE_HEADER_MAGIC
  major_version := SPARSE_HEADER_MAJOR_VER
  minor_version := SPARSE_HEADER_MINOR_VER
  file_hdr_sz := SPARSE_HEADER_LEN
  chunk_hdr_sz := CHUNK_HEADER_LEN
  blk_sz := 0
  total_blks := 0
  total_chunks := 0
  image_checksum := 0

/-- The loop of `emit_skip_chunk` that folds the skipped zero bytes into the CRC, at most
`info.block_size` of them per step.  The first argument bounds the number of steps; every
step consumes at least one byte, so `skip_len` steps are enough. -/
def emit_skip_crc (info : fs_info) : Nat → Nat → Nat → Nat
  | 0, _, crc => crc
  | fuel + 1, skip_len, crc =>
    if skip_len = 0 then crc
    else
      let chunk := if skip_len > info.block_size then info.block_size else skip_len
      emit_skip_crc info fuel (skip_len - chunk) (sparse_crc32 crc ((zero_buf info).take chunk))

/-- The function `emit_skip_chunk`. -/
def emit_skip_chunk (info : fs_info) (out : output_file) (skip_len : Nat) :
    Int × output_file :=
  if skip_len % info.block_size ≠ 0 then
    (-1, { out with warns := out.warns ++ [ext4_warn.skip_not_multiple] })
  else
    let chunk_header : chunk_header_t :=
      { chunk_type := CHUNK_TYPE_DONT_CARE, reserved1 := 0,
        chunk_sz := u32_wrap (skip_len / info.block_size), total_sz := CHUNK_HEADER_LEN }
    let w := ops_write out (chunk_header_bytes chunk_header)
    if w.1 < 0 then (-1, w.2)
    else
      let out1 := { w.2 with cur_out_ptr := w.2.cur_out_ptr + skip_len,
                             chunk_cnt := w.2.chunk_cnt + 1 }
      (0, { out1 with crc32 := emit_skip_crc info skip_len skip_len out1.crc32 })

/-- The length rounded up by `(len + (block_size - 1)) & ~(block_size - 1)`, computed in
unsigned 32-bit arithmetic. -/
def rnd_up (info : fs_info) (len : Nat) : Nat :=
  u32_wrap (len + u32_wrap (info.block_size + 4294967295))
    &&& u32_not (u32_wrap (info.block_size + 4294967295))

/-- The function `write_chunk_raw`; `len` is the length of `data`.  The code keeps
`rnd_up_len` and `zero_len` in an `int`; the definition takes them as the numbers they
are when `len + block_size` does not exceed `2 ^ 31` (beyond that bound the `int`
arithmetic of the code overflows), and every statement below on the bytes, the cursor,
the chunk count or the checksum after a write that passes the offset tests is made
within that bound. -/
def write_chunk_raw (info : fs_info) (out : output_file) (off : Nat) (data : List u8) :
    Int × output_file :=
  if off < out.cur_out_ptr then
    (-1, { out with warns := out.warns ++ [ext4_warn.offset_less] })
  else
    let out1 := if off > out.cur_out_ptr
      then (emit_skip_chunk info out (off - out.cur_out_ptr)).2 else out
    if off % info.block_size ≠ 0 then
      (-1, { out1 with warns := out1.warns ++ [ext4_warn.offset_not_multiple] })
    else if off ≠ out1.cur_out_ptr then
      (-1, { out1 with warns := out1.warns ++ [ext4_warn.offset_accounting] })
    else
      let len := data.length
      let rnd_up_len := rnd_up info len
      let zero_len := rnd_up_len - len
      let chunk_header : chunk_header_t :=
        { chunk_type := CHUNK_TYPE_RAW, reserved1 := 0,
          chunk_sz := rnd_up_len / info.block_size,
          total_sz := u32_wrap (CHUNK_HEADER_LEN + rnd_up_len) }
      let w1 := ops_write out1 (chunk_header_bytes chunk_header)
      if w1.1 < 0 then (-1, w1.2)
      else
        let w2 := ops_write w1.2 data
        if w2.1 < 0 then (-1, w2.2)
        else
          let w3 := if zero_len ≠ 0 then ops_write w2.2 ((zero_buf info).take zero_len)
                    else (0, w2.2)
          if w3.1 < 0 then (-1, w3.2)
          else
            let crc1 := sparse_crc32 w3.2.crc32 data
            let crc2 := if zero_len ≠ 0 then sparse_crc32 crc1 ((zero_buf info).take zero_len)
                        else crc1
            (0, { w3.2 with crc32 := crc2, cur_out_ptr := w3.2.cur_out_ptr + rnd_up_len,
                            chunk_cnt := w3.2.chunk_cnt + 1 })

/-- The function `open_output_file`; the file is created empty and the header is written
uncompressed before the handle is switched to gzip. -/
def open_output_file (info : fs_info) (gz sparse : Bool) : output_file :=
  let out : output_file :=
    { gz_fd := false, sparse := sparse, cur_out_ptr := 0, chunk_cnt := 0, crc32 := 0,
      file := [], fpos := 0, sparse_header := sparse_header_init, warns := [] }
  let out1 :=
    if out.sparse then
      let hdr := { out.sparse_header with blk_sz := u32_wrap info.block_size,
                                          total_blks := u32_wrap (info.len / info.block_size) }
      (ops_write { out with sparse_header := hdr } (sparse_header_bytes hdr)).2
    else out
  if gz then { out1 with gz_fd := true } else out1

/-- The function `close_output_file`: the header is rewritten at offset 0 through the
plain file handle with the final chunk count and checksum. -/
def close_output_file (out : output_file) : output_file :=
  let out0 := if out.gz_fd then { out with gz_fd := false } else out
  if out0.sparse then
    let hdr := { out0.sparse_header with total_chunks := u32_wrap out0.chunk_cnt,
                                         image_checksum := out0.crc32 }
    let out1 := { out0 with sparse_header := hdr }
    let s := ops_seek out1 0
    let out2 := if s.1 < 0 then { s.2 with warns := s.2.warns ++ [ext4_warn.seek_header] }
                else s.2
    let w := ops_write out2 (sparse_header_bytes hdr)
    if w.1 < 0 then { w.2 with warns := w.2.warns ++ [ext4_warn.update_header] } else w.2
  else out0

/-- The function `pad_output_file`.  Without `sparse` the offset `len - 1` is computed
in `u64` and handed to the seek as an `off64_t`: for `len = 0`, where it is
`2 ^ 64 - 1`, and for every `len` beyond `2 ^ 63` it is negative and the seek fails, so
that nothing is written. -/
def pad_output_file (info : fs_info) (out : output_file) (len : Nat) : output_file :=
  if len > info.len then
    { out with warns := out.warns ++ [ext4_warn.pad_past_end] }
  else if out.sparse then
    if len < out.cur_out_ptr then
      { out with warns := out.warns ++ [ext4_warn.pad_less] }
    else if len > out.cur_out_ptr then
      (emit_skip_chunk info out (len - out.cur_out_ptr)).2
    else out
  else
    let s := if len = 0 ∨ len > 9223372036854775808 then ((-1 : Int), out)
             else ops_seek out (len - 1)
    if s.1 < 0 then s.2
    else (ops_write s.2 [0]).2

/-- The function `write_data_block`. -/
def write_data_block (info : fs_info) (out : output_file) (off : Nat) (data : List u8) :
    output_file :=
  if off + data.length > info.len then
    { out with warns := out.warns ++ [ext4_warn.write_past_end] }
  else if out.sparse then
    (write_chunk_raw info out off data).2
  else
    let s := ops_seek out off
    if s.1 < 0 then s.2
    else (ops_write s.2 data).2

/-! ## The decoder: `restore.c` -/

/-- The size of the copy buffer `g_simg_copybuf`. -/
def SIMG_COPY_BUF_SIZE : Nat := 1024 * 1024

/-- The major version accepted by the decoder. -/
def SIMG_SPARSE_HEADER_MAJOR_VER : Nat := 1

/-- The `sizeof(sparse_header_t)` on the decoder side. -/
def SIMG_SPARSE_HEADER_LEN : Nat := 28

/-- The `sizeof(chunk_header_t)` on the decoder side. -/
def SIMG_CHUNK_HEADER_LEN : Nat := 12

/-- The lines that the sparse restore passes to `UI_ERROR` and `UI_WARNING`. -/
inductive simg_msg where
  | cannot_open_input
  | error_reading_header
  | missing_magic
  | unknown_major_version
  | cannot_open_output
  | bogus_raw (index : Nat)
  | raw_copy_error
  | bogus_dont_care (index : Nat)
  | unknown_chunk_type (chunk_type : Nat)
  | error_reading_chunk (index : Nat)
  | warn_blocks (wrote expected : Nat)
  | warn_crc (computed expected : Nat)
  deriving DecidableEq, Repr

/-- The output handle `FILE* out`: the bytes of the device and the file position. -/
structure out_dev where
  data : List u8
  pos : Nat
  deriving DecidableEq, Repr

/-- The call `fwrite(buf, n, 1, out)`: the bytes land at the file position. -/
def out_fwrite (out : out_dev) (buf : List u8) : Nat × out_dev :=
  (1, { data := file_write_at out.data out.pos buf, pos := out.pos + buf.length })

/-- The call `fseek(out, off, SEEK_CUR)` with a `long` offset: a move to a negative
position fails and leaves the position where it was. -/
def out_fseek_cur (out : out_dev) (off : Int) : out_dev :=
  if (out.pos : Int) + off < 0 then out else { out with pos := ((out.pos : Int) + off).toNat }

/-- What the chunk helpers read and update: the rest of the input stream, the output
handle and the running CRC. -/
structure simg_io where
  inp : List u8
  out : out_dev
  crc32 : Nat
  deriving DecidableEq, Repr

/-- The copy loop of `simg_process_raw_chunk`; the result is `false` when the loop is
left by `return -1`.  The first argument bounds the number of steps; every step
consumes at least one byte of `len`, so `len` steps are enough. -/
def simg_raw_loop : Nat → Nat → simg_io → Bool × simg_io
  | 0, _, s => (true, s)
  | fuel + 1, len, s =>
    if len = 0 then (true, s)
    else
      let chunk := if len > SIMG_COPY_BUF_SIZE then SIMG_COPY_BUF_SIZE else len
      let copybuf := s.inp.take chunk
      let s1 := { s with inp := s.inp.drop chunk }
      if copybuf.length < chunk then (false, s1)
      else
        let s2 := { s1 with crc32 := sparse_crc32 s1.crc32 copybuf }
        let w := out_fwrite s2.out copybuf
        if w.1 ≠ 1 then (false, { s2 with out := w.2 })
        else simg_raw_loop fuel (len - chunk) { s2 with out := w.2 }

/-- The function `simg_process_raw_chunk`: the `int` result is `blocks` or -1. -/
def simg_process_raw_chunk (s : simg_io) (blocks blk_sz : Nat) : Int × simg_io :=
  let len := blocks * blk_sz
  let r := simg_raw_loop len len s
  if r.1 then (to_int32 blocks, r.2) else (-1, r.2)

/-- The first loop of `simg_process_skip_chunk`: the output position is moved in steps of
at most `0x80000000`; the result carries the last value of `skip_chunk`. -/
def simg_skip_seek : Nat → Nat → Nat → out_dev → Nat × out_dev
  | 0, _, skip_chunk, out => (skip_chunk, out)
  | fuel + 1, len, skip_chunk, out =>
    if len = 0 then (skip_chunk, out)
    else
      let skip_chunk1 := if len > 2147483648 then 2147483648 else len
      simg_skip_seek fuel (len - skip_chunk1) skip_chunk1
        (out_fseek_cur out (to_int32 skip_chunk1))

/-- The second loop of `simg_process_skip_chunk`, which folds zero bytes into the CRC;
`len` is a 64-bit counter.  The result is `none` when the loop has not ended after
the number of steps given by the first argument. -/
def simg_skip_crc (blk_sz : Nat) : Nat → Nat → Nat → Nat → Option Nat
  | 0, _, _, _ => none
  | fuel + 1, len, skip_chunk, crc =>
    if len = 0 then some crc
    else
      let skip_chunk1 := if skip_chunk > blk_sz then blk_sz else skip_chunk
      simg_skip_crc blk_sz fuel ((len + 18446744073709551616 - skip_chunk1) % 18446744073709551616)
        skip_chunk1 (sparse_crc32 crc ((List.replicate blk_sz 0).take skip_chunk1))

/-- The function `simg_process_skip_chunk`.  A 64-bit counter that has not reached zero
after `2 ^ 64 + 1` steps never does, so `none` stands for a call that does not return. -/
def simg_process_skip_chunk (s : simg_io) (blocks blk_sz : Nat) : Option (Int × simg_io) :=
  let len := blocks * blk_sz
  let k := simg_skip_seek len len 0 s.out
  match simg_skip_crc blk_sz 18446744073709551617 len k.1 s.crc32 with
  | none => none
  | some crc => some (to_int32 blocks, { s with out := k.2, crc32 := crc })

/-- The result of `simg_validate_and_skip_image_header`: the return value, the header
read, the position of the descriptor afterwards and the messages. -/
structure simg_header_result where
  result : Int
  sparse_header : sparse_header_t
  pos : Nat
  msgs : List simg_msg
  deriving DecidableEq, Repr

/-- The function `simg_validate_and_skip_image_header` on a freshly opened image file. -/
def simg_validate_and_skip_image_header (file : List u8) : simg_header_result :=
  let buf := file.take SIMG_SPARSE_HEADER_LEN
  let sparse_header := sparse_header_of_bytes buf
  if buf.length < SIMG_SPARSE_HEADER_LEN then
    { result := -2, sparse_header := sparse_header, pos := buf.length,
      msgs := [simg_msg.error_reading_header] }
  else if sparse_header.magic ≠ SPARSE_HEADER_MAGIC then
    { result := -1, sparse_header := sparse_header, pos := buf.length,
      msgs := [simg_msg.missing_magic] }
  else if sparse_header.major_version ≠ SIMG_SPARSE_HEADER_MAJOR_VER then
    { result := -1, sparse_header := sparse_header, pos := buf.length,
      msgs := [simg_msg.unknown_major_version] }
  else
    { result := 0, sparse_header := sparse_header,
      pos := if sparse_header.file_hdr_sz > SIMG_SPARSE_HEADER_LEN
             then buf.length + (sparse_header.file_hdr_sz - SIMG_SPARSE_HEADER_LEN)
             else buf.length,
      msgs := [] }

/-- The local variables of `restore_ext4_sparse_ui` while the chunks are processed. -/
structure simg_state where
  io : simg_io
  total_blocks : Nat
  result : Int
  msgs : List simg_msg
  deriving DecidableEq, Repr

/-- The test of a `Raw` chunk header, `total_sz != chunk_hdr_sz + chunk_sz * blk_sz`,
in unsigned 32-bit arithmetic; `true` when the sizes are accepted. -/
def simg_raw_size_ok (sparse_header : sparse_header_t) (chunk_header : chunk_header_t) : Bool :=
  chunk_header.total_sz
    = u32_wrap (sparse_header.chunk_hdr_sz + u32_wrap (chunk_header.chunk_sz * sparse_header.blk_sz))

/-- The body of the `switch` on the chunk type, for the chunk with number `index`. -/
def simg_process_chunk (sparse_header : sparse_header_t) (chunk_header : chunk_header_t)
    (index : Nat) (s : simg_state) : Option simg_state :=
  if chunk_header.chunk_type = CHUNK_TYPE_RAW then
    if ¬ simg_raw_size_ok sparse_header chunk_header then
      some { s with result := -1, msgs := s.msgs ++ [simg_msg.bogus_raw index] }
    else
      let r := simg_process_raw_chunk s.io chunk_header.chunk_sz sparse_header.blk_sz
      if r.1 ≥ 0 then
        some { s with io := r.2, total_blocks := u32_wrap (s.total_blocks + r.1.toNat) }
      else
        some { s with io := r.2, result := -1, msgs := s.msgs ++ [simg_msg.raw_copy_error] }
  else if chunk_header.chunk_type = CHUNK_TYPE_DONT_CARE then
    if chunk_header.total_sz ≠ sparse_header.chunk_hdr_sz then
      some { s with result := -1, msgs := s.msgs ++ [simg_msg.bogus_dont_care index] }
    else
      match simg_process_skip_chunk s.io chunk_header.chunk_sz sparse_header.blk_sz with
      | none => none
      | some r =>
        some { s with io := r.2, total_blocks := u32_wrap (s.total_blocks + chunk_header.chunk_sz) }
  else
    some { s with result := -1,
                  msgs := s.msgs ++ [simg_msg.unknown_chunk_type chunk_header.chunk_type] }

/-- The `for` loop of `restore_ext4_sparse_ui` over the chunks; the first argument is
the number of chunks still to come, `index` the number of the next one. -/
def simg_chunk_loop (sparse_header : sparse_header_t) :
    Nat → Nat → simg_state → Option simg_state
  | 0, _, s => some s
  | n + 1, index, s =>
    if s.result ≠ 0 then some s
    else
      let buf := s.io.inp.take SIMG_CHUNK_HEADER_LEN
      let s1 := { s with io := { s.io with inp := s.io.inp.drop SIMG_CHUNK_HEADER_LEN } }
      if buf.length = SIMG_CHUNK_HEADER_LEN then
        let chunk_header := chunk_header_of_bytes buf
        let s2 :=
          if sparse_header.chunk_hdr_sz > SIMG_CHUNK_HEADER_LEN then
            { s1 with io := { s1.io with
                inp := s1.io.inp.drop (sparse_header.chunk_hdr_sz - SIMG_CHUNK_HEADER_LEN) } }
          else s1
        match simg_process_chunk sparse_header chunk_header index s2 with
        | none => none
        | some s3 => simg_chunk_loop sparse_header n (index + 1) s3
      else
        some { s1 with result := -1, msgs := s1.msgs ++ [simg_msg.error_reading_chunk index] }

/-- What the system calls of a restore meet: the bytes of the image file (`none` when
`open` fails), the bytes of the device `volume->device` (`none` when `fopen` fails) and
the value of `errno` after a failing call. -/
structure restore_env where
  imgfile : Option (List u8)
  device : Option (List u8)
  errno : Int
  deriving DecidableEq, Repr

/-- What a restore leaves behind: the return value, the output device (`none` when it
was never opened), the accumulated CRC and block count, and the messages. -/
structure restore_result where
  result : Int
  out : Option out_dev
  crc32 : Nat
  total_blocks : Nat
  msgs : List simg_msg
  deriving DecidableEq, Repr

/-- The function `restore_ext4_sparse_ui`, for calls in which `gzdopen` and the `calloc`
of the two buffers succeed; `none` stands for a call that does not return. -/
def restore_ext4_sparse_ui (env : restore_env) : Option restore_result :=
  match env.imgfile with
  | none =>
    some { result := env.errno, out := none, crc32 := 0, total_blocks := 0,
           msgs := [simg_msg.cannot_open_input] }
  | some file =>
    let v := simg_validate_and_skip_image_header file
    if v.result ≠ 0 then
      some { result := v.result, out := none, crc32 := 0, total_blocks := 0, msgs := v.msgs }
    else
      match env.device with
      | none =>
        some { result := env.errno, out := none, crc32 := 0, total_blocks := 0,
               msgs := [simg_msg.cannot_open_output] }
      | some dev =>
        let sparse_header := v.sparse_header
        let s0 : simg_state :=
          { io := { inp := file.drop v.pos, out := { data := dev, pos := 0 }, crc32 := 0 },
            total_blocks := 0, result := 0, msgs := [] }
        match simg_chunk_loop sparse_header sparse_header.total_chunks 0 s0 with
        | none => none
        | some s =>
          let w1 := if s.result = 0 ∧ sparse_header.total_blks ≠ s.total_blocks
            then [simg_msg.warn_blocks s.total_blocks sparse_header.total_blks] else []
          let w2 := if s.result = 0 ∧ sparse_header.image_checksum ≠ s.io.crc32
            then [simg_msg.warn_crc s.io.crc32 sparse_header.image_checksum] else []
          some { result := s.result, out := some s.io.out, crc32 := s.io.crc32,
                 total_blocks := s.total_blocks, msgs := s.msgs ++ w1 ++ w2 }

/-! ## States used to describe what the encoder emits -/

/-- The state after a `DontCare` chunk for `skip_len` bytes was appended. -/
def after_skip (info : fs_info) (out : output_file) (skip_len : Nat) : output_file :=
  { out with
    file := out.file ++ chunk_header_bytes
      { chunk_type := CHUNK_TYPE_DONT_CARE, reserved1 := 0,
        chunk_sz := u32_wrap (skip_len / info.block_size), total_sz := CHUNK_HEADER_LEN },
    fpos := out.fpos + 12,
    cur_out_ptr := out.cur_out_ptr + skip_len,
    chunk_cnt := out.chunk_cnt + 1,
    crc32 := sparse_crc32 out.crc32 (List.replicate skip_len 0) }

/-- The state after a `Raw` chunk for `data` was appended. -/
def after_raw (info : fs_info) (out : output_file) (data : List u8) : output_file :=
  { out with
    file := out.file ++ chunk_header_bytes
      { chunk_type := CHUNK_TYPE_RAW, reserved1 := 0,
        chunk_sz := rnd_up info data.length / info.block_size,
        total_sz := u32_wrap (CHUNK_HEADER_LEN + rnd_up info data.length) }
      ++ data ++ List.replicate (rnd_up info data.length - data.length) 0,
    fpos := out.fpos + 12 + rnd_up info data.length,
    cur_out_ptr := out.cur_out_ptr + rnd_up info data.length,
    chunk_cnt := out.chunk_cnt + 1,
    crc32 := sparse_crc32 out.crc32
      (data ++ List.replicate (rnd_up info data.length - data.length) 0) }

/-! ## Notions used to state the claims -/

/-- The image file that the encoder leaves for `data` written at offset 0:
`open_output_file` with `sparse` set, one `write_data_block`, `close_output_file`. -/
def sparse_encode (info : fs_info) (gz : Bool) (data : List u8) : List u8 :=
  (close_output_file (write_data_block info (open_output_file info gz true) 0 data)).file

/-- The header that `close_output_file` writes for a file system `info` after `chunks`
chunks with checksum `crc`. -/
def closed_header (info : fs_info) (chunks crc : Nat) : sparse_header_t :=
  { sparse_header_init with
    blk_sz := u32_wrap info.block_size,
    total_blks := u32_wrap (info.len / info.block_size),
    total_chunks := u32_wrap chunks,
    image_checksum := crc }

/-- The header of the single `Raw` chunk that holds `len` bytes of data. -/
def raw_chunk_header (info : fs_info) (len : Nat) : chunk_header_t :=
  { chunk_type := CHUNK_TYPE_RAW, reserved1 := 0,
    chunk_sz := rnd_up info len / info.block_size,
    total_sz := u32_wrap (CHUNK_HEADER_LEN + rnd_up info len) }

/-- The data followed by the zero bytes that the encoder pads it with. -/
def padded (info : fs_info) (data : List u8) : List u8 :=
  data ++ List.replicate (rnd_up info data.length - data.length) 0

/-- What `restore_ext4_sparse_ui` returns once the chunk loop has ended in state `s`:
the final checks only add warnings. -/
def simg_finish (sparse_header : sparse_header_t) (s : simg_state) : restore_result :=
  { result := s.result, out := some s.io.out, crc32 := s.io.crc32,
    total_blocks := s.total_blocks,
    msgs := s.msgs
      ++ (if s.result = 0 ∧ sparse_header.total_blks ≠ s.total_blocks
          then [simg_msg.warn_blocks s.total_blocks sparse_header.total_blks] else [])
      ++ (if s.result = 0 ∧ sparse_header.image_checksum ≠ s.io.crc32
          then [simg_msg.warn_crc s.io.crc32 sparse_header.image_checksum] else []) }

/-- The state in which the chunk loop starts: the stream behind the header, the device
at position 0, no block and no error yet. -/
def simg_start (stream dev : List u8) : simg_state :=
  { io := { inp := stream, out := { data := dev, pos := 0 }, crc32 := 0 },
    total_blocks := 0, result := 0, msgs := [] }

/-- The header of the image used to exercise the size test of `Raw` chunks: blocks of
4096 bytes, one chunk. -/
def wrap_image_header : sparse_header_t :=
  { sparse_header_init with blk_sz := 4096, total_blks := 1048576, total_chunks := 1 }

/-- A `Raw` chunk header that declares 1048576 blocks and a total size of 12 bytes. -/
def wrap_chunk_header : chunk_header_t :=
  { chunk_type := CHUNK_TYPE_RAW, reserved1 := 0, chunk_sz := 1048576, total_sz := 12 }

/-- Whether a stream holds `n` complete chunk records, read one after the other: for
each record the 12-byte chunk header and, for a `Raw` chunk, the `chunk_sz * blk_sz`
bytes of its payload (bytes of a chunk header declared longer than 12 are passed over). -/
def simg_records_complete (sparse_header : sparse_header_t) : Nat → List u8 → Bool
  | 0, _ => true
  | n + 1, stream =>
    if stream.length < 12 then false
    else
      let chunk_header := chunk_header_of_bytes (stream.take 12)
      let rest := stream.drop (max 12 sparse_header.chunk_hdr_sz)
      if chunk_header.chunk_type = CHUNK_TYPE_RAW then
        if rest.length < chunk_header.chunk_sz * sparse_header.blk_sz then false
        else simg_records_complete sparse_header n
          (rest.drop (chunk_header.chunk_sz * sparse_header.blk_sz))
      else simg_records_complete sparse_header n rest

/-- An image whose header declares 5 chunks of 4-byte blocks and whose stream ends
after the third chunk record (`Raw`, `DontCare`, `Raw`). -/
def truncated_image : List u8 :=
  sparse_header_bytes
      { sparse_header_init with blk_sz := 4, total_blks := 6, total_chunks := 5 }
    ++ chunk_header_bytes
      { chunk_type := CHUNK_TYPE_RAW, reserved1 := 0, chunk_sz := 1, total_sz := 16 }
    ++ [1, 2, 3, 4]
    ++ chunk_header_bytes
      { chunk_type := CHUNK_TYPE_DONT_CARE, reserved1 := 0, chunk_sz := 2, total_sz := 12 }
    ++ chunk_header_bytes
      { chunk_type := CHUNK_TYPE_RAW, reserved1 := 0, chunk_sz := 1, total_sz := 16 }
    ++ [5, 6, 7, 8]

/-- One call on an open output file: `write_data_block` or `pad_output_file`. -/
inductive out_op where
  | write (off : Nat) (data : List u8)
  | pad (len : Nat)
  deriving DecidableEq, Repr

/-- The output file after one call. -/
def apply_op (info : fs_info) (out : output_file) : out_op → output_file
  | out_op.write off data => write_data_block info out off data
  | out_op.pad len => pad_output_file info out len

/-- The output file after a sequence of calls. -/
def run_ops (info : fs_info) (out : output_file) (ops : List out_op) : output_file :=
  ops.foldl (apply_op info) out

/-- The logical image after one more call: a payload lands at its offset, the gap
before it reading as zero; padding writes nothing. -/
def image_step (img : List u8) : out_op → List u8
  | out_op.write off data => file_write_at img off data
  | out_op.pad _ => img

/-- The written part of the logical image: every payload at its offset, zero bytes
between them. -/
def logical_image (ops : List out_op) : List u8 :=
  ops.foldl image_step []

/-- An image continued with zero bytes up to length `n`. -/
def zero_extend (img : List u8) (n : Nat) : List u8 :=
  img ++ List.replicate (n - img.length) 0

/-- The bytes of one chunk record: the chunk header and the payload. -/
def chunk_record (c : chunk_header_t × List u8) : List u8 :=
  chunk_header_bytes c.1 ++ c.2

/-- What holds of a sparse output file after calls that printed no warning: the file is
the header followed by chunk records, one per counted chunk, and the checksum is that
of the logical image `img` continued with zeros up to the cursor. -/
def encoder_inv (info : fs_info) (out : output_file) (img : List u8) (bound : Nat) : Prop :=
  out.sparse = true
  ∧ out.fpos = out.file.length
  ∧ out.warns = []
  ∧ img.length ≤ out.cur_out_ptr
  ∧ out.crc32 = sparse_crc32 0 (zero_extend img out.cur_out_ptr)
  ∧ out.chunk_cnt ≤ bound
  ∧ ∃ chunks : List (chunk_header_t × List u8),
      out.file = sparse_header_bytes (closed_header info 0 0)
        ++ (chunks.map chunk_record).flatten
      ∧ (∀ c ∈ chunks, c.1.total_sz = 12 + c.2.length)
      ∧ out.chunk_cnt = chunks.length

/-- The header of the `DontCare` chunk that stands for `skip_len` skipped bytes. -/
def skip_chunk_header (info : fs_info) (skip_len : Nat) : chunk_header_t :=
  { chunk_type := CHUNK_TYPE_DONT_CARE, reserved1 := 0,
    chunk_sz := u32_wrap (skip_len / info.block_size), total_sz := CHUNK_HEADER_LEN }

/-! ## An image with wrong totals -/

/-- The enumeration `cmd_backup_method` of `commands.h`. -/
inductive cmd_backup_method where
  | ext4
  | ext4_sparse
  | dump
  | yaffs2
  deriving DecidableEq, Repr

/-- The size of the payload of a YAFFS2 unit. -/
def YAFFS2_CHUNK_SIZE : Nat := 2048

/-- The size of the tag area of a YAFFS2 unit. -/
def YAFFS2_SPARE_SIZE : Nat := 64

/-- The magic number of the EXT4 superblock (`ext4_utils.h`), `0xEF53`. -/
def EXT4_SUPER_MAGIC : Nat := 61267

/-- Modelled from the spec: `diskconfig/diskconfig.h` is not among the sources.  The MBR
boot signature `0xAA55`. -/
def PC_BIOS_BOOT_SIG : Nat := 43605

/-- Modelled from the spec: `diskconfig/diskconfig.h` is not among the sources.  The
offset of `mbr_sig` in `struct pc_boot_record`: the signature is the last two bytes of
the 512-byte boot sector. -/
def MBR_SIG_OFFSET : Nat := 510

/-- Modelled from the spec: `ext4_utils/ext4.h` is not among the sources.  The offset of
the 16-bit field `s_magic` in `struct ext4_super_block`. -/
def S_MAGIC_OFFSET : Nat := 56

/-- Modelled from the spec: `yaffs_guts.h` is not among the sources.  The value of
`YAFFS_OBJECT_TYPE_DIRECTORY` in the enumeration of object types (unknown, file,
symlink, directory, hard link, special). -/
def YAFFS_OBJECT_TYPE_DIRECTORY : Nat := 3

/-- Modelled from the spec: `yaffs_guts.h` is not among the sources.  The offset of the
32-bit field `parentObjectId` in `yaffs_ObjectHeader`, behind the 32-bit `type`. -/
def OH_PARENT_OFFSET : Nat := 4

/-- Modelled from the spec: `yaffs_guts.h` is not among the sources.  The offset of
`name` in `yaffs_ObjectHeader`, behind `type`, `parentObjectId` and a 16-bit checksum
field. -/
def OH_NAME_OFFSET : Nat := 10

/-- Modelled from the spec: `yaffs_packedtags2.h` is not among the sources.  The offset
of the 32-bit field `byteCount` in the tags, behind the sequence number, the object id
and the chunk id. -/
def PT_BYTE_COUNT_OFFSET : Nat := 12

/-- The lines that `cmd_restore_divine_method` passes to `LOGE`. -/
inductive divine_log where
  | unable_to_read
  | unable_to_open
  deriving DecidableEq, Repr

/-- What the calls of the detector meet: the bytes that `gzread` delivers for the source
file (`none` when `gzopen` fails) and whether `gzread` fails. -/
structure divine_env where
  source : Option (List u8)
  read_error : Bool
  deriving DecidableEq, Repr

/-- The return value of the detector, the value left in `*method` and the log lines. -/
structure divine_result where
  result : Int
  method : cmd_backup_method
  logs : List divine_log
  deriving DecidableEq, Repr

/-- The 8192-byte buffer after `memset` to zero and a `gzread` of up to 8192 bytes. -/
def divine_buffer (src : List u8) : List u8 :=
  src.take 8192 ++ List.replicate (8192 - (src.take 8192).length) 0

/-- The function `cmd_restore_divine_method`, for non-NULL arguments. -/
def cmd_restore_divine_method (env : divine_env) : divine_result :=
  match env.source with
  | none => { result := -1, method := cmd_backup_method.dump, logs := [divine_log.unable_to_open] }
  | some src =>
    let cb : Int := if env.read_error then -1 else ((src.take 8192).length : Nat)
    let buffer := if env.read_error then divine_buffer [] else divine_buffer src
    if cb > 0 then
      let st0 : Int × cmd_backup_method := (-1, cmd_backup_method.dump)
      let st1 :=
        if st0.1 = -1 then
          if rd32 buffer 0 = SPARSE_HEADER_MAGIC then (0, cmd_backup_method.ext4_sparse)
          else st0
        else st0
      let st2 :=
        if st1.1 = -1 then
          if rd16 buffer MBR_SIG_OFFSET = PC_BIOS_BOOT_SIG then (0, cmd_backup_method.dump)
          else st1
        else st1
      let st3 :=
        if st2.1 = -1 then
          if rd16 buffer (1024 + S_MAGIC_OFFSET) = EXT4_SUPER_MAGIC
          then (0, cmd_backup_method.ext4)
          else st2
        else st2
      let st4 :=
        if st3.1 = -1 then
          let chunk_1 := YAFFS2_CHUNK_SIZE + YAFFS2_SPARE_SIZE
          if rd32 buffer 0 = YAFFS_OBJECT_TYPE_DIRECTORY ∧ rd32 buffer OH_PARENT_OFFSET = 1
              ∧ byte_at buffer OH_NAME_OFFSET = 0 then
            if rd32 buffer (chunk_1 + OH_PARENT_OFFSET) = 1
                ∧ byte_at buffer (chunk_1 + OH_NAME_OFFSET) ≠ 0
            then (0, cmd_backup_method.yaffs2)
            else st3
          else st3
        else st3
      { result := st4.1, method := st4.2, logs := [] }
    else if cb = -1 then
      { result := -1, method := cmd_backup_method.dump, logs := [divine_log.unable_to_read] }
    else
      { result := -1, method := cmd_backup_method.dump, logs := [] }

/-- The sparse magic lies at offset 0 of the buffer. -/
def has_sparse_magic (buf : List u8) : Bool := rd32 buf 0 = SPARSE_HEADER_MAGIC

/-- The MBR boot signature lies in bytes 510 and 511 of the buffer. -/
def has_mbr_signature (buf : List u8) : Bool := rd16 buf 510 = PC_BIOS_BOOT_SIG

/-- The EXT4 magic lies in the superblock that starts at offset 1024 of the buffer. -/
def has_ext4_magic (buf : List u8) : Bool := rd16 buf 1080 = EXT4_SUPER_MAGIC

/-- The two-header heuristic for YAFFS2: the first unit is the header of a directory
with parent 1 and an empty name, the second unit, at offset 2112, a header with parent
1 and a name that is not empty. -/
def has_yaffs2_headers (buf : List u8) : Bool :=
  (rd32 buf 0 = 3 ∧ rd32 buf 4 = 1 ∧ byte_at buf 10 = 0)
    ∧ (rd32 buf 2116 = 1 ∧ byte_at buf 2122 ≠ 0)

/-- A detector result without log lines. -/
def divined (result : Int) (method : cmd_backup_method) : divine_result :=
  { result := result, method := method, logs := [] }

/-- A boot sector with the MBR signature, followed by zeros up to the EXT4 magic of a
superblock at offset 1024. -/
def mbr_and_ext4_image : List u8 :=
  List.replicate 510 0 ++ [85, 170] ++ List.replicate 568 0 ++ [83, 239]

/-- The tag byte-count of the unit at the start of a stream: the field `byteCount` of
the tags behind the 2048 bytes of payload. -/
def yaffs2_byte_count (unit : List u8) : Nat :=
  rd32 unit (YAFFS2_CHUNK_SIZE + PT_BYTE_COUNT_OFFSET)

/-- Two units of 2112 bytes: the header of a directory with parent 1 and an empty name,
tagged with the byte-count `0xFFFF`, and a unit whose payload starts like the header of
a file named `a` with parent 1 but whose tag carries the byte-count 5. -/
def yaffs2_like_image : List u8 :=
  [3, 0, 0, 0, 1, 0, 0, 0] ++ List.replicate 2040 0
    ++ ([0, 0, 0, 0, 0, 0, 0, 0, 0, 0, 0, 0, 255, 255, 0, 0] ++ List.replicate 48 0)
    ++ ([1, 0, 0, 0, 1, 0, 0, 0, 0, 0, 97] ++ List.replicate 2037 0)
    ++ ([0, 0, 0, 0, 0, 0, 0, 0, 0, 0, 0, 0, 5, 0, 0, 0] ++ List.replicate 48 0)

/-! ## The raw dump: `backup_dump_ui` of `backup.c` -/

/-- The structure `ui_callbacks`: whether each of its two function pointers is set. -/
structure ui_callbacks where
  uiprint : Bool
  progress : Bool
  deriving DecidableEq, Repr

/-- The macros `UI_WARNING` and `UI_ERROR`: the line reaches the sink only when the
pointer to the callbacks and the pointer `uiprint` in it are both set. -/
def ui_line {α : Type} (callbacks : Option ui_callbacks) (m : α) : List α :=
  match callbacks with
  | none => []
  | some cb => if cb.uiprint then [m] else []

/-- The error code `EINVAL`. -/
def EINVAL : Int := 22

/-- The lines that `backup_dump_ui` passes to `UI_WARNING` and `UI_ERROR`. -/
inductive dump_msg where
  | size_unknown
  | cannot_open_input
  | cannot_open_output
  | write_error
  | read_error
  deriving DecidableEq, Repr

/-- What the calls of `backup_dump_ui` meet: the result of `volume_size`, the bytes of
the device `volume->device` (`none` when `open` fails), whether `gzopen` of the image
file succeeds, and the value of `errno` after a failing call. -/
structure dump_env where
  size_result : Int
  device : Option (List u8)
  dest_ok : Bool
  errno : Int
  deriving DecidableEq, Repr

/-- What a raw dump leaves behind: the return value, the stream stored in the image
file, as `gzread` delivers it (`none` when the file was not created), and the lines
that reached the sink. -/
structure dump_result where
  result : Int
  image : Option (List u8)
  msgs : List dump_msg
  deriving DecidableEq, Repr

/-- The call `gzwrite(dest, buffer, n)`: the bytes are added to the stream. -/
def gzwrite (dest : List u8) (buffer : List u8) : Int × List u8 :=
  ((buffer.length : Nat), dest ++ buffer)

/-- The copy loop of `backup_dump_ui` with its buffer of 4096 bytes; the result carries
`badthings`, the stream written and the lines for the sink.  The first argument bounds
the number of steps: every step takes at least one byte from the device. -/
def backup_dump_loop (callbacks : Option ui_callbacks) :
    Nat → List u8 → List u8 → Int × List u8 × List dump_msg
  | 0, _, dest => (0, dest, [])
  | fuel + 1, source, dest =>
    let buffer := source.take 4096
    let cbread : Int := (buffer.length : Nat)
    if cbread > 0 then
      let w := gzwrite dest buffer
      if w.1 < cbread then (-1, w.2, ui_line callbacks dump_msg.write_error)
      else backup_dump_loop callbacks fuel (source.drop 4096) w.2
    else if cbread < 0 then (-1, dest, ui_line callbacks dump_msg.read_error)
    else (0, dest, [])

/-- The function `backup_dump_ui`, for non-NULL `volume` and `imgfile`; `read` on the
open device delivers its bytes, and the progress calls are left out. -/
def backup_dump_ui (env : dump_env) (_gzip : Bool) (callbacks : Option ui_callbacks) :
    dump_result :=
  let m0 := if env.size_result ≠ 0 then ui_line callbacks dump_msg.size_unknown else []
  match env.device with
  | none =>
    { result := env.errno, image := none,
      msgs := m0 ++ ui_line callbacks dump_msg.cannot_open_input }
  | some dev =>
    if ¬ env.dest_ok then
      { result := env.errno, image := none,
        msgs := m0 ++ ui_line callbacks dump_msg.cannot_open_output }
    else
      let r := backup_dump_loop callbacks (dev.length + 1) dev []
      { result := if r.1 ≠ 0 then -1 else 0, image := some r.2.1, msgs := m0 ++ r.2.2 }

/-- The function `backup_dump`: the call of `backup_dump_ui` with a NULL sink. -/
def backup_dump (env : dump_env) (gzip : Bool) : dump_result :=
  backup_dump_ui env gzip none

/-- A device of 512 zero bytes. -/
def blank_device : List u8 := List.replicate 512 0

/-! ## The YAFFS2 restore: `restore_yaffs2_ui` of `restore.c` -/

/-- The size of the object table `obj_list`. -/
def YAFFS2_MAX_OBJECTS : Nat := 50000

/-- The object id of the root directory. -/
def YAFFS2_YAFFS_OBJECTID_ROOT : Nat := 1

/-- Modelled from the spec: `yaffs_guts.h` is not among the sources.  The value of
`YAFFS_OBJECT_TYPE_FILE`. -/
def YAFFS_OBJECT_TYPE_FILE : Nat := 1

/-- Modelled from the spec: `yaffs_guts.h` is not among the sources.  The value of
`YAFFS_OBJECT_TYPE_SYMLINK`. -/
def YAFFS_OBJECT_TYPE_SYMLINK : Nat := 2

/-- Modelled from the spec: `yaffs_guts.h` is not among the sources.  The value of
`YAFFS_OBJECT_TYPE_HARDLINK`. -/
def YAFFS_OBJECT_TYPE_HARDLINK : Nat := 4

/-- Modelled from the spec: `yaffs_guts.h` is not among the sources.  The size of
`yaffs_ObjectHeader`. -/
def OH_SIZE : Nat := 512

/-- Modelled from the spec: `yaffs_guts.h` is not among the sources.  The offset of
`yst_mode` in `yaffs_ObjectHeader`, behind the 256 bytes of the name; the fields
`yst_uid`, `yst_gid`, `yst_atime`, `yst_mtime`, `yst_ctime`, `fileSize` and
`equivalentObjectId` follow, 32 bits each, then the alias. -/
def OH_MODE_OFFSET : Nat := 268

/-- Modelled from the spec: `yaffs_packedtags2.h` is not among the sources.  The offset
of the 32-bit field `objectId` in the tags, behind the sequence number. -/
def PT_OBJECT_ID_OFFSET : Nat := 4

/-- The lines that the YAFFS2 restore passes to `UI_ERROR`. -/
inductive yaffs2_msg where
  | corrupt
  | cannot_open
  | gzdopen_failed
  deriving DecidableEq, Repr

/-- The calls that the YAFFS2 restore makes on the file system; paths are the bytes of
the C strings, and the target of `link` is `none` for a NULL pointer. -/
inductive fs_call where
  | creat (path : List u8) (mode : Nat)
  | write (data : List u8)
  | close
  | symlink (target path : List u8)
  | mkdir (path : List u8) (mode : Nat)
  | link (target : Option (List u8)) (path : List u8)
  | lchown (path : List u8) (uid gid : Nat)
  | chmod (path : List u8) (mode : Nat)
  | utimes (path : List u8) (atime mtime : Nat)
  deriving DecidableEq, Repr

/-- The structure `YAFFS2_STATE`, together with what the restore acts on: the buffer of
one unit, the entries of `obj_list` that are set (the last one set for an index comes
first), the rest of the image stream, the sink, and the calls and lines so far. -/
structure yaffs2_state where
  data : List u8
  obj_list : List (Nat × List u8)
  img : List u8
  callbacks : Option ui_callbacks
  calls : List fs_call
  msgs : List yaffs2_msg
  deriving DecidableEq, Repr

/-- The bytes of a C string that starts at the head of `b`. -/
def cstr (b : List u8) : List u8 := b.takeWhile (fun c => c ≠ 0)

/-- The entry `obj_list[i]` for an `int` index: `none` outside the table, `some none`
for a NULL entry. -/
def obj_list_get (obj_list : List (Nat × List u8)) (i : Int) : Option (Option (List u8)) :=
  if i < 0 ∨ i ≥ (YAFFS2_MAX_OBJECTS : Nat) then none
  else some ((obj_list.find? (fun e => e.1 = i.toNat)).map (fun e => e.2))

/-- The function `yaffs2_read_chunk`: the buffer is filled with `0xFF` and the next unit
is read into it; the progress calls are left out. -/
def yaffs2_read_chunk (s : yaffs2_state) : Int × yaffs2_state :=
  let got := s.img.take (YAFFS2_CHUNK_SIZE + YAFFS2_SPARE_SIZE)
  let cb := got.length
  let s1 := { s with
    data := got ++ List.replicate (YAFFS2_CHUNK_SIZE + YAFFS2_SPARE_SIZE - cb) 255,
    img := s.img.drop (YAFFS2_CHUNK_SIZE + YAFFS2_SPARE_SIZE) }
  if cb = YAFFS2_CHUNK_SIZE + YAFFS2_SPARE_SIZE then (0, s1)
  else if cb > 0 then (-1, { s1 with msgs := s1.msgs ++ ui_line s.callbacks yaffs2_msg.corrupt })
  else (-1, s1)

/-- The loop of `yaffs2_process_chunk` that copies the data of a file; the flag in the
result is `false` when the loop is left by `return`, and the result is `none` when
`write` is given more bytes than the buffer holds.  The first argument bounds the
number of steps: every step reads a unit. -/
def yaffs2_file_loop : Nat → Nat → yaffs2_state → Option (Bool × yaffs2_state)
  | 0, remain, s => some (decide (remain = 0), s)
  | fuel + 1, remain, s =>
    if remain > 0 then
      let r := yaffs2_read_chunk s
      if r.1 ≠ 0 then some (false, r.2)
      else
        let byteCount := rd32 r.2.data (YAFFS2_CHUNK_SIZE + PT_BYTE_COUNT_OFFSET)
        let n := if remain < byteCount then remain else byteCount
        if n > YAFFS2_CHUNK_SIZE + YAFFS2_SPARE_SIZE then none
        else
          yaffs2_file_loop fuel (remain - n)
            { r.2 with calls := r.2.calls ++ [fs_call.write (r.2.data.take n)] }
    else some (true, s)

/-- The function `yaffs2_process_chunk`; `none` stands for undefined behaviour (an index
outside `obj_list`, a NULL parent path, a `write` beyond the buffer).  `malloc` and the
file system calls succeed. -/
def yaffs2_process_chunk (s : yaffs2_state) : Option yaffs2_state :=
  if rd32 s.data (YAFFS2_CHUNK_SIZE + PT_BYTE_COUNT_OFFSET) = 65535 then
    let oh := s.data.take OH_SIZE
    match obj_list_get s.obj_list (to_int32 (rd32 oh OH_PARENT_OFFSET)) with
    | none => none
    | some none => none
    | some (some parent) =>
      let full_path_name := parent ++ [47] ++ cstr (oh.drop OH_NAME_OFFSET)
      let objectId := rd32 s.data (YAFFS2_CHUNK_SIZE + PT_OBJECT_ID_OFFSET)
      if objectId ≥ YAFFS2_MAX_OBJECTS then none
      else
        let s1 := { s with obj_list := (objectId, full_path_name) :: s.obj_list }
        let type := rd32 oh 0
        let yst_mode := rd32 oh OH_MODE_OFFSET
        let r : Option (Bool × yaffs2_state) :=
          if type = YAFFS_OBJECT_TYPE_FILE then
            let s2 := { s1 with calls := s1.calls ++ [fs_call.creat full_path_name yst_mode] }
            match yaffs2_file_loop (s2.img.length + 1) (rd32 oh (OH_MODE_OFFSET + 24)) s2 with
            | none => none
            | some (true, s3) => some (true, { s3 with calls := s3.calls ++ [fs_call.close] })
            | some (false, s3) => some (false, s3)
          else if type = YAFFS_OBJECT_TYPE_SYMLINK then
            some (true, { s1 with calls := s1.calls
              ++ [fs_call.symlink (cstr (oh.drop (OH_MODE_OFFSET + 32))) full_path_name] })
          else if type = YAFFS_OBJECT_TYPE_DIRECTORY then
            some (true, { s1 with calls := s1.calls ++ [fs_call.mkdir full_path_name 511] })
          else if type = YAFFS_OBJECT_TYPE_HARDLINK then
            match obj_list_get s1.obj_list (to_int32 (rd32 oh (OH_MODE_OFFSET + 28))) with
            | none => none
            | some target =>
              some (true, { s1 with calls := s1.calls ++ [fs_call.link target full_path_name] })
          else some (true, s1)
        match r with
        | none => none
        | some (false, s4) => some s4
        | some (true, s4) =>
          some { s4 with calls := s4.calls
            ++ [fs_call.lchown full_path_name (rd32 oh (OH_MODE_OFFSET + 4))
                  (rd32 oh (OH_MODE_OFFSET + 8))]
            ++ (if type ≠ YAFFS_OBJECT_TYPE_SYMLINK then [fs_call.chmod full_path_name yst_mode]
                else [])
            ++ [fs_call.utimes full_path_name (rd32 oh (OH_MODE_OFFSET + 12))
                  (rd32 oh (OH_MODE_OFFSET + 16))] }
  else some s

/-- The loop `while(yaffs2_read_chunk(&state) != -1) yaffs2_process_chunk(&state)`.  The
first argument bounds the number of turns: every turn reads a unit. -/
def yaffs2_replay : Nat → yaffs2_state → Option yaffs2_state
  | 0, s => some s
  | fuel + 1, s =>
    let r := yaffs2_read_chunk s
    if r.1 ≠ -1 then
      match yaffs2_process_chunk r.2 with
      | none => none
      | some s1 => yaffs2_replay fuel s1
    else some r.2

/-- What the calls of `restore_yaffs2_ui` meet: the stream that `gzread` delivers for
the image file (`none` when `open` fails), whether `gzdopen` succeeds, and the value
of `errno` after a failing call. -/
structure yaffs2_env where
  imgfile : Option (List u8)
  gzdopen_ok : Bool
  errno : Int
  deriving DecidableEq, Repr

/-- What a YAFFS2 restore leaves behind: the return value, the calls made on the file
system and the lines that reached the sink. -/
structure yaffs2_result where
  result : Int
  calls : List fs_call
  msgs : List yaffs2_msg
  deriving DecidableEq, Repr

/-- The state that `yaffs2_init_state` sets up, with the image stream attached. -/
def yaffs2_init_state (img directory : List u8) (callbacks : Option ui_callbacks) :
    yaffs2_state :=
  { data := List.replicate (YAFFS2_CHUNK_SIZE + YAFFS2_SPARE_SIZE) 0,
    obj_list := [(YAFFS2_YAFFS_OBJECTID_ROOT, directory)],
    img := img, callbacks := callbacks, calls := [], msgs := [] }

/-- The function `restore_yaffs2_ui`, for non-NULL `imgfile` and `directory`; `none`
stands for undefined behaviour during the replay. -/
def restore_yaffs2_ui (env : yaffs2_env) (directory : List u8)
    (callbacks : Option ui_callbacks) : Option yaffs2_result :=
  let result : Int := 0
  match env.imgfile with
  | none =>
    some { result := result, calls := [], msgs := ui_line callbacks yaffs2_msg.cannot_open }
  | some img =>
    if env.gzdopen_ok then
      match yaffs2_replay (img.length + 1) (yaffs2_init_state img directory callbacks) with
      | none => none
      | some s => some { result := 0, calls := s.calls, msgs := s.msgs }
    else
      some { result := env.errno, calls := [],
             msgs := ui_line callbacks yaffs2_msg.gzdopen_failed }

/-- The function `restore_yaffs2`: the call of `restore_yaffs2_ui` with a NULL sink. -/
def restore_yaffs2 (env : yaffs2_env) (directory : List u8) : Option yaffs2_result :=
  restore_yaffs2_ui env directory none

/-- A unit of 2112 bytes whose payload starts with `head` and whose tags carry the
object id `object_id` and the byte-count `byte_count`. -/
def yaffs2_unit (head : List u8) (object_id byte_count : Nat) : List u8 :=
  head ++ List.replicate (2048 - head.length) 0
    ++ (le32 0 ++ le32 object_id ++ le32 0 ++ le32 byte_count ++ List.replicate 48 0)

/-- A stream of two units: a unit with the byte-count 5, and the header of a directory
`d` below the root (object id 257, byte-count `0xFFFF`). -/
def yaffs2_desync_image : List u8 :=
  yaffs2_unit [7, 7, 7, 7, 7] 300 5
    ++ yaffs2_unit [3, 0, 0, 0, 1, 0, 0, 0, 0, 0, 100] 257 65535

/-! ## The EXT4 backup entry points of `backup.c` -/

/-- The line that `backup_ext4_internal` passes to `UI_ERROR`. -/
inductive ext4_backup_msg where
  | cannot_determine_size
  deriving DecidableEq, Repr

/-- What the calls of `backup_ext4_internal` meet: the result of `volume_size` and the
result of `make_ext4fs` (which is not among the sources) for the flags `gzip` and
`sparse`. -/
structure ext4_backup_env where
  size_result : Int
  make_ext4fs : Bool → Bool → Int

/-- The return value of an EXT4 backup and the lines that reached the sink. -/
structure ext4_backup_result where
  result : Int
  msgs : List ext4_backup_msg
  deriving DecidableEq, Repr

/-- The function `backup_ext4_internal`, for non-NULL `volume` and `imgfile`; `none`
stands for the read of `callbacks->uiprint` through a NULL pointer. -/
def backup_ext4_internal (env : ext4_backup_env) (callbacks : Option ui_callbacks)
    (gzip sparse : Bool) : Option ext4_backup_result :=
  if env.size_result ≠ 0 then
    some { result := env.size_result,
           msgs := ui_line callbacks ext4_backup_msg.cannot_determine_size }
  else
    match callbacks with
    | none => none
    | some _ => some { result := env.make_ext4fs gzip sparse, msgs := [] }

/-- The function `backup_ext4_ui`. -/
def backup_ext4_ui (env : ext4_backup_env) (gzip : Bool) (callbacks : Option ui_callbacks) :
    Option ext4_backup_result :=
  backup_ext4_internal env callbacks gzip false

/-- The function `backup_ext4`: the call of `backup_ext4_ui` with a NULL sink. -/
def backup_ext4 (env : ext4_backup_env) (gzip : Bool) : Option ext4_backup_result :=
  backup_ext4_ui env gzip none

/-- The function `backup_ext4_sparse_ui`. -/
def backup_ext4_sparse_ui (env : ext4_backup_env) (gzip : Bool)
    (callbacks : Option ui_callbacks) : Option ext4_backup_result :=
  backup_ext4_internal env callbacks gzip true

/-- The function `backup_ext4_sparse`: the call of `backup_ext4_sparse_ui` with a NULL
sink. -/
def backup_ext4_sparse (env : ext4_backup_env) (gzip : Bool) : Option ext4_backup_result :=
  backup_ext4_sparse_ui env gzip none

/-- A sink whose two callbacks are not set: every line and every progress value is
discarded. -/
def discarding_sink : ui_callbacks := { uiprint := false, progress := false }

/-! ## The convert workflow: `cmd_convert_volume` of `commands.c` -/

/-- What `cmd_convert_volume` does, step by step: the calls on the volumes and codecs,
the lines printed and the lines logged. -/
inductive convert_event where
  | print_converting
  | log_cannot_locate_dest
  | mount_dest
  | log_cannot_mount_dest (result : Int)
  | mount_source
  | log_cannot_mount_source (result : Int)
  | backup
  | log_backup_failed (result : Int)
  | format
  | log_format_failed (result : Int)
  | restore
  | log_restore_failed
  | remove_temp
  | warn_remove_failed (result : Int)
  | unmount_source
  | unmount_dest
  | print_converted
  | volume_stats
  | print_stats
  | ui_reset_progress
  deriving DecidableEq, Repr

/-- What the calls of `cmd_convert_volume` return: whether `get_volume_for_path` finds
the volume of the temporary file, the result and the mounted flag of the two calls of
`mount_volume`, and the results of `backup_yaffs2_ui`, `format_volume`,
`restore_yaffs2_ui`, `remove` and `volume_stats`. -/
structure convert_env where
  destvol_found : Bool
  mount_dest : Int × Bool
  mount_source : Int × Bool
  backup : Int
  format : Int
  restore : Int
  remove : Int
  stats : Int
  deriving DecidableEq, Repr

/-- The function `cmd_convert_volume`, as the sequence of its steps (the calls that
only drive the progress bar and clear the text are left out).  When the volume of the
temporary file is not found, the log line reads `destvol->name` through the NULL
pointer; the step is recorded as `log_cannot_locate_dest` and the function ends. -/
def cmd_convert_volume (env : convert_env) : List convert_event :=
  let t0 := [convert_event.print_converting]
  if ¬ env.destvol_found then t0 ++ [convert_event.log_cannot_locate_dest]
  else
    let destmounted := env.mount_dest.2
    let t1 := t0 ++ [convert_event.mount_dest]
    if env.mount_dest.1 ≠ 0 then t1 ++ [convert_event.log_cannot_mount_dest env.mount_dest.1]
    else
      let srcmounted := env.mount_source.2
      let t2 := t1 ++ [convert_event.mount_source]
      let r : Int × List convert_event :=
        if env.mount_source.1 = 0 then
          let b : Int × List convert_event :=
            if env.backup = 0 then
              if env.format = 0 then
                let t := [convert_event.format, convert_event.restore]
                  ++ (if env.restore ≠ 0 then [convert_event.log_restore_failed] else [])
                (env.remove, t ++ [convert_event.remove_temp]
                  ++ (if env.remove ≠ 0 then [convert_event.warn_remove_failed env.remove]
                      else []))
              else (env.format, [convert_event.format, convert_event.log_format_failed env.format])
            else (env.backup, [convert_event.log_backup_failed env.backup])
          (b.1, [convert_event.backup] ++ b.2
            ++ (if srcmounted then [convert_event.unmount_source] else []))
        else (env.mount_source.1, [convert_event.log_cannot_mount_source env.mount_source.1])
      let t3 := t2 ++ r.2 ++ (if destmounted then [convert_event.unmount_dest] else [])
      let t4 :=
        if r.1 = 0 then
          t3 ++ [convert_event.print_converted, convert_event.volume_stats]
            ++ (if env.stats = 0 then [convert_event.print_stats] else [])
        else t3
      t4 ++ [convert_event.ui_reset_progress]

/-- The calls meet no failure except that the restore returns -1. -/
def convert_restore_fails : convert_env :=
  { destvol_found := true, mount_dest := (0, true), mount_source := (0, true),
    backup := 0, format := 0, restore := -1, remove := 0, stats := 0 }

/-- The calls meet no failure except that the temporary image cannot be removed. -/
def convert_remove_fails : convert_env :=
  { destvol_found := true, mount_dest := (0, true), mount_source := (0, true),
    backup := 0, format := 0, restore := 0, remove := -1, stats := 0 }

/-- The backup to the temporary image fails. -/
def convert_backup_fails : convert_env :=
  { destvol_found := true, mount_dest := (0, true), mount_source := (0, false),
    backup := 5, format := 0, restore := 0, remove := 0, stats := 0 }

/-- The payload of the header of a file `f` below the root with the declared size
`size`: type 1, parent 1, the name, zeros up to the field `fileSize`. -/
def yaffs2_file_header (size : Nat) : List u8 :=
  [1, 0, 0, 0, 1, 0, 0, 0, 0, 0, 102] ++ List.replicate 281 0 ++ le32 size

/-- The header of a file of 3000 bytes, followed by one unit whose payload is filled with
the byte 7 and whose tag carries the byte-count 2100. -/
def yaffs2_overlong_image : List u8 :=
  yaffs2_unit (yaffs2_file_header 3000) 257 65535
    ++ yaffs2_unit (List.replicate 2048 7) 257 2100

/-- The header of a file of 5000 bytes, followed by one unit whose tag carries the
byte-count 5000. -/
def yaffs2_overrun_image : List u8 :=
  yaffs2_unit (yaffs2_file_header 5000) 257 65535
    ++ yaffs2_unit (List.replicate 2048 7) 257 5000

/-- A unit buffer holding the header of a directory `d` below the root, with the object
id 257. -/
def yaffs2_dir_unit : List u8 :=
  yaffs2_unit [3, 0, 0, 0, 1, 0, 0, 0, 0, 0, 100] 257 65535

/-- The state in which the unit buffer holds `yaffs2_dir_unit`, at the start of a restore
into the directory `/x`. -/
def yaffs2_dir_state : yaffs2_state :=
  { data := yaffs2_dir_unit, obj_list := [(1, [47, 120])], img := [], callbacks := none,
    calls := [], msgs := [] }

/-- A unit whose payload is filled with the byte 7 and whose tag carries the byte-count
2048. -/
def yaffs2_full_unit : List u8 := yaffs2_unit (List.replicate 2048 7) 257 2048

/-- The state in which the unit buffer holds the header of a file of 3000 bytes and the
stream goes on with two full units. -/
def yaffs2_file_state : yaffs2_state :=
  { data := yaffs2_unit (yaffs2_file_header 3000) 257 65535, obj_list := [(1, [47, 120])],
    img := yaffs2_full_unit ++ yaffs2_full_unit, callbacks := none, calls := [], msgs := [] }

/-! ## The device wipe: `cmd_wipe_device` of `commands.c` -/

/-- What `cmd_wipe_device` does, step by step; volumes are named by their position in
the volume table. -/
inductive wipe_event where
  | ui_clear_text
  | ui_show_indeterminate_progress
  | print_wiping
  | mount_volume (index : Nat)
  | warn_cannot_mount (index : Nat)
  | wipe_volume (index : Nat)
  | warn_unable_to_wipe (index : Nat) (result : Int)
  | unmount_volume (index : Nat)
  | mount_sdcard
  | unlink_android_secure
  | unlink_android
  | unmount_sdcard
  | warn_cannot_mount_sdcard
  | warn_no_sdcard
  | print_partially_wiped
  | print_wiped
  | ui_reset_progress
  deriving DecidableEq, Repr

/-- An entry of the volume table as `cmd_wipe_device` meets it: whether the field `wipe`
starts with `'1'`, what `mount_volume` gives for the volume (the result and whether the
call mounted it), at every call alike, and what `wipe_volume` returns. -/
structure wipe_volume_env where
  wipe : Bool
  mount : Int × Bool
  wipe_result : Int
  deriving DecidableEq, Repr

/-- What the calls of `cmd_wipe_device` meet: the volume table in the order of
`foreach_volume`, and what `mount_volume` gives for the volume `SDCARD` (`none` when
`get_volume` does not find it). -/
structure wipe_env where
  volumes : List wipe_volume_env
  sdcard : Option (Int × Bool)
  deriving DecidableEq, Repr

/-- The loop `while(iterator != NULL)` of `cmd_wipe_device` from the volume at position
`index` on, with the flag `failed` and the steps so far.  The first argument bounds the
number of turns; the result is `none` when the loop has not ended after them.  After a
failed mount the turn ends by `continue`, before `iterator` is moved. -/
def cmd_wipe_device_loop :
    Nat → Nat → List wipe_volume_env → Nat → List wipe_event → Option (Nat × List wipe_event)
  | 0, _, _, _, _ => none
  | _ + 1, _, [], failed, events => some (failed, events)
  | fuel + 1, index, v :: rest, failed, events =>
    if v.wipe then
      if v.mount.1 ≠ 0 then
        cmd_wipe_device_loop fuel index (v :: rest) 1
          (events ++ [wipe_event.mount_volume index, wipe_event.warn_cannot_mount index])
      else
        cmd_wipe_device_loop fuel (index + 1) rest (if v.wipe_result ≠ 0 then 1 else failed)
          (events ++ [wipe_event.mount_volume index, wipe_event.wipe_volume index]
            ++ (if v.wipe_result ≠ 0 then [wipe_event.warn_unable_to_wipe index v.wipe_result]
                else [])
            ++ (if v.mount.2 then [wipe_event.unmount_volume index] else []))
    else cmd_wipe_device_loop fuel (index + 1) rest failed events

/-- The function `cmd_wipe_device` as the list of its steps; the first argument bounds
the number of turns of its loop, and `none` stands for a loop that has not ended. -/
def cmd_wipe_device (fuel : Nat) (env : wipe_env) : Option (List wipe_event) :=
  match cmd_wipe_device_loop fuel 0 env.volumes 0
      [wipe_event.ui_clear_text, wipe_event.ui_show_indeterminate_progress,
       wipe_event.print_wiping] with
  | none => none
  | some (failed, events) =>
    let r : Nat × List wipe_event :=
      match env.sdcard with
      | some m =>
        if m.1 = 0 then
          (failed, events ++ [wipe_event.mount_sdcard, wipe_event.unlink_android_secure,
            wipe_event.unlink_android]
            ++ (if m.2 then [wipe_event.unmount_sdcard] else []))
        else (1, events ++ [wipe_event.mount_sdcard, wipe_event.warn_cannot_mount_sdcard])
      | none => (1, events ++ [wipe_event.warn_no_sdcard])
    some (r.2
      ++ [if r.1 ≠ 0 then wipe_event.print_partially_wiped else wipe_event.print_wiped,
          wipe_event.ui_reset_progress])

/-- A table of two volumes flagged for the wipe, of which the first cannot be mounted. -/
def wipe_mount_fails : wipe_env :=
  { volumes := [{ wipe := true, mount := (-1, false), wipe_result := 0 },
                { wipe := true, mount := (0, true), wipe_result := 0 }],
    sdcard := some (0, true) }

/-- A table of three volumes, the first not flagged for the wipe, the second with a
failing `wipe_volume`. -/
def wipe_format_fails : wipe_env :=
  { volumes := [{ wipe := false, mount := (0, true), wipe_result := 0 },
                { wipe := true, mount := (0, true), wipe_result := 5 },
                { wipe := true, mount := (0, false), wipe_result := 0 }],
    sdcard := some (0, true) }

/-! ## The device backup: `cmd_backup_device` of `commands.c` -/

/-- What `cmd_backup_device` does, step by step; volumes are named by their position in
the volume table. -/
inductive device_backup_event where
  | ui_clear_text
  | log_cannot_generate_path
  | log_cannot_locate_volume
  | log_source_and_destination (index : Nat)
  | volume_stats (index : Nat)
  | log_cannot_get_stats (index : Nat)
  | mount_dest
  | log_cannot_mount_dest (result : Int)
  | create_folder
  | log_cannot_create_folder
  | print_backing_up_device
  | print_backing_up (index : Nat)
  | warn_cannot_get_stats (index : Nat)
  | ui_show_progress (index : Nat)
  | mount_volume (index : Nat)
  | backup_yaffs2_ui (index : Nat)
  | log_unable_to_backup (index : Nat) (result : Int)
  | unmount_volume (index : Nat)
  | log_cannot_mount (index : Nat) (result : Int)
  | unmount_dest
  | ui_reset_progress
  | print_backed_up_successfully
  deriving DecidableEq, Repr

/-- The function `volume_stats` of `volume.c`, for non-NULL arguments, as its return
value: the result of `mount_volume` when that is not 0, else the result of `statfs`
(after which the volume is unmounted again if the call mounted it). -/
def volume_stats (mount : Int × Bool) (statfs : Int) : Int :=
  if mount.1 ≠ 0 then mount.1 else statfs

/-- An entry of the volume table as `cmd_backup_device` meets it: whether the field
`dump` starts with `'1'`; what `mount_volume` (the result and whether the call mounted
the volume) and `statfs` give inside the `volume_stats` of the first pass and of the
second pass; what the `mount_volume` before the backup gives; and what
`backup_yaffs2_ui` returns. -/
structure device_backup_volume where
  dump : Bool
  mount_first : Int × Bool
  statfs_first : Int
  mount_second : Int × Bool
  statfs_second : Int
  mount_backup : Int × Bool
  backup : Int
  deriving DecidableEq, Repr

/-- What the calls of `cmd_backup_device` meet: the result of
`cmd_gen_device_backup_path`, the volume table in the order of `foreach_volume`, the
position in the table of the volume that `get_volume_for_path` finds for the
destination path (`none` for NULL), and the results of `mount_volume` on it and of
`dirCreateHierarchy`. -/
structure device_backup_env where
  path_result : Int
  volumes : List device_backup_volume
  destvol : Option Nat
  mount_dest : Int × Bool
  create_folder : Int
  deriving DecidableEq, Repr

/-- The first pass of `cmd_backup_device` over the volume table, from the volume at
position `index` on; the flag in the result is `false` when the pass is left by
`return`.  The sum `totalbytes` is left out. -/
def device_backup_first_pass : Nat → List device_backup_volume → Nat →
    List device_backup_event → Bool × List device_backup_event
  | _, [], _, events => (true, events)
  | index, v :: rest, destvol, events =>
    if v.dump then
      if index = destvol then
        (false, events ++ [device_backup_event.log_source_and_destination index])
      else if volume_stats v.mount_first v.statfs_first ≠ 0 then
        (false, events ++ [device_backup_event.volume_stats index,
          device_backup_event.log_cannot_get_stats index])
      else
        device_backup_first_pass (index + 1) rest destvol
          (events ++ [device_backup_event.volume_stats index])
    else device_backup_first_pass (index + 1) rest destvol events

/-- The body of the loop of the second pass of `cmd_backup_device`, for the volume at
position `index`; the fraction given to `ui_show_progress` is left out. -/
def device_backup_volume_steps (index : Nat) (v : device_backup_volume) :
    List device_backup_event :=
  if v.dump then
    [device_backup_event.print_backing_up index, device_backup_event.volume_stats index]
      ++ (if volume_stats v.mount_second v.statfs_second ≠ 0
          then [device_backup_event.warn_cannot_get_stats index]
          else [device_backup_event.ui_show_progress index])
      ++ [device_backup_event.mount_volume index]
      ++ (if v.mount_backup.1 = 0 then
            [device_backup_event.backup_yaffs2_ui index]
              ++ (if v.backup ≠ 0
                  then [device_backup_event.log_unable_to_backup index v.backup] else [])
              ++ (if v.mount_backup.2 then [device_backup_event.unmount_volume index] else [])
          else [device_backup_event.log_cannot_mount index v.mount_backup.1])
  else []

/-- The second pass of `cmd_backup_device` over the volume table, from the volume at
position `index` on. -/
def device_backup_second_pass : Nat → List device_backup_volume →
    List device_backup_event → List device_backup_event
  | _, [], events => events
  | index, v :: rest, events =>
    device_backup_second_pass (index + 1) rest
      (events ++ device_backup_volume_steps index v)

/-- The function `cmd_backup_device` as the list of its steps. -/
def cmd_backup_device (env : device_backup_env) : List device_backup_event :=
  let events := [device_backup_event.ui_clear_text]
  if env.path_result ≠ 0 then events ++ [device_backup_event.log_cannot_generate_path]
  else
    match env.destvol with
    | none => events ++ [device_backup_event.log_cannot_locate_volume]
    | some destvol =>
      let p := device_backup_first_pass 0 env.volumes destvol events
      if p.1 = false then p.2
      else if env.mount_dest.1 ≠ 0 then
        p.2 ++ [device_backup_event.mount_dest,
          device_backup_event.log_cannot_mount_dest env.mount_dest.1]
      else if env.create_folder ≠ 0 then
        p.2 ++ [device_backup_event.mount_dest, device_backup_event.create_folder,
          device_backup_event.log_cannot_create_folder]
          ++ (if env.mount_dest.2 then [device_backup_event.unmount_dest] else [])
      else
        device_backup_second_pass 0 env.volumes
            (p.2 ++ [device_backup_event.mount_dest, device_backup_event.create_folder,
              device_backup_event.print_backing_up_device])
          ++ (if env.mount_dest.2 then [device_backup_event.unmount_dest] else [])
          ++ [device_backup_event.ui_reset_progress,
              device_backup_event.print_backed_up_successfully]

/-- A volume flagged for the backup on which every call succeeds and every
`mount_volume` mounts it. -/
def device_backup_good : device_backup_volume :=
  { dump := true, mount_first := (0, true), statfs_first := 0, mount_second := (0, true),
    statfs_second := 0, mount_backup := (0, true), backup := 0 }

/-- A volume that is not flagged for the backup. -/
def device_backup_plain : device_backup_volume :=
  { device_backup_good with dump := false }

/-- The volumes A, B and C flagged for the backup, where every `mount_volume` on B
returns -1, and the destination volume behind them. -/
def device_backup_mount_fails : device_backup_env :=
  { path_result := 0,
    volumes := [device_backup_good,
      { device_backup_good with
          mount_first := (-1, false), mount_second := (-1, false), mount_backup := (-1, false) },
      device_backup_good, device_backup_plain],
    destvol := some 3, mount_dest := (0, true), create_folder := 0 }

/-- The volumes A, B and C flagged for the backup, where B can be mounted for the
statistics but not for its backup, and the destination volume behind them. -/
def device_backup_late_mount_fails : device_backup_env :=
  { path_result := 0,
    volumes := [device_backup_good,
      { device_backup_good with mount_backup := (-1, false) },
      device_backup_good, device_backup_plain],
    destvol := some 3, mount_dest := (0, true), create_folder := 0 }

/-- A table whose destination volume, at position 1, is flagged for the backup. -/
def device_backup_dest_is_source : device_backup_env :=
  { path_result := 0,
    volumes := [device_backup_good, device_backup_good, device_backup_good],
    destvol := some 1, mount_dest := (0, true), create_folder := 0 }

/-- Whether a step is one that `cmd_backup_device` takes before its first pass is
over. -/
def first_pass_event : device_backup_event → Bool
  | device_backup_event.ui_clear_text => true
  | device_backup_event.log_cannot_generate_path => true
  | device_backup_event.log_cannot_locate_volume => true
  | device_backup_event.volume_stats _ => true
  | device_backup_event.log_cannot_get_stats _ => true
  | device_backup_event.log_source_and_destination _ => true
  | _ => false

/-- Whether a step is the log of an error after which `cmd_backup_device` returns before
its first pass is over. -/
def first_pass_error : device_backup_event → Bool
  | device_backup_event.log_cannot_generate_path => true
  | device_backup_event.log_cannot_locate_volume => true
  | device_backup_event.log_cannot_get_stats _ => true
  | device_backup_event.log_source_and_destination _ => true
  | _ => false

/-! ## The volume backup: `cmd_backup_volume` of `commands.c` -/

/-- A volume as `mount_volume` and `unmount_volume` of `volume.c` meet it: whether its
file system type is `ramdisk`, whether it is in the table of mounted volumes, and the
results of `scan_mounted_volumes` inside `mount_volume` and inside `unmount_volume`, of
the `mount` calls (the last one tried) and of `unmount_mounted_volume`. -/
structure volume_state where
  ramdisk : Bool
  is_mounted : Bool
  scan_mount : Int
  mount_result : Int
  scan_unmount : Int
  unmount_result : Int
  deriving DecidableEq, Repr

/-- The function `mount_volume` for a non-NULL volume: the return value, the flag
written to `*mounted`, and the volume afterwards. -/
def mount_volume (v : volume_state) : Int × Int × volume_state :=
  if v.ramdisk then (0, 0, v)
  else if v.scan_mount < 0 then (v.scan_mount, 0, v)
  else if v.is_mounted then (0, 0, v)
  else if v.mount_result = 0 then (0, -1, { v with is_mounted := true })
  else (v.mount_result, 0, v)

/-- The function `unmount_volume` for a non-NULL volume and a NULL flag pointer: the
return value and the volume afterwards. -/
def unmount_volume (v : volume_state) : Int × volume_state :=
  if v.ramdisk then (EINVAL, v)
  else if v.scan_unmount < 0 then (v.scan_unmount, v)
  else if v.is_mounted = false then (0, v)
  else if v.unmount_result = 0 then (0, { v with is_mounted := false })
  else (v.unmount_result, v)

/-- What `cmd_backup_volume` does, step by step. -/
inductive backup_volume_event where
  | ui_clear_text
  | log_cannot_locate_volume
  | log_same_volume
  | mount_dest
  | log_cannot_mount_dest
  | create_path
  | log_cannot_create_path (result : Int)
  | mount_source
  | log_cannot_mount_source
  | print_backing_up
  | ui_show_progress
  | backup (method : cmd_backup_method)
  | log_unknown_method
  | print_backed_up
  | print_failed
  | ui_reset_progress
  | unmount_source
  | unmount_dest
  deriving DecidableEq, Repr

/-- What the calls of `cmd_backup_volume` meet: whether `get_volume_for_path` finds a
volume for the destination path and whether that is the source volume, the two volumes,
the result of `dirCreateHierarchy`, the method (`none` for a code that is none of the
four) and the result of the backup function of that method. -/
structure backup_volume_env where
  destvol_found : Bool
  same_volume : Bool
  srcvol : volume_state
  destvol : volume_state
  create_path : Int
  method : Option cmd_backup_method
  backup : Int
  deriving DecidableEq, Repr

/-- What `cmd_backup_volume` leaves behind: its steps and the two volumes. -/
structure backup_volume_result where
  events : List backup_volume_event
  srcvol : volume_state
  destvol : volume_state
  deriving DecidableEq, Repr

/-- The function `cmd_backup_volume`. -/
def cmd_backup_volume (env : backup_volume_env) : backup_volume_result :=
  let events := [backup_volume_event.ui_clear_text]
  if env.destvol_found = false then
    { events := events ++ [backup_volume_event.log_cannot_locate_volume],
      srcvol := env.srcvol, destvol := env.destvol }
  else if env.same_volume then
    { events := events ++ [backup_volume_event.log_same_volume],
      srcvol := env.srcvol, destvol := env.destvol }
  else
    let md := mount_volume env.destvol
    let destmounted := md.2.1
    if md.1 ≠ 0 then
      { events := events
          ++ [backup_volume_event.mount_dest, backup_volume_event.log_cannot_mount_dest],
        srcvol := env.srcvol, destvol := md.2.2 }
    else
      let events1 := events ++ [backup_volume_event.mount_dest, backup_volume_event.create_path]
      let r : List backup_volume_event × volume_state :=
        if env.create_path = 0 then
          let ms := mount_volume env.srcvol
          let srcmounted := ms.2.1
          if ms.1 = 0 then
            let result : Int := match env.method with
              | some _ => env.backup
              | none => -1
            let events2 := events1
              ++ [backup_volume_event.mount_source, backup_volume_event.print_backing_up]
              ++ (match env.method with
                  | some m => [backup_volume_event.ui_show_progress,
                      backup_volume_event.backup m]
                  | none => [backup_volume_event.log_unknown_method])
              ++ [if result = 0 then backup_volume_event.print_backed_up
                  else backup_volume_event.print_failed,
                  backup_volume_event.ui_reset_progress]
            if srcmounted ≠ 0 then
              (events2 ++ [backup_volume_event.unmount_source], (unmount_volume ms.2.2).2)
            else (events2, ms.2.2)
          else
            (events1 ++ [backup_volume_event.mount_source,
              backup_volume_event.log_cannot_mount_source], ms.2.2)
        else (events1 ++ [backup_volume_event.log_cannot_create_path env.create_path],
          env.srcvol)
      if destmounted ≠ 0 then
        { events := r.1 ++ [backup_volume_event.unmount_dest], srcvol := r.2,
          destvol := (unmount_volume md.2.2).2 }
      else { events := r.1, srcvol := r.2, destvol := md.2.2 }

/-- A source that is mounted and a destination that this call mounts; the backup
fails. -/
def backup_volume_failing : backup_volume_env :=
  { destvol_found := true, same_volume := false,
    srcvol := { ramdisk := false, is_mounted := true, scan_mount := 0, mount_result := 0,
                scan_unmount := 0, unmount_result := 0 },
    destvol := { ramdisk := false, is_mounted := false, scan_mount := 0, mount_result := 0,
                 scan_unmount := 0, unmount_result := 0 },
    create_path := 0, method := some cmd_backup_method.dump, backup := 5 }

/-! ## The cursor of the encoder and the chunk records -/

/-- Whether a chunk record is well formed for blocks of `blk_sz` bytes: a `Raw` chunk of
fewer than `2 ^ 31` blocks with a payload of that many blocks and the total size of
header and payload in 32 bits, or a `DontCare` chunk without payload. -/
def emitted_chunk (blk_sz : Nat) (c : chunk_header_t × List u8) : Prop :=
  c.1.reserved1 = 0 ∧ c.1.chunk_sz < 4294967296
  ∧ ((c.1.chunk_type = CHUNK_TYPE_RAW ∧ c.1.chunk_sz < 2147483648
      ∧ c.2.length = c.1.chunk_sz * blk_sz
      ∧ c.1.total_sz = u32_wrap (CHUNK_HEADER_LEN + c.2.length))
    ∨ (c.1.chunk_type = CHUNK_TYPE_DONT_CARE ∧ c.2 = [] ∧ c.1.total_sz = CHUNK_HEADER_LEN))

/-- The sum of `chunk_sz` over the headers of a list of chunk records. -/
def chunk_sz_sum (chunks : List (chunk_header_t × List u8)) : Nat :=
  (chunks.map (fun c => c.1.chunk_sz)).sum

/-- What holds of a sparse output file after any calls: the file is the header followed
by well-formed chunk records, and the cursor is a multiple of the block size, less than
one block beyond the length of the file system, and the block size times the sum of
`chunk_sz` over the records. -/
def cursor_inv (info : fs_info) (out : output_file) : Prop :=
  out.sparse = true
  ∧ out.fpos = out.file.length
  ∧ out.cur_out_ptr % info.block_size = 0
  ∧ out.cur_out_ptr < info.len + info.block_size
  ∧ ∃ chunks : List (chunk_header_t × List u8),
      out.file = sparse_header_bytes (closed_header info 0 0)
        ++ (chunks.map chunk_record).flatten
      ∧ (∀ c ∈ chunks, emitted_chunk info.block_size c)
      ∧ out.cur_out_ptr = info.block_size * chunk_sz_sum chunks
      ∧ out.chunk_cnt = chunks.length

/-- A file system of `2 ^ 44` bytes in blocks of 4096 bytes. -/
def wide_info : fs_info := { len := 17592186044416, block_size := 4096 }

/-- A file system of 16 bytes in blocks of 4 bytes. -/
def small_info : fs_info := { len := 16, block_size := 4 }

/-- A file system of `2 ^ 45` bytes in blocks of 4096 bytes. -/
def deep_info : fs_info := { len := 35184372088832, block_size := 4096 }

/-! # Theorems -/

/-! ## Checksum lemmas -/

theorem xor_mask_cancel (c : Nat) : (c ^^^ 4294967295) ^^^ 4294967295 = c := by
  rw [Nat.xor_assoc, Nat.xor_self, Nat.xor_zero]

theorem sparse_crc32_nil (c : Nat) : sparse_crc32 c [] = c := by
  simp [sparse_crc32, xor_mask_cancel]

theorem sparse_crc32_append (c : Nat) (a b : List u8) :
    sparse_crc32 (sparse_crc32 c a) b = sparse_crc32 c (a ++ b) := by
  simp [sparse_crc32, xor_mask_cancel, List.foldl_append]

theorem crc32_shift_lt (c : Nat) (h : c < 4294967296) : crc32_shift c < 4294967296 := by
  unfold crc32_shift
  split
  · exact Nat.xor_lt_two_pow (n := 32) (by omega) (by norm_num)
  · omega

theorem crc32_byte_lt (c : Nat) (b : u8) (h : c < 4294967296) : crc32_byte c b < 4294967296 := by
  unfold crc32_byte
  have hb : b.val < 2 ^ 32 := lt_trans b.isLt (by norm_num)
  have h0 : c ^^^ b.val < 4294967296 := Nat.xor_lt_two_pow (n := 32) h hb
  exact crc32_shift_lt _ (crc32_shift_lt _ (crc32_shift_lt _ (crc32_shift_lt _
    (crc32_shift_lt _ (crc32_shift_lt _ (crc32_shift_lt _ (crc32_shift_lt _ h0)))))))

theorem crc32_foldl_lt (buf : List u8) (c : Nat) (h : c < 4294967296) :
    buf.foldl crc32_byte c < 4294967296 := by
  induction buf generalizing c with
  | nil => simpa using h
  | cons b t ih => exact ih _ (crc32_byte_lt c b h)

theorem sparse_crc32_lt (c : Nat) (buf : List u8) (h : c < 4294967296) :
    sparse_crc32 c buf < 4294967296 := by
  unfold sparse_crc32
  exact Nat.xor_lt_two_pow (n := 32)
    (crc32_foldl_lt buf _ (Nat.xor_lt_two_pow (n := 32) h (by norm_num))) (by norm_num)

/-! ## Field lemmas -/

theorem rd16_le16 (n : Nat) (r : List u8) : rd16 (le16 n ++ r) 0 = n % 65536 := by
  simp [rd16, le16, byte_at, Fin.ofNat]
  omega

theorem rd32_le32 (n : Nat) (r : List u8) : rd32 (le32 n ++ r) 0 = n % 4294967296 := by
  simp [rd32, le32, byte_at, Fin.ofNat]
  omega

theorem le16_length (n : Nat) : (le16 n).length = 2 := rfl

theorem le32_length (n : Nat) : (le32 n).length = 4 := rfl

theorem sparse_header_bytes_length (h : sparse_header_t) : (sparse_header_bytes h).length = 28 := rfl

theorem chunk_header_bytes_length (c : chunk_header_t) : (chunk_header_bytes c).length = 12 := rfl

theorem chunk_header_of_bytes_bytes (c : chunk_header_t) :
    chunk_header_of_bytes (chunk_header_bytes c) =
      { chunk_type := c.chunk_type % 65536, reserved1 := c.reserved1 % 65536,
        chunk_sz := c.chunk_sz % 4294967296, total_sz := c.total_sz % 4294967296 } := by
  simp [chunk_header_of_bytes, chunk_header_bytes, rd16, rd32, le16, le32, byte_at, Fin.ofNat]
  refine ⟨?_, ?_, ?_, ?_⟩ <;> omega

theorem sparse_header_of_bytes_bytes (h : sparse_header_t) :
    sparse_header_of_bytes (sparse_header_bytes h) =
      { magic := h.magic % 4294967296, major_version := h.major_version % 65536,
        minor_version := h.minor_version % 65536, file_hdr_sz := h.file_hdr_sz % 65536,
        chunk_hdr_sz := h.chunk_hdr_sz % 65536, blk_sz := h.blk_sz % 4294967296,
        total_blks := h.total_blks % 4294967296, total_chunks := h.total_chunks % 4294967296,
        image_checksum := h.image_checksum % 4294967296 } := by
  simp [sparse_header_of_bytes, sparse_header_bytes, rd16, rd32, le16, le32, byte_at, Fin.ofNat]
  refine ⟨?_, ?_, ?_, ?_, ?_, ?_, ?_, ?_, ?_⟩ <;> omega

/-! ## Rounding lemmas -/

theorem and_div_two (a b : Nat) : (a &&& b) / 2 = (a / 2) &&& (b / 2) := by
  apply Nat.eq_of_testBit_eq
  intro i
  simp [← Nat.testBit_succ, Nat.testBit_and]

theorem and_mod_two (a b : Nat) : (a &&& b) % 2 = (a % 2) * (b % 2) := by
  have h := Nat.testBit_and a b 0
  simp only [Nat.testBit_zero] at h
  rcases Nat.mod_two_eq_zero_or_one a with ha | ha <;>
  rcases Nat.mod_two_eq_zero_or_one b with hb | hb <;>
  rcases Nat.mod_two_eq_zero_or_one (a &&& b) with hc | hc <;>
  simp_all

/-- A value splits into its part under a mask and its part under the complement. -/
theorem and_compl_add (n : Nat) : ∀ x m : Nat, m < 2 ^ n →
    (x &&& (2 ^ n - 1 - m)) + (x &&& m) = x % 2 ^ n := by
  induction n with
  | zero => intro x m hm; simp at hm; subst hm; simp [Nat.mod_one]
  | succ n ih =>
    intro x m hm
    rw [pow_succ, Nat.mul_comm] at hm ⊢
    have hp : 0 < 2 ^ n := Nat.pow_pos (by norm_num)
    generalize 2 ^ n = P at hm ih hp ⊢
    have h := ih (x / 2) (m / 2) (by omega)
    have hc1 : (2 * P - 1 - m) / 2 = P - 1 - m / 2 := by omega
    have hc2 : (2 * P - 1 - m) % 2 = 1 - m % 2 := by omega
    have a1 := and_div_two x (2 * P - 1 - m)
    have a2 := and_mod_two x (2 * P - 1 - m)
    have b1 := and_div_two x m
    have b2 := and_mod_two x m
    rw [hc1] at a1
    rw [hc2] at a2
    rw [← a1, ← b1] at h
    rw [Nat.mod_mul, ← h]
    generalize x &&& (2 * P - 1 - m) = A at *
    generalize x &&& m = B at *
    rcases Nat.mod_two_eq_zero_or_one x with hx | hx <;>
    rcases Nat.mod_two_eq_zero_or_one m with hmm | hmm <;>
    simp [hx, hmm] at a2 b2 <;> omega

/-- Masking with the complement of `2 ^ k - 1` rounds down to a multiple of `2 ^ k`. -/
theorem and_high_mask (x k : Nat) (hk : k ≤ 32) (hx : x < 2 ^ 32) :
    x &&& (2 ^ 32 - 2 ^ k) = x / 2 ^ k * 2 ^ k := by
  apply Nat.eq_of_testBit_eq
  intro i
  have e1 : 2 ^ 32 - 2 ^ k = 2 ^ k * (2 ^ (32 - k) - 1) := by
    rw [Nat.mul_sub, ← pow_add, mul_one]
    congr 2
    omega
  rw [Nat.testBit_and, e1, Nat.testBit_mul_pow_two, Nat.testBit_two_pow_sub_one,
    Nat.mul_comm (x / 2 ^ k), Nat.testBit_mul_pow_two, ← Nat.shiftRight_eq_div_pow,
    Nat.testBit_shiftRight]
  by_cases h1 : i ≥ k
  · have e2 : k + (i - k) = i := by omega
    simp only [h1, e2, decide_True, Bool.true_and]
    by_cases h2 : i < 32
    · have h3 : i - k < 32 - k := by omega
      simp [h3]
    · have h3 : x.testBit i = false := by
        apply Nat.testBit_lt_two_pow
        exact lt_of_lt_of_le hx (Nat.pow_le_pow_right (by norm_num) (by omega))
      simp [h3]
  · simp [h1]

theorem rnd_up_eq (info : fs_info) (len : Nat) (h0 : 0 < info.block_size)
    (h : len + info.block_size ≤ 4294967296) :
    rnd_up info len
      = (len + (info.block_size - 1)) &&& (4294967295 - (info.block_size - 1)) := by
  have e1 : u32_wrap (info.block_size + 4294967295) = info.block_size - 1 := by
    unfold u32_wrap; omega
  have e2 : u32_wrap (len + (info.block_size - 1)) = len + (info.block_size - 1) := by
    unfold u32_wrap; omega
  have e3 : u32_not (info.block_size - 1) = 4294967295 - (info.block_size - 1) := by
    unfold u32_not; omega
  rw [rnd_up, e1, e2, e3]

/-- The rounded length lies between the length and the length plus one block. -/
theorem rnd_up_bounds (info : fs_info) (len : Nat) (h0 : 0 < info.block_size)
    (h : len + info.block_size ≤ 4294967296) :
    len ≤ rnd_up info len ∧ rnd_up info len < len + info.block_size := by
  rw [rnd_up_eq info len h0 h]
  have h1 := and_compl_add 32 (len + (info.block_size - 1)) (info.block_size - 1)
    (by norm_num; omega)
  have h2 : (len + (info.block_size - 1)) &&& (info.block_size - 1) ≤ info.block_size - 1 :=
    Nat.and_le_right
  have h3 : (len + (info.block_size - 1)) % 2 ^ 32 = len + (info.block_size - 1) := by
    norm_num; omega
  rw [h3] at h1
  norm_num at h1
  omega

/-- For a power-of-two block size the mask rounds up to the next block boundary. -/
theorem rnd_up_pow2 (info : fs_info) (len k : Nat) (hB : info.block_size = 2 ^ k)
    (h : len + info.block_size ≤ 4294967296) :
    rnd_up info len = (len + (info.block_size - 1)) / info.block_size * info.block_size := by
  have h0 : 0 < info.block_size := by rw [hB]; exact Nat.pow_pos (by norm_num)
  have hk : k ≤ 32 := by
    by_contra hc
    have : 2 ^ 33 ≤ 2 ^ k := Nat.pow_le_pow_right (by norm_num) (by omega)
    norm_num at this
    omega
  rw [rnd_up_eq info len h0 h]
  have e : 4294967295 - (info.block_size - 1) = 2 ^ 32 - 2 ^ k := by
    rw [hB] at h0 ⊢; norm_num; omega
  rw [e, and_high_mask _ k hk (by norm_num; omega), hB]

/-! ## File lemmas -/

theorem file_write_at_nil (f : List u8) (p : Nat) : file_write_at f p [] = f := by
  simp [file_write_at]

theorem file_write_at_end (f d : List u8) : file_write_at f f.length d = f ++ d := by
  unfold file_write_at
  split
  · rename_i h
    rw [List.length_eq_zero.mp h, List.append_nil]
  · simp

theorem file_write_at_zero (f d : List u8) : file_write_at f 0 d = d ++ f.drop d.length := by
  unfold file_write_at
  split
  · rename_i h
    rw [List.length_eq_zero.mp h]
    simp
  · simp

/-- The length of a file after a write of at least one byte. -/
theorem file_write_at_length (f d : List u8) (p : Nat) (h : d ≠ []) :
    (file_write_at f p d).length = max f.length (p + d.length) := by
  have hl : d.length ≠ 0 := by
    intro hc; exact h (List.length_eq_zero.mp hc)
  simp only [file_write_at, hl, if_false, List.length_append, List.length_take,
    List.length_replicate, List.length_drop]
  omega

/-- Two writes, the second where the first ended, are one write of the concatenation. -/
theorem file_write_at_append (f a b : List u8) (p : Nat) :
    file_write_at (file_write_at f p a) (p + a.length) b = file_write_at f p (a ++ b) := by
  by_cases ha : a = []
  · subst ha; simp [file_write_at_nil]
  by_cases hb : b = []
  · subst hb; simp [file_write_at_nil]
  have hal : a.length ≠ 0 := by
    intro hc; exact ha (List.length_eq_zero.mp hc)
  have hbl : b.length ≠ 0 := by
    intro hc; exact hb (List.length_eq_zero.mp hc)
  have hx : (f.take p ++ List.replicate (p - f.length) (0 : u8)).length = p := by
    simp only [List.length_append, List.length_take, List.length_replicate]; omega
  have hab : (a ++ b).length ≠ 0 := by
    simp only [List.length_append]; omega
  simp only [file_write_at, hal, hbl, hab, if_false]
  generalize hX : f.take p ++ List.replicate (p - f.length) (0 : u8) = X at hx
  have e1 : (X ++ a ++ f.drop (p + a.length)).take (p + a.length) = X ++ a := by
    rw [List.take_append_of_le_length (by simp [hx])]
    rw [List.take_of_length_le (by simp [hx])]
  have e2 : p + a.length - (X ++ a ++ f.drop (p + a.length)).length = 0 := by
    simp only [List.length_append, hx]; omega
  have e3 : (X ++ a ++ f.drop (p + a.length)).drop (p + a.length + b.length)
      = f.drop (p + (a ++ b).length) := by
    have e4 : p + a.length + b.length = (X ++ a).length + b.length := by
      simp [hx]
    rw [e4, List.drop_append, List.drop_drop]
    congr 1
    simp only [List.length_append]; omega
  rw [e1, e2, e3]
  simp

theorem zero_buf_take (info : fs_info) (n : Nat) (h : n ≤ info.block_size) :
    (zero_buf info).take n = List.replicate n 0 := by
  simp [zero_buf, List.take_replicate, h]

/-- The checksum loop of `emit_skip_chunk` folds `skip_len` zero bytes, however long the
pieces are. -/
theorem emit_skip_crc_eq (info : fs_info) (h0 : 0 < info.block_size) :
    ∀ fuel skip_len crc, skip_len ≤ fuel →
      emit_skip_crc info fuel skip_len crc = sparse_crc32 crc (List.replicate skip_len 0) := by
  intro fuel
  induction fuel with
  | zero =>
    intro skip_len crc h
    have : skip_len = 0 := by omega
    subst this
    simp [emit_skip_crc, sparse_crc32_nil]
  | succ fuel ih =>
    intro skip_len crc h
    unfold emit_skip_crc
    by_cases hz : skip_len = 0
    · subst hz; simp [sparse_crc32_nil]
    · simp only [hz, if_false]
      by_cases hgt : skip_len > info.block_size
      · simp only [hgt, if_true]
        rw [ih _ _ (by omega), zero_buf_take info _ (le_refl _), sparse_crc32_append,
          ← List.replicate_add]
        congr 2
        omega
      · simp only [hgt, if_false]
        rw [ih _ _ (by omega), zero_buf_take info _ (by omega), sparse_crc32_append,
          ← List.replicate_add]
        congr 2
        omega

/-- A checksum folded piece by piece is the checksum of the concatenation. -/
theorem sparse_crc32_pieces (pieces : List (List u8)) (crc : Nat) :
    pieces.foldl sparse_crc32 crc = sparse_crc32 crc pieces.flatten := by
  induction pieces generalizing crc with
  | nil => simp [sparse_crc32_nil]
  | cons p t ih => simp [ih, sparse_crc32_append]

/-! ## Encoder lemmas -/

theorem emit_skip_chunk_eq (info : fs_info) (out : output_file) (skip_len : Nat)
    (h0 : 0 < info.block_size) (hal : skip_len % info.block_size = 0)
    (hend : out.fpos = out.file.length) :
    emit_skip_chunk info out skip_len = (0, after_skip info out skip_len) := by
  simp [emit_skip_chunk, hal, ops_write, hend, file_write_at_end, after_skip,
    emit_skip_crc_eq info h0 skip_len skip_len _ (le_refl _), chunk_header_bytes_length]

theorem emit_skip_chunk_unaligned (info : fs_info) (out : output_file) (skip_len : Nat)
    (hal : skip_len % info.block_size ≠ 0) :
    emit_skip_chunk info out skip_len
      = (-1, { out with warns := out.warns ++ [ext4_warn.skip_not_multiple] }) := by
  simp [emit_skip_chunk, hal]

theorem ops_write_end (out : output_file) (d : List u8) (hend : out.fpos = out.file.length) :
    ops_write out d
      = (0, { out with file := out.file ++ d, fpos := out.file.length + d.length }) := by
  simp [ops_write, hend, file_write_at_end]

theorem write_chunk_raw_cursor_eq (info : fs_info) (out : output_file) (data : List u8)
    (h0 : 0 < info.block_size) (hcur : out.cur_out_ptr % info.block_size = 0)
    (hlen : data.length + info.block_size ≤ 2147483648)
    (hend : out.fpos = out.file.length) :
    write_chunk_raw info out out.cur_out_ptr data = (0, after_raw info out data) := by
  have hb := rnd_up_bounds info data.length h0 (by omega)
  have hz : (zero_buf info).take (rnd_up info data.length - data.length)
      = List.replicate (rnd_up info data.length - data.length) 0 :=
    zero_buf_take info _ (by omega)
  have hfp : out.file.length + 12 + rnd_up info data.length
      = out.file.length + 12 + data.length + (rnd_up info data.length - data.length) := by
    omega
  unfold write_chunk_raw
  simp only [lt_self_iff_false, if_false, gt_iff_lt, hcur, ne_eq, not_true_eq_false]
  rw [ops_write_end _ _ hend]
  simp only [lt_self_iff_false, if_false]
  rw [ops_write_end _ _ (by simp)]
  simp only [lt_self_iff_false, if_false]
  by_cases hzl : rnd_up info data.length - data.length = 0
  · simp only [hzl, not_true_eq_false, if_false, lt_self_iff_false]
    simp [after_raw, hzl, hend, chunk_header_bytes_length]
    omega
  · simp only [hzl, not_false_eq_true, if_true, hz]
    rw [ops_write_end _ _ (by simp [Nat.add_assoc])]
    simp only [lt_self_iff_false, if_false]
    simp [after_raw, hend, chunk_header_bytes_length, sparse_crc32_append]
    omega

theorem write_chunk_raw_gap_eq (info : fs_info) (out : output_file) (off : Nat)
    (data : List u8) (h0 : 0 < info.block_size) (hoff : off % info.block_size = 0)
    (hlt : out.cur_out_ptr < off) (hgap : (off - out.cur_out_ptr) % info.block_size = 0)
    (hlen : data.length + info.block_size ≤ 2147483648)
    (hend : out.fpos = out.file.length) :
    write_chunk_raw info out off data
      = (0, after_raw info (after_skip info out (off - out.cur_out_ptr)) data) := by
  have hs := emit_skip_chunk_eq info out (off - out.cur_out_ptr) h0 hgap hend
  have hc : (after_skip info out (off - out.cur_out_ptr)).cur_out_ptr = off := by
    simp [after_skip]; omega
  have hw := write_chunk_raw_cursor_eq info (after_skip info out (off - out.cur_out_ptr)) data
    h0 (by rw [hc]; exact hoff) hlen (by simp [after_skip, hend, chunk_header_bytes_length])
  rw [hc] at hw
  rw [← hw]
  have hnl : ¬ off < out.cur_out_ptr := by omega
  have hne : off ≠ (after_skip info out (off - out.cur_out_ptr)).cur_out_ptr ↔ False := by
    rw [hc]; simp
  have hlt2 : ¬ off < (after_skip info out (off - out.cur_out_ptr)).cur_out_ptr := by
    rw [hc]; omega
  have hgt2 : ¬ off > (after_skip info out (off - out.cur_out_ptr)).cur_out_ptr := by
    rw [hc]; omega
  simp only [write_chunk_raw, hnl, hlt, hs, hoff, hc, hlt2, hgt2, if_true, if_false, gt_iff_lt,
    ne_eq, not_true_eq_false, lt_self_iff_false]

/-! ## Claims on the encoder -/

/-- C2: a write whose offset lies below the output cursor is rejected by
`write_chunk_raw`: the result is -1, no byte reaches the file, and `cur_out_ptr`,
`chunk_cnt` and `crc32` keep their values. -/
theorem write_chunk_raw_rejects_offset_below_cursor (info : fs_info) (out : output_file)
    (off : Nat) (data : List u8) (h : off < out.cur_out_ptr) :
    (write_chunk_raw info out off data).1 = -1
    ∧ (write_chunk_raw info out off data).2.file = out.file
    ∧ (write_chunk_raw info out off data).2.fpos = out.fpos
    ∧ (write_chunk_raw info out off data).2.cur_out_ptr = out.cur_out_ptr
    ∧ (write_chunk_raw info out off data).2.chunk_cnt = out.chunk_cnt
    ∧ (write_chunk_raw info out off data).2.crc32 = out.crc32 := by
  simp [write_chunk_raw, h]

theorem write_chunk_raw_rejects_offset_below_cursor_witness :
    (write_chunk_raw ⟨16, 4⟩
        (write_chunk_raw ⟨16, 4⟩ (open_output_file ⟨16, 4⟩ false true) 0 [1, 2, 3, 4, 5]).2
        4 [6]).1 = -1
    ∧ (write_chunk_raw ⟨16, 4⟩
        (write_chunk_raw ⟨16, 4⟩ (open_output_file ⟨16, 4⟩ false true) 0 [1, 2, 3, 4, 5]).2
        4 [6]).2.file
      = (write_chunk_raw ⟨16, 4⟩ (open_output_file ⟨16, 4⟩ false true) 0 [1, 2, 3, 4, 5]).2.file :=
  have h := write_chunk_raw_rejects_offset_below_cursor ⟨16, 4⟩
    (write_chunk_raw ⟨16, 4⟩ (open_output_file ⟨16, 4⟩ false true) 0 [1, 2, 3, 4, 5]).2
    4 [6] (by decide)
  ⟨h.1, h.2.1⟩

/-- C3 (amended): a write (with `len + B` within `int` range) at a block-aligned offset
beyond the cursor, the gap being a whole number of blocks that fits the 32-bit
`chunk_sz` field, that is fewer than `2 ^ 32` blocks, appends exactly one `DontCare` header
(`chunk_sz` = gap / block size, `total_sz` = 12, no payload) and then exactly one `Raw`
chunk; the checksum after the `DontCare` chunk is the previous checksum folded over the
gap's zero bytes, whatever pieces the zeros are cut into; and when the state before
was itself produced by a write at the cursor, the two writes have emitted three chunks. -/
theorem write_chunk_raw_gap_emits_one_dont_care (info : fs_info) (out : output_file)
    (off : Nat) (data : List u8) (h0 : 0 < info.block_size)
    (hoff : off % info.block_size = 0) (hlt : out.cur_out_ptr < off)
    (hgap : (off - out.cur_out_ptr) % info.block_size = 0)
    (hfit : (off - out.cur_out_ptr) / info.block_size < 4294967296)
    (hlen : data.length + info.block_size ≤ 2147483648)
    (hend : out.fpos = out.file.length) :
    (emit_skip_chunk info out (off - out.cur_out_ptr)).2.file
      = out.file ++ chunk_header_bytes
          { chunk_type := CHUNK_TYPE_DONT_CARE, reserved1 := 0,
            chunk_sz := (off - out.cur_out_ptr) / info.block_size, total_sz := 12 }
    ∧ (emit_skip_chunk info out (off - out.cur_out_ptr)).2.crc32
      = sparse_crc32 out.crc32 (List.replicate (off - out.cur_out_ptr) 0)
    ∧ (∀ pieces : List (List u8),
        pieces.flatten = List.replicate (off - out.cur_out_ptr) 0 →
        pieces.foldl sparse_crc32 out.crc32
          = (emit_skip_chunk info out (off - out.cur_out_ptr)).2.crc32)
    ∧ (write_chunk_raw info out off data).1 = 0
    ∧ (write_chunk_raw info out off data).2.file
      = out.file
        ++ chunk_header_bytes
          { chunk_type := CHUNK_TYPE_DONT_CARE, reserved1 := 0,
            chunk_sz := (off - out.cur_out_ptr) / info.block_size, total_sz := 12 }
        ++ chunk_header_bytes
          { chunk_type := CHUNK_TYPE_RAW, reserved1 := 0,
            chunk_sz := rnd_up info data.length / info.block_size,
            total_sz := 12 + rnd_up info data.length }
        ++ data ++ List.replicate (rnd_up info data.length - data.length) 0
    ∧ (write_chunk_raw info out off data).2.chunk_cnt = out.chunk_cnt + 2
    ∧ (write_chunk_raw info out off data).2.cur_out_ptr = off + rnd_up info data.length
    ∧ (∀ (out0 : output_file) (data0 : List u8),
        out0.cur_out_ptr % info.block_size = 0 →
        data0.length + info.block_size ≤ 2147483648 →
        out0.fpos = out0.file.length →
        out = (write_chunk_raw info out0 out0.cur_out_ptr data0).2 →
        (write_chunk_raw info out off data).2.chunk_cnt = out0.chunk_cnt + 3) := by
  have hs := emit_skip_chunk_eq info out (off - out.cur_out_ptr) h0 hgap hend
  have hw := write_chunk_raw_gap_eq info out off data h0 hoff hlt hgap (by omega) hend
  have hb := rnd_up_bounds info data.length h0 (by omega)
  have hu1 : u32_wrap ((off - out.cur_out_ptr) / info.block_size)
      = (off - out.cur_out_ptr) / info.block_size := Nat.mod_eq_of_lt hfit
  have hu2 : u32_wrap (CHUNK_HEADER_LEN + rnd_up info data.length)
      = 12 + rnd_up info data.length := by
    unfold u32_wrap CHUNK_HEADER_LEN; omega
  rw [hs, hw]
  refine ⟨?_, ?_, ?_, ?_, ?_, ?_, ?_, ?_⟩
  · simp [after_skip, hu1, CHUNK_HEADER_LEN]
  · simp [after_skip]
  · intro pieces hp
    rw [sparse_crc32_pieces, hp]
    simp [after_skip]
  · rfl
  · simp only [after_raw, after_skip, hu1, hu2]
    simp [CHUNK_HEADER_LEN]
  · simp [after_raw, after_skip]
  · simp [after_raw, after_skip]
    omega
  · intro out0 data0 hc0 hl0 he0 ho
    rw [write_chunk_raw_cursor_eq info out0 data0 h0 hc0 (by omega) he0] at ho
    simp [after_raw, after_skip, ho]

theorem write_chunk_raw_gap_emits_one_dont_care_witness :
    (write_chunk_raw ⟨64, 4⟩
        (write_chunk_raw ⟨64, 4⟩ (open_output_file ⟨64, 4⟩ false true) 0 [1, 2, 3, 4, 5]).2
        16 [6, 7]).2.chunk_cnt = 3
    ∧ (write_chunk_raw ⟨64, 4⟩
        (write_chunk_raw ⟨64, 4⟩ (open_output_file ⟨64, 4⟩ false true) 0 [1, 2, 3, 4, 5]).2
        16 [6, 7]).2.cur_out_ptr = 16 + rnd_up ⟨64, 4⟩ 2 :=
  have h := write_chunk_raw_gap_emits_one_dont_care ⟨64, 4⟩
    (write_chunk_raw ⟨64, 4⟩ (open_output_file ⟨64, 4⟩ false true) 0 [1, 2, 3, 4, 5]).2
    16 [6, 7] (by decide) (by decide) (by decide) (by decide) (by decide) (by decide)
    (by decide)
  ⟨h.2.2.2.2.2.2.2 (open_output_file ⟨64, 4⟩ false true) [1, 2, 3, 4, 5]
      (by decide) (by decide) (by decide) rfl, h.2.2.2.2.2.2.1⟩

/-- C4: with a power-of-two block size `B`, a write of `len` bytes at the (block-aligned)
cursor appends one `Raw` chunk with `chunk_sz = ceil(len / B)` and
`total_sz = 12 + chunk_sz * B`, whose payload is the data followed by zero bytes up to
the block boundary, and folds exactly that padded payload into the checksum; 10,000
zero bytes with `B = 4096` on a fresh output give one `Raw` chunk of 3 blocks and the
CRC-32 of 12,288 zero bytes. -/
theorem write_chunk_raw_pads_to_block_boundary (info : fs_info) (out : output_file)
    (data : List u8) (k : Nat) (hB : info.block_size = 2 ^ k)
    (hcur : out.cur_out_ptr % info.block_size = 0)
    (hlen : data.length + info.block_size ≤ 2147483648)
    (hend : out.fpos = out.file.length) :
    (write_chunk_raw info out out.cur_out_ptr data).1 = 0
    ∧ (write_chunk_raw info out out.cur_out_ptr data).2.file
      = out.file
        ++ chunk_header_bytes
          { chunk_type := CHUNK_TYPE_RAW, reserved1 := 0,
            chunk_sz := (data.length + (info.block_size - 1)) / info.block_size,
            total_sz := 12
              + (data.length + (info.block_size - 1)) / info.block_size * info.block_size }
        ++ data
        ++ List.replicate
          ((data.length + (info.block_size - 1)) / info.block_size * info.block_size
            - data.length) 0
    ∧ (write_chunk_raw info out out.cur_out_ptr data).2.crc32
      = sparse_crc32 out.crc32
          (data ++ List.replicate
            ((data.length + (info.block_size - 1)) / info.block_size * info.block_size
              - data.length) 0)
    ∧ data.length
      ≤ (data.length + (info.block_size - 1)) / info.block_size * info.block_size
    ∧ (data.length + (info.block_size - 1)) / info.block_size * info.block_size
      < data.length + info.block_size
    ∧ (write_chunk_raw info out out.cur_out_ptr data).2.chunk_cnt = out.chunk_cnt + 1
    ∧ (∀ (fs_len : Nat) (gz : Bool),
        (write_chunk_raw ⟨fs_len, 4096⟩ (open_output_file ⟨fs_len, 4096⟩ gz true) 0
            (List.replicate 10000 0)).2.file
          = (open_output_file ⟨fs_len, 4096⟩ gz true).file
            ++ chunk_header_bytes
              { chunk_type := CHUNK_TYPE_RAW, reserved1 := 0, chunk_sz := 3,
                total_sz := 12 + 12288 }
            ++ List.replicate 12288 0
        ∧ (write_chunk_raw ⟨fs_len, 4096⟩ (open_output_file ⟨fs_len, 4096⟩ gz true) 0
            (List.replicate 10000 0)).2.crc32 = sparse_crc32 0 (List.replicate 12288 0)
        ∧ (write_chunk_raw ⟨fs_len, 4096⟩ (open_output_file ⟨fs_len, 4096⟩ gz true) 0
            (List.replicate 10000 0)).2.chunk_cnt = 1) := by
  have h0 : 0 < info.block_size := by rw [hB]; exact Nat.pow_pos (by norm_num)
  have hw := write_chunk_raw_cursor_eq info out data h0 hcur (by omega) hend
  have hr := rnd_up_pow2 info data.length k hB (by omega)
  have hb := rnd_up_bounds info data.length h0 (by omega)
  have hd : rnd_up info data.length / info.block_size
      = (data.length + (info.block_size - 1)) / info.block_size := by
    rw [hr, Nat.mul_div_cancel _ h0]
  have hu : u32_wrap (CHUNK_HEADER_LEN + rnd_up info data.length)
      = 12 + rnd_up info data.length := by
    unfold u32_wrap CHUNK_HEADER_LEN; omega
  rw [hw]
  refine ⟨rfl, ?_, ?_, ?_, ?_, ?_, ?_⟩
  · simp only [after_raw, hu, hd]
    rw [hr]
  · simp only [after_raw]
    rw [hr]
  · rw [← hr]; exact hb.1
  · rw [← hr]; exact hb.2
  · simp [after_raw]
  · intro fs_len gz
    have e0 : (open_output_file ⟨fs_len, 4096⟩ gz true).cur_out_ptr = 0 := by
      cases gz <;> rfl
    have e1 : (open_output_file ⟨fs_len, 4096⟩ gz true).crc32 = 0 := by
      cases gz <;> rfl
    have e2 : (open_output_file ⟨fs_len, 4096⟩ gz true).chunk_cnt = 0 := by
      cases gz <;> rfl
    have e3 : (open_output_file ⟨fs_len, 4096⟩ gz true).fpos
        = (open_output_file ⟨fs_len, 4096⟩ gz true).file.length := by
      cases gz <;> rfl
    have hw2 := write_chunk_raw_cursor_eq ⟨fs_len, 4096⟩
      (open_output_file ⟨fs_len, 4096⟩ gz true) (List.replicate 10000 0) (by norm_num)
      (by simp [e0]) (by rw [List.length_replicate]; norm_num) e3
    rw [e0] at hw2
    have hr2 : rnd_up ⟨fs_len, 4096⟩ 10000 = 12288 := by
      simp only [rnd_up, u32_wrap, u32_not]
      decide
    have hl : (List.replicate 10000 (0 : u8)).length = 10000 := List.length_replicate _ _
    have hj : List.replicate 10000 (0 : u8) ++ List.replicate 2288 0
        = List.replicate 12288 0 := by
      rw [← List.replicate_add]
    rw [hw2]
    simp only [after_raw, hr2, e1, e2, hl]
    refine ⟨?_, ?_, ?_⟩
    · rw [List.append_assoc, hj]
      rfl
    · rw [hj]
    · trivial

theorem write_chunk_raw_pads_to_block_boundary_witness :
    (write_chunk_raw ⟨16, 4⟩ (open_output_file ⟨16, 4⟩ false true)
        (open_output_file ⟨16, 4⟩ false true).cur_out_ptr [1, 2, 3, 4, 5]).1 = 0
    ∧ (write_chunk_raw ⟨16, 4⟩ (open_output_file ⟨16, 4⟩ false true)
        (open_output_file ⟨16, 4⟩ false true).cur_out_ptr [1, 2, 3, 4, 5]).2.chunk_cnt
      = (open_output_file ⟨16, 4⟩ false true).chunk_cnt + 1 :=
  have h := write_chunk_raw_pads_to_block_boundary ⟨16, 4⟩ (open_output_file ⟨16, 4⟩ false true)
    [1, 2, 3, 4, 5] 2 (by decide) (by decide) (by decide) (by decide)
  ⟨h.1, h.2.2.2.2.2.1⟩

/-! ## Decoder lemmas -/

/-- The copy loop on a stream that holds the whole payload: the payload is written at the
output position and folded into the CRC, whatever the cut into buffer loads. -/
theorem simg_raw_loop_ok : ∀ (fuel len : Nat) (s : simg_io) (payload rest : List u8),
    s.inp = payload ++ rest → payload.length = len → len ≤ fuel →
    simg_raw_loop fuel len s
      = (true, { inp := rest,
                 out := { data := file_write_at s.out.data s.out.pos payload,
                          pos := s.out.pos + payload.length },
                 crc32 := sparse_crc32 s.crc32 payload }) := by
  intro fuel
  induction fuel with
  | zero =>
    intro len s payload rest hin hl hf
    have h0 : payload.length = 0 := by omega
    have hp : payload = [] := List.length_eq_zero.mp h0
    subst hp
    cases s
    simp_all [simg_raw_loop, file_write_at_nil, sparse_crc32_nil]
  | succ fuel ih =>
    intro len s payload rest hin hl hf
    unfold simg_raw_loop
    by_cases hz : len = 0
    · have hp : payload = [] := List.length_eq_zero.mp (by omega)
      subst hp
      cases s
      simp_all [file_write_at_nil, sparse_crc32_nil]
    · simp only [hz, if_false]
      generalize hc : (if len > SIMG_COPY_BUF_SIZE then SIMG_COPY_BUF_SIZE else len) = chunk
      have hc1 : chunk ≤ len := by
        rw [← hc]; split <;> omega
      have hc2 : 0 < chunk := by
        rw [← hc]; split
        · unfold SIMG_COPY_BUF_SIZE; norm_num
        · omega
      have ht : s.inp.take chunk = payload.take chunk := by
        rw [hin, List.take_append_of_le_length (by omega)]
      have hd : s.inp.drop chunk = payload.drop chunk ++ rest := by
        rw [hin, List.drop_append_of_le_length (by omega)]
      have htl : (payload.take chunk).length = chunk := by
        rw [List.length_take]; omega
      simp only [ht, hd, htl, lt_self_iff_false, if_false, out_fwrite, ne_eq, not_true_eq_false]
      rw [ih (len - chunk) _ (payload.drop chunk) rest rfl (by rw [List.length_drop]; omega)
        (by omega)]
      have e : s.out.pos + chunk + (payload.length - chunk) = s.out.pos + payload.length := by
        omega
      have ew := file_write_at_append s.out.data (payload.take chunk) (payload.drop chunk)
        s.out.pos
      rw [htl, List.take_append_drop] at ew
      simp only [htl, ew, sparse_crc32_append, List.take_append_drop, List.length_drop, e]

theorem simg_process_raw_chunk_ok (s : simg_io) (payload rest : List u8) (blocks blk_sz : Nat)
    (hin : s.inp = payload ++ rest) (hl : payload.length = blocks * blk_sz) :
    simg_process_raw_chunk s blocks blk_sz
      = (to_int32 blocks,
         { inp := rest,
           out := { data := file_write_at s.out.data s.out.pos payload,
                    pos := s.out.pos + payload.length },
           crc32 := sparse_crc32 s.crc32 payload }) := by
  unfold simg_process_raw_chunk
  simp only [simg_raw_loop_ok _ _ s payload rest hin hl (le_refl _), if_true]

theorem to_int32_small (n : Nat) (h : n < 2147483648) : to_int32 n = (n : Int) := by
  unfold to_int32
  have e : n % 4294967296 = n := Nat.mod_eq_of_lt (by omega)
  rw [e, if_pos h]

/-- One turn of the chunk loop on a well-formed `Raw` record with a 12-byte header. -/
theorem simg_chunk_loop_raw (hdr : sparse_header_t) (ch : chunk_header_t) (n index : Nat)
    (s : simg_state) (payload rest : List u8) (hres : s.result = 0)
    (hin : s.io.inp = chunk_header_bytes ch ++ (payload ++ rest))
    (hty : ch.chunk_type = CHUNK_TYPE_RAW) (hrs : ch.reserved1 < 65536)
    (hcs : ch.chunk_sz < 2147483648) (hts : ch.total_sz < 4294967296)
    (hhs : hdr.chunk_hdr_sz = 12) (hok : simg_raw_size_ok hdr ch = true)
    (hl : payload.length = ch.chunk_sz * hdr.blk_sz) :
    simg_chunk_loop hdr (n + 1) index s
      = simg_chunk_loop hdr n (index + 1)
          { s with
            io := { inp := rest,
                    out := { data := file_write_at s.io.out.data s.io.out.pos payload,
                             pos := s.io.out.pos + payload.length },
                    crc32 := sparse_crc32 s.io.crc32 payload },
            total_blocks := u32_wrap (s.total_blocks + ch.chunk_sz) } := by
  have hb : s.io.inp.take 12 = chunk_header_bytes ch := by
    rw [hin]
    exact List.take_left' (chunk_header_bytes_length ch)
  have hd : s.io.inp.drop 12 = payload ++ rest := by
    rw [hin]
    exact List.drop_left' (chunk_header_bytes_length ch)
  have hp : chunk_header_of_bytes (chunk_header_bytes ch) = ch := by
    rw [chunk_header_of_bytes_bytes]
    cases ch
    simp only [CHUNK_TYPE_RAW] at hty
    simp only at hrs hcs hts hty
    subst hty
    simp only [chunk_header_t.mk.injEq]
    refine ⟨by norm_num, ?_, ?_, ?_⟩ <;> omega
  have hi : to_int32 ch.chunk_sz = (ch.chunk_sz : Int) := to_int32_small _ hcs
  have hr := simg_process_raw_chunk_ok
    { inp := payload ++ rest, out := s.io.out, crc32 := s.io.crc32 } payload rest
    ch.chunk_sz hdr.blk_sz rfl hl
  conv_lhs => unfold simg_chunk_loop
  simp only [hres, ne_eq, not_true_eq_false, if_false, SIMG_CHUNK_HEADER_LEN, hb, hd,
    chunk_header_bytes_length, if_true, hp, hhs, gt_iff_lt, lt_self_iff_false]
  simp only [simg_process_chunk, hty, if_true, hok, not_true_eq_false, if_false,
    hr, hi, ge_iff_le, Int.natCast_nonneg, Int.toNat_ofNat]

/-! ## The image of a single write -/

theorem open_output_file_sparse (info : fs_info) (gz : Bool) :
    open_output_file info gz true
      = { gz_fd := gz, sparse := true, cur_out_ptr := 0, chunk_cnt := 0, crc32 := 0,
          file := sparse_header_bytes (closed_header info 0 0), fpos := 28,
          sparse_header := closed_header info 0 0, warns := [] } := by
  cases gz <;> rfl

/-- The bytes of the image file after a single write at offset 0. -/
theorem sparse_encode_eq (info : fs_info) (gz : Bool) (data : List u8)
    (h0 : 0 < info.block_size) (hfit : data.length ≤ info.len)
    (hlen : data.length + info.block_size ≤ 2147483648) :
    sparse_encode info gz data
      = sparse_header_bytes (closed_header info 1 (sparse_crc32 0 (padded info data)))
        ++ (chunk_header_bytes (raw_chunk_header info data.length)
          ++ (padded info data ++ [])) := by
  have hw := write_chunk_raw_cursor_eq info (open_output_file info gz true) data h0
    (by rw [open_output_file_sparse]; simp) hlen
    (by rw [open_output_file_sparse]; simp [sparse_header_bytes_length])
  have hc : (open_output_file info gz true).cur_out_ptr = 0 := by
    rw [open_output_file_sparse]
  have hs : (open_output_file info gz true).sparse = true := by
    rw [open_output_file_sparse]
  rw [hc] at hw
  have hnf : ¬ (0 + data.length > info.len) := by omega
  unfold sparse_encode write_data_block
  simp only [hnf, if_false, hs, if_true, hw]
  rw [open_output_file_sparse]
  cases gz <;>
    simp [close_output_file, after_raw, ops_seek, ops_write, file_write_at_zero,
      sparse_header_bytes_length, closed_header, raw_chunk_header, padded, u32_wrap]

/-- The header check on a file that starts with the bytes of an in-range header with
the right magic and major version, declared no longer than 28 bytes. -/
theorem simg_validate_ok (h : sparse_header_t) (rest : List u8)
    (hm : h.magic = SPARSE_HEADER_MAGIC) (hv : h.major_version = 1)
    (h1 : h.minor_version < 65536) (h2 : h.file_hdr_sz ≤ 28) (h3 : h.chunk_hdr_sz < 65536)
    (h4 : h.blk_sz < 4294967296) (h5 : h.total_blks < 4294967296)
    (h6 : h.total_chunks < 4294967296) (h7 : h.image_checksum < 4294967296) :
    simg_validate_and_skip_image_header (sparse_header_bytes h ++ rest)
      = { result := 0, sparse_header := h, pos := 28, msgs := [] } := by
  have ht : (sparse_header_bytes h ++ rest).take 28 = sparse_header_bytes h :=
    List.take_left' (sparse_header_bytes_length h)
  have hp : sparse_header_of_bytes (sparse_header_bytes h) = h := by
    rw [sparse_header_of_bytes_bytes]
    cases h
    simp only [SPARSE_HEADER_MAGIC] at hm
    simp only at hv h1 h2 h3 h4 h5 h6 h7 hm
    subst hm hv
    simp only [sparse_header_t.mk.injEq]
    refine ⟨by norm_num, by norm_num, ?_, ?_, ?_, ?_, ?_, ?_, ?_⟩ <;> omega
  have hnl : ¬ (h.file_hdr_sz > 28) := by omega
  simp only [simg_validate_and_skip_image_header, SIMG_SPARSE_HEADER_LEN, ht, hp,
    sparse_header_bytes_length, lt_self_iff_false, if_false, hm, ne_eq, not_true_eq_false,
    hv, SIMG_SPARSE_HEADER_MAJOR_VER, hnl]

/-- The restore of an image whose header is accepted, onto a device that can be opened. -/
theorem restore_ext4_sparse_ui_accepted (file dev : List u8) (errno : Int)
    (hdr : sparse_header_t) (pos : Nat)
    (hv : simg_validate_and_skip_image_header file
      = { result := 0, sparse_header := hdr, pos := pos, msgs := [] }) :
    restore_ext4_sparse_ui { imgfile := some file, device := some dev, errno := errno }
      = (simg_chunk_loop hdr hdr.total_chunks 0 (simg_start (file.drop pos) dev)).map
          (simg_finish hdr) := by
  unfold restore_ext4_sparse_ui
  simp only [hv, ne_eq, not_true_eq_false, if_false]
  show (match simg_chunk_loop hdr hdr.total_chunks 0 (simg_start (file.drop pos) dev) with
    | none => none
    | some s => some (simg_finish hdr s)) = _
  cases simg_chunk_loop hdr hdr.total_chunks 0 (simg_start (file.drop pos) dev) <;> rfl

/-- The restore of the image of a single write, for a power-of-two block size. -/
theorem restore_sparse_encode (info : fs_info) (gz : Bool) (data dev : List u8) (errno : Int)
    (k : Nat) (hB : info.block_size = 2 ^ k) (hfit : data.length ≤ info.len)
    (hlen : data.length + info.block_size ≤ 2147483648) :
    restore_ext4_sparse_ui
        { imgfile := some (sparse_encode info gz data), device := some dev, errno := errno }
      = some
        { result := 0,
          out := some { data := file_write_at dev 0 (padded info data),
                        pos := 0 + (padded info data).length },
          crc32 := sparse_crc32 0 (padded info data),
          total_blocks := u32_wrap (0 + rnd_up info data.length / info.block_size),
          msgs := [] ++
            (if (0 : Int) = 0 ∧ u32_wrap (info.len / info.block_size)
                ≠ u32_wrap (0 + rnd_up info data.length / info.block_size)
              then [simg_msg.warn_blocks
                (u32_wrap (0 + rnd_up info data.length / info.block_size))
                (u32_wrap (info.len / info.block_size))]
              else []) ++ [] } := by
  have h0 : 0 < info.block_size := by rw [hB]; exact Nat.pow_pos (by norm_num)
  have hr := rnd_up_pow2 info data.length k hB (by omega)
  have hb := rnd_up_bounds info data.length h0 (by omega)
  have hcrc : sparse_crc32 0 (padded info data) < 4294967296 :=
    sparse_crc32_lt 0 _ (by norm_num)
  have hdiv : rnd_up info data.length / info.block_size * info.block_size
      = rnd_up info data.length := by
    rw [hr, Nat.mul_div_cancel _ h0]
  have hdl : rnd_up info data.length / info.block_size ≤ rnd_up info data.length :=
    Nat.div_le_self _ _
  have hv := simg_validate_ok (closed_header info 1 (sparse_crc32 0 (padded info data)))
    (chunk_header_bytes (raw_chunk_header info data.length) ++ (padded info data ++ []))
    rfl rfl (by simp [closed_header, sparse_header_init, SPARSE_HEADER_MINOR_VER])
    (by simp [closed_header, sparse_header_init, SPARSE_HEADER_LEN])
    (by simp [closed_header, sparse_header_init, CHUNK_HEADER_LEN])
    (by simp only [closed_header, u32_wrap]; omega)
    (by simp only [closed_header, u32_wrap]; omega)
    (by simp only [closed_header, u32_wrap]; omega)
    (by simpa [closed_header] using hcrc)
  have hbs : (closed_header info 1 (sparse_crc32 0 (padded info data))).blk_sz
      = info.block_size := by
    simp only [closed_header, u32_wrap]; omega
  have hpl : (padded info data).length = rnd_up info data.length := by
    simp only [padded, List.length_append, List.length_replicate]; omega
  have hloop := simg_chunk_loop_raw
    (closed_header info 1 (sparse_crc32 0 (padded info data)))
    (raw_chunk_header info data.length) 0 0
    (simg_start (chunk_header_bytes (raw_chunk_header info data.length)
      ++ (padded info data ++ [])) dev)
    (padded info data) [] rfl rfl rfl (by simp [raw_chunk_header])
    (by simp only [raw_chunk_header]; omega)
    (by simp only [raw_chunk_header, u32_wrap]; omega)
    rfl
    (by
      simp only [simg_raw_size_ok, raw_chunk_header, hbs, hdiv, decide_eq_true_eq]
      simp only [closed_header, sparse_header_init, CHUNK_HEADER_LEN, u32_wrap]
      omega)
    (by rw [hbs, hpl]; simp only [raw_chunk_header]; exact hdiv.symm)
  have htc : (closed_header info 1 (sparse_crc32 0 (padded info data))).total_chunks
      = 0 + 1 := rfl
  rw [sparse_encode_eq info gz data h0 hfit (by omega),
    restore_ext4_sparse_ui_accepted _ dev errno _ _ hv, htc,
    List.drop_left' (sparse_header_bytes_length _)]
  show (simg_chunk_loop _ (0 + 1) 0 _).map _ = _
  rw [hloop]
  simp [simg_chunk_loop, simg_finish, simg_start, closed_header, raw_chunk_header]

theorem sparse_header_of_bytes_checksum (h : sparse_header_t) (rest : List u8) :
    (sparse_header_of_bytes (sparse_header_bytes h ++ rest)).image_checksum
      = h.image_checksum % 4294967296 := by
  simp [sparse_header_of_bytes, sparse_header_bytes, rd32, le16, le32, byte_at, Fin.ofNat]
  omega

theorem sparse_header_of_bytes_total_blks (h : sparse_header_t) (rest : List u8) :
    (sparse_header_of_bytes (sparse_header_bytes h ++ rest)).total_blks
      = h.total_blks % 4294967296 := by
  simp [sparse_header_of_bytes, sparse_header_bytes, rd32, le16, le32, byte_at, Fin.ofNat]
  omega

/-! ## Claims on the round trip -/

/-- C1 (the claim as stated fails): with block size 3 the image of the four bytes
1, 2, 3, 4 is refused by the restore (`total_sz` is 16 but 12 + 1 * 3 is expected):
the result is -1 and the device keeps its old content. -/
theorem sparse_round_trip_fails_for_block_size_3 :
    restore_ext4_sparse_ui
        { imgfile := some (sparse_encode ⟨6, 3⟩ false [1, 2, 3, 4]),
          device := some [0, 0, 0, 0, 0, 0], errno := 5 }
      = some { result := -1, out := some { data := [0, 0, 0, 0, 0, 0], pos := 0 },
               crc32 := 0, total_blocks := 0, msgs := [simg_msg.bogus_raw 0] } := by
  decide

/-- C1 (amended): for every power-of-two block size `B` and every byte sequence that fits
the file system length, with `len + B` within `int` range, the restore of the image
written by `open_output_file` (sparse), `write_data_block` at offset 0 and
`close_output_file` returns 0 and leaves on the device the original bytes, followed by
zero bytes up to the block boundary and then the old content of the device; the CRC-32
accumulated by the restore equals the `image_checksum` stored in the header, and no
checksum warning is printed. -/
theorem sparse_round_trip_pow2 (info : fs_info) (gz : Bool) (data dev : List u8)
    (errno : Int) (k : Nat) (hB : info.block_size = 2 ^ k) (hfit : data.length ≤ info.len)
    (hlen : data.length + info.block_size ≤ 2147483648) :
    ∃ r out,
      restore_ext4_sparse_ui
          { imgfile := some (sparse_encode info gz data), device := some dev, errno := errno }
        = some r
      ∧ r.result = 0
      ∧ r.out = some out
      ∧ out.data
        = data
          ++ List.replicate
            ((data.length + (info.block_size - 1)) / info.block_size * info.block_size
              - data.length) 0
          ++ dev.drop
            ((data.length + (info.block_size - 1)) / info.block_size * info.block_size)
      ∧ out.data.take data.length = data
      ∧ r.crc32 = (sparse_header_of_bytes (sparse_encode info gz data)).image_checksum
      ∧ ∀ computed expected, simg_msg.warn_crc computed expected ∉ r.msgs := by
  have h0 : 0 < info.block_size := by rw [hB]; exact Nat.pow_pos (by norm_num)
  have hr := rnd_up_pow2 info data.length k hB (by omega)
  have hb := rnd_up_bounds info data.length h0 (by omega)
  have hpl : (padded info data).length = rnd_up info data.length := by
    simp only [padded, List.length_append, List.length_replicate]; omega
  have hcrc : sparse_crc32 0 (padded info data) < 4294967296 :=
    sparse_crc32_lt 0 _ (by norm_num)
  refine ⟨_, _, restore_sparse_encode info gz data dev errno k hB hfit hlen, rfl, rfl,
    ?_, ?_, ?_, ?_⟩
  · simp only [file_write_at_zero, hpl]
    simp only [padded, hr]
  · simp only [file_write_at_zero, padded, List.append_assoc]
    exact List.take_left _ _
  · rw [sparse_encode_eq info gz data h0 hfit (by omega), sparse_header_of_bytes_checksum]
    simp only [closed_header]
    omega
  · intro computed expected hmem
    simp only [List.nil_append, List.append_nil] at hmem
    split at hmem <;> simp at hmem

theorem sparse_round_trip_pow2_witness :
    ∃ r out,
      restore_ext4_sparse_ui
          { imgfile := some (sparse_encode ⟨8, 4⟩ true [1, 2, 3, 4, 5]),
            device := some [9, 9, 9, 9, 9, 9, 9, 9, 9, 9], errno := 5 }
        = some r
      ∧ r.result = 0
      ∧ r.out = some out
      ∧ out.data = [1, 2, 3, 4, 5] ++ List.replicate 3 0 ++ [9, 9]
      ∧ out.data.take 5 = [1, 2, 3, 4, 5]
      ∧ r.crc32
        = (sparse_header_of_bytes (sparse_encode ⟨8, 4⟩ true [1, 2, 3, 4, 5])).image_checksum
      ∧ ∀ computed expected, simg_msg.warn_crc computed expected ∉ r.msgs :=
  sparse_round_trip_pow2 ⟨8, 4⟩ true [1, 2, 3, 4, 5] [9, 9, 9, 9, 9, 9, 9, 9, 9, 9] 5 2
    (by decide) (by decide) (by decide)

/-- C5 (the claim as stated fails): for 10,000 zero bytes written as one chunk with
block size 4,096 into a file system of 10,000 bytes, the header stores a total block
count of 2 (10,000 / 4,096 rounded down), while the restore accumulates 3 blocks and
prints the block-count warning. -/
theorem header_total_blks_is_not_rounded_up :
    (sparse_header_of_bytes
        (sparse_encode ⟨10000, 4096⟩ false (List.replicate 10000 0))).total_blks = 2
    ∧ (restore_ext4_sparse_ui
          { imgfile := some (sparse_encode ⟨10000, 4096⟩ false (List.replicate 10000 0)),
            device := some [], errno := 5 }).map
        (fun r => (r.result, r.total_blocks, r.msgs))
      = some (0, 3, [simg_msg.warn_blocks 3 2]) := by
  have hl : (List.replicate 10000 (0 : u8)).length = 10000 := List.length_replicate _ _
  have hr : rnd_up ⟨10000, 4096⟩ 10000 = 12288 := by
    simp only [rnd_up, u32_wrap, u32_not]
    decide
  constructor
  · rw [sparse_encode_eq ⟨10000, 4096⟩ false _ (by norm_num) (by rw [hl])
      (by rw [hl]; norm_num), sparse_header_of_bytes_total_blks]
    rfl
  · rw [restore_sparse_encode ⟨10000, 4096⟩ false _ [] 5 12 (by norm_num) (by rw [hl])
      (by rw [hl]; norm_num)]
    rw [Option.map_some', hl, hr]
    rfl

/-- C5 (amended): the total block count in the header is the file system length divided
by the block size (rounded down, as a 32-bit value), fixed when the output is opened;
the restore of a single-chunk image accumulates `ceil(L / B)` blocks, so the two agree,
and no block-count warning is printed, exactly when `info.len / B = ceil(L / B)`; for
10,000 bytes at `B = 4096` in a file system of 12,288 bytes both are 3. -/
theorem header_total_blks_from_fs_len (info : fs_info) (gz : Bool) (data dev : List u8)
    (errno : Int) (k : Nat) (hB : info.block_size = 2 ^ k) (hfit : data.length ≤ info.len)
    (hlen : data.length + info.block_size ≤ 2147483648) :
    (sparse_header_of_bytes (sparse_encode info gz data)).total_blks
      = info.len / info.block_size % 4294967296
    ∧ (∃ r,
        restore_ext4_sparse_ui
            { imgfile := some (sparse_encode info gz data), device := some dev,
              errno := errno } = some r
        ∧ r.result = 0
        ∧ r.total_blocks = (data.length + (info.block_size - 1)) / info.block_size
        ∧ ((∃ wrote expected, simg_msg.warn_blocks wrote expected ∈ r.msgs)
            ↔ info.len / info.block_size % 4294967296
              ≠ (data.length + (info.block_size - 1)) / info.block_size))
    ∧ (sparse_header_of_bytes
        (sparse_encode ⟨12288, 4096⟩ gz (List.replicate 10000 0))).total_blks = 3 := by
  have h0 : 0 < info.block_size := by rw [hB]; exact Nat.pow_pos (by norm_num)
  have hr := rnd_up_pow2 info data.length k hB (by omega)
  have hb := rnd_up_bounds info data.length h0 (by omega)
  have hd : rnd_up info data.length / info.block_size
      = (data.length + (info.block_size - 1)) / info.block_size := by
    rw [hr, Nat.mul_div_cancel _ h0]
  have hdl : rnd_up info data.length / info.block_size ≤ rnd_up info data.length :=
    Nat.div_le_self _ _
  have hu' : rnd_up info data.length / info.block_size % 4294967296
      = (data.length + (info.block_size - 1)) / info.block_size := by
    rw [← hd]; exact Nat.mod_eq_of_lt (by omega)
  have hu : u32_wrap (0 + rnd_up info data.length / info.block_size)
      = (data.length + (info.block_size - 1)) / info.block_size := by
    rw [Nat.zero_add]; exact hu'
  have hl : (List.replicate 10000 (0 : u8)).length = 10000 := List.length_replicate _ _
  refine ⟨?_, ⟨_, restore_sparse_encode info gz data dev errno k hB hfit hlen, rfl, hu, ?_⟩, ?_⟩
  · rw [sparse_encode_eq info gz data h0 hfit (by omega), sparse_header_of_bytes_total_blks]
    simp only [closed_header, u32_wrap, Nat.mod_mod]
  · simp only [hu, List.nil_append, List.append_nil]
    simp only [u32_wrap]
    by_cases hc : info.len / info.block_size % 4294967296
        = (data.length + (info.block_size - 1)) / info.block_size
    · simp [hc]
    · simp [hc]
  · rw [sparse_encode_eq ⟨12288, 4096⟩ gz _ (by norm_num) (by rw [hl]; norm_num)
      (by rw [hl]; norm_num), sparse_header_of_bytes_total_blks]
    rfl

theorem header_total_blks_from_fs_len_witness :
    (sparse_header_of_bytes (sparse_encode ⟨16, 4⟩ false [1, 2, 3, 4, 5])).total_blks
      = 16 / 4 % 4294967296 :=
  (header_total_blks_from_fs_len ⟨16, 4⟩ false [1, 2, 3, 4, 5] [] 5 2
    (by decide) (by decide) (by decide)).1

/-! ## Claims on padding -/

/-- C7 (amended): `pad_output_file` on a sparse output, for a target length within the
file system length: beyond the cursor by a whole number of blocks that fits the 32-bit
`chunk_sz` field, that is by fewer than `2 ^ 32` blocks, it appends exactly one
`DontCare` header for `(len - cur_out_ptr) / block_size`
blocks and moves the cursor to `len`; at the cursor it does nothing; below the cursor
it only prints the warning, and the cursor, the chunk count, the checksum and the file
are unchanged. -/
theorem pad_output_file_sparse (info : fs_info) (out : output_file) (len : Nat)
    (h0 : 0 < info.block_size) (hs : out.sparse = true) (hlen : len ≤ info.len)
    (hend : out.fpos = out.file.length) :
    (out.cur_out_ptr < len → (len - out.cur_out_ptr) % info.block_size = 0 →
      (len - out.cur_out_ptr) / info.block_size < 4294967296 →
      (pad_output_file info out len).file
          = out.file ++ chunk_header_bytes
              { chunk_type := CHUNK_TYPE_DONT_CARE, reserved1 := 0,
                chunk_sz := (len - out.cur_out_ptr) / info.block_size, total_sz := 12 }
        ∧ (pad_output_file info out len).cur_out_ptr = len
        ∧ (pad_output_file info out len).chunk_cnt = out.chunk_cnt + 1
        ∧ (pad_output_file info out len).crc32
          = sparse_crc32 out.crc32 (List.replicate (len - out.cur_out_ptr) 0)
        ∧ (pad_output_file info out len).warns = out.warns)
    ∧ (len = out.cur_out_ptr → pad_output_file info out len = out)
    ∧ (len < out.cur_out_ptr →
        pad_output_file info out len
          = { out with warns := out.warns ++ [ext4_warn.pad_less] }) := by
  have hnl : ¬ (len > info.len) := by omega
  refine ⟨?_, ?_, ?_⟩
  · intro hlt hal hfit
    have hn : ¬ (len < out.cur_out_ptr) := by omega
    have hu : u32_wrap ((len - out.cur_out_ptr) / info.block_size)
        = (len - out.cur_out_ptr) / info.block_size := Nat.mod_eq_of_lt hfit
    simp only [pad_output_file, hnl, if_false, hs, if_true, hn, gt_iff_lt, hlt,
      emit_skip_chunk_eq info out _ h0 hal hend, after_skip, hu, CHUNK_HEADER_LEN,
      and_true, true_and]
    omega
  · intro he
    have hn1 : ¬ (len < out.cur_out_ptr) := by omega
    have hn2 : ¬ (len > out.cur_out_ptr) := by omega
    simp only [pad_output_file, hnl, if_false, hs, if_true, hn1, hn2]
  · intro hlt
    simp only [pad_output_file, hnl, if_false, hs, if_true, hlt]

theorem pad_output_file_sparse_witness :
    pad_output_file ⟨64, 4⟩
        (write_data_block ⟨64, 4⟩ (open_output_file ⟨64, 4⟩ false true) 0 [1, 2, 3, 4, 5]) 4
      = { (write_data_block ⟨64, 4⟩ (open_output_file ⟨64, 4⟩ false true) 0 [1, 2, 3, 4, 5])
          with warns :=
            (write_data_block ⟨64, 4⟩ (open_output_file ⟨64, 4⟩ false true) 0
              [1, 2, 3, 4, 5]).warns ++ [ext4_warn.pad_less] }
    ∧ (pad_output_file ⟨64, 4⟩
        (write_data_block ⟨64, 4⟩ (open_output_file ⟨64, 4⟩ false true) 0 [1, 2, 3, 4, 5])
        64).cur_out_ptr = 64 :=
  have h := pad_output_file_sparse ⟨64, 4⟩
    (write_data_block ⟨64, 4⟩ (open_output_file ⟨64, 4⟩ false true) 0 [1, 2, 3, 4, 5])
  ⟨(h 4 (by decide) (by decide) (by decide) (by decide)).2.2 (by decide),
   ((h 64 (by decide) (by decide) (by decide) (by decide)).1
      (by decide) (by decide) (by decide)).2.1⟩

/-! ## Claims on the image header -/

theorem byte_at_take (b : List u8) (n i : Nat) (h : i < n) :
    byte_at (b.take n) i = byte_at b i := by
  simp [byte_at, List.getD_eq_getElem?_getD, List.getElem?_take, h]

/-- The fields of the header do not depend on what follows the first 28 bytes. -/
theorem sparse_header_of_bytes_take (b : List u8) :
    sparse_header_of_bytes (b.take 28) = sparse_header_of_bytes b := by
  simp [sparse_header_of_bytes, rd16, rd32, byte_at_take]

/-- The result of the header check, case by case. -/
theorem simg_validate_cases (file : List u8) :
    (simg_validate_and_skip_image_header file).sparse_header = sparse_header_of_bytes file
    ∧ ((simg_validate_and_skip_image_header file).result = 0
        ∨ (simg_validate_and_skip_image_header file).result = -1
        ∨ (simg_validate_and_skip_image_header file).result = -2)
    ∧ ((simg_validate_and_skip_image_header file).result = 0
        ↔ 28 ≤ file.length
          ∧ (sparse_header_of_bytes file).magic = SPARSE_HEADER_MAGIC
          ∧ (sparse_header_of_bytes file).major_version = 1)
    ∧ ((simg_validate_and_skip_image_header file).result = 0 →
        (simg_validate_and_skip_image_header file).msgs = []
        ∧ (simg_validate_and_skip_image_header file).pos
          = max 28 (sparse_header_of_bytes file).file_hdr_sz) := by
  unfold simg_validate_and_skip_image_header
  simp only [SIMG_SPARSE_HEADER_LEN, sparse_header_of_bytes_take, List.length_take,
    SIMG_SPARSE_HEADER_MAJOR_VER]
  by_cases h1 : min 28 file.length < 28
  · simp only [h1, if_true]
    refine ⟨trivial, by decide, ?_, ?_⟩
    · constructor
      · intro h; exact absurd h (by decide)
      · intro h; omega
    · intro h; exact absurd h (by decide)
  · simp only [h1, if_false]
    by_cases h2 : (sparse_header_of_bytes file).magic = SPARSE_HEADER_MAGIC
    · by_cases h3 : (sparse_header_of_bytes file).major_version = 1
      · simp only [h2, h3, ne_eq, not_true_eq_false, if_false, true_and, and_true]
        refine ⟨by decide, ?_, ?_⟩
        · constructor
          · intro _; omega
          · intro _; trivial
        · intro _
          split <;> omega
      · simp only [h2, h3, ne_eq, not_true_eq_false, not_false_eq_true, if_false, if_true]
        refine ⟨trivial, by decide, ?_, ?_⟩
        · constructor
          · intro h; exact absurd h (by decide)
          · intro h; exact absurd h.2.2 (by simp)
        · intro h; exact absurd h (by decide)
    · simp only [h2, ne_eq, not_false_eq_true, if_true]
      refine ⟨trivial, by decide, ?_, ?_⟩
      · constructor
        · intro h; exact absurd h (by decide)
        · intro h; exact absurd h.2.1 (by simp)
      · intro h; exact absurd h (by decide)

/-- C8: the image header is accepted exactly when 28 header bytes can be read, the magic
is the sparse magic and the major version is 1; otherwise `restore_ext4_sparse_ui`
returns a non-zero error (-1 or -2) and the output device is never opened; and when an
accepted header declares more than 28 bytes, the chunks are parsed from offset
`file_hdr_sz` of the file. -/
theorem simg_header_accepted_iff (file : List u8) (device : Option (List u8)) (errno : Int) :
    ((simg_validate_and_skip_image_header file).result = 0
      ↔ 28 ≤ file.length
        ∧ (sparse_header_of_bytes file).magic = SPARSE_HEADER_MAGIC
        ∧ (sparse_header_of_bytes file).major_version = 1)
    ∧ (¬ (28 ≤ file.length
          ∧ (sparse_header_of_bytes file).magic = SPARSE_HEADER_MAGIC
          ∧ (sparse_header_of_bytes file).major_version = 1) →
        ∃ r, restore_ext4_sparse_ui { imgfile := some file, device := device, errno := errno }
            = some r
          ∧ (r.result = -1 ∨ r.result = -2) ∧ r.result ≠ 0 ∧ r.out = none)
    ∧ (28 ≤ file.length
        ∧ (sparse_header_of_bytes file).magic = SPARSE_HEADER_MAGIC
        ∧ (sparse_header_of_bytes file).major_version = 1 →
        28 < (sparse_header_of_bytes file).file_hdr_sz →
        ∀ dev, restore_ext4_sparse_ui
            { imgfile := some file, device := some dev, errno := errno }
          = (simg_chunk_loop (sparse_header_of_bytes file)
              (sparse_header_of_bytes file).total_chunks 0
              (simg_start (file.drop (sparse_header_of_bytes file).file_hdr_sz) dev)).map
            (simg_finish (sparse_header_of_bytes file))) := by
  obtain ⟨hh, hres, hiff, hpos⟩ := simg_validate_cases file
  refine ⟨hiff, ?_, ?_⟩
  · intro hn
    have hne : (simg_validate_and_skip_image_header file).result ≠ 0 :=
      fun h => hn (hiff.mp h)
    refine ⟨{ result := (simg_validate_and_skip_image_header file).result, out := none,
              crc32 := 0, total_blocks := 0,
              msgs := (simg_validate_and_skip_image_header file).msgs }, ?_, ?_, hne, rfl⟩
    · unfold restore_ext4_sparse_ui
      simp only [hne, ne_eq, not_false_eq_true, if_true]
    · rcases hres with h | h | h
      · exact absurd h hne
      · exact Or.inl h
      · exact Or.inr h
  · intro hacc hbig dev
    have h0 := hiff.mpr hacc
    obtain ⟨hm, hp⟩ := hpos h0
    have hp2 : (simg_validate_and_skip_image_header file).pos
        = (sparse_header_of_bytes file).file_hdr_sz := by
      rw [hp]; omega
    rw [← hp2]
    apply restore_ext4_sparse_ui_accepted
    rw [← hh, ← h0, ← hm]

theorem simg_header_accepted_iff_witness :
    ∃ r, restore_ext4_sparse_ui
        { imgfile := some (sparse_header_bytes
            { sparse_header_init with major_version := 2, blk_sz := 4096 }),
          device := some [1, 2, 3], errno := 5 } = some r
      ∧ (r.result = -1 ∨ r.result = -2) ∧ r.result ≠ 0 ∧ r.out = none :=
  (simg_header_accepted_iff
    (sparse_header_bytes { sparse_header_init with major_version := 2, blk_sz := 4096 })
    (some [1, 2, 3]) 5).2.1 (by decide)

/-! ## Claims on the size test of `Raw` chunks -/

/-- The restore of an image whose single `Raw` chunk declares `total_sz = 12` and
1048576 blocks of 4096 bytes: the chunk passes the size test and its payload is copied. -/
theorem restore_wrapped_raw_chunk (payload dev : List u8)
    (hl : payload.length = 4294967296) :
    (restore_ext4_sparse_ui
        { imgfile := some (sparse_header_bytes wrap_image_header
            ++ (chunk_header_bytes wrap_chunk_header ++ (payload ++ []))),
          device := some dev, errno := 5 }).map
        (fun r => (r.result, r.out.map (fun o => (o.data, o.pos)), r.total_blocks))
      = some (0, some (file_write_at dev 0 payload, 4294967296), 1048576) := by
  have hv := simg_validate_ok wrap_image_header
    (chunk_header_bytes wrap_chunk_header ++ (payload ++ []))
    rfl rfl (by decide) (by decide) (by decide) (by decide) (by decide) (by decide)
    (by decide)
  have hloop := simg_chunk_loop_raw wrap_image_header wrap_chunk_header 0 0
    (simg_start (chunk_header_bytes wrap_chunk_header ++ (payload ++ [])) dev)
    payload [] rfl rfl rfl (by decide) (by decide) (by decide) rfl (by decide)
    (by rw [hl]; rfl)
  have htc : wrap_image_header.total_chunks = 0 + 1 := rfl
  rw [restore_ext4_sparse_ui_accepted _ dev 5 _ _ hv, htc,
    List.drop_left' (sparse_header_bytes_length _), hloop]
  simp only [simg_chunk_loop, Option.map_some', simg_finish, simg_start, hl]
  rfl

/-- C9 (the code at the failing input): a `Raw` chunk with `chunk_sz = 1048576`,
`blk_sz = 4096` and `total_sz = 12` does not satisfy
`total_sz = chunk_hdr_sz + chunk_sz * blk_sz` over the natural numbers, yet it passes
the 32-bit size test, the restore copies its 4294967296 payload bytes to the device
and returns 0. -/
theorem raw_chunk_size_test_wraps :
    wrap_chunk_header.total_sz
      ≠ wrap_image_header.chunk_hdr_sz + wrap_chunk_header.chunk_sz * wrap_image_header.blk_sz
    ∧ simg_raw_size_ok wrap_image_header wrap_chunk_header = true
    ∧ (restore_ext4_sparse_ui
        { imgfile := some (sparse_header_bytes wrap_image_header
            ++ (chunk_header_bytes wrap_chunk_header
              ++ (List.replicate 4294967296 7 ++ []))),
          device := some [], errno := 5 }).map
        (fun r => (r.result, r.out.map (fun o => (o.data, o.pos)), r.total_blocks))
      = some (0, some (file_write_at [] 0 (List.replicate 4294967296 7), 4294967296),
          1048576) :=
  ⟨by decide, by decide,
   restore_wrapped_raw_chunk (List.replicate 4294967296 7) [] (List.length_replicate _ _)⟩

/-! ## The skip chunk helper returns -/

/-- A 64-bit counter that is stepped down by `r`, where `r` is at most `2 ^ 31` and divides
the counter up to a multiple of `2 ^ 31`, reaches zero within `2 ^ 64` steps. -/
theorem skip_counter_reaches_zero (len0 r : Nat) (hr0 : 0 < r) (hr : r ≤ 2147483648)
    (hlen : ∃ j, len0 = r + j * 2147483648) :
    ∃ t, t < 18446744073709551616 ∧
      (len0 + t * (18446744073709551616 - r)) % 18446744073709551616 = 0 := by
  obtain ⟨j, hj⟩ := hlen
  have hM : (2 : Nat) ^ 64 = 18446744073709551616 := by norm_num
  have hgM : Nat.gcd r 18446744073709551616 ∣ 2 ^ 64 := by
    rw [hM]; exact Nat.gcd_dvd_right _ _
  have hgr : Nat.gcd r 18446744073709551616 ∣ r := Nat.gcd_dvd_left _ _
  obtain ⟨m, hm, hgm⟩ := (Nat.dvd_prime_pow Nat.prime_two).1 hgM
  have hgle : Nat.gcd r 18446744073709551616 ≤ r := Nat.le_of_dvd hr0 hgr
  have hm31 : m ≤ 31 := by
    by_contra hc
    have h32 : 2 ^ 32 ≤ 2 ^ m := Nat.pow_le_pow_right (by norm_num) (by omega)
    rw [hgm] at hgle
    norm_num at h32
    omega
  have hg31 : Nat.gcd r 18446744073709551616 ∣ 2147483648 := by
    rw [hgm]
    exact Nat.pow_dvd_pow 2 hm31 (n := 31)
  have hglen : Nat.gcd r 18446744073709551616 ∣ len0 := by
    rw [hj]
    exact Dvd.dvd.add hgr (Dvd.dvd.mul_left hg31 j)
  have hglt : Nat.gcd r 18446744073709551616 < 18446744073709551616 := by omega
  obtain ⟨x, hx⟩ := Nat.exists_mul_emod_eq_gcd hglt
  obtain ⟨q, hq⟩ := hglen
  have hx' : r * x ≡ Nat.gcd r 18446744073709551616 [MOD 18446744073709551616] := by
    unfold Nat.ModEq
    rw [hx, Nat.mod_eq_of_lt hglt]
  have h1 : r * x * q ≡ len0 [MOD 18446744073709551616] := by
    rw [hq]
    exact hx'.mul_right q
  have ht : (x * q) % 18446744073709551616 ≡ x * q [MOD 18446744073709551616] :=
    Nat.mod_modEq _ _
  have h2 : r * ((x * q) % 18446744073709551616) ≡ len0 [MOD 18446744073709551616] := by
    have h3 := ht.mul_left r
    rw [← Nat.mul_assoc] at h3
    exact h3.trans h1
  refine ⟨(x * q) % 18446744073709551616, Nat.mod_lt _ (by norm_num), ?_⟩
  generalize (x * q) % 18446744073709551616 = t at h2
  have h4 := h2.symm.add_right (t * (18446744073709551616 - r))
  have h5 : r * t + t * (18446744073709551616 - r) = t * 18446744073709551616 := by
    rw [Nat.mul_comm r t, ← Nat.mul_add]
    congr 1
    omega
  rw [h5] at h4
  unfold Nat.ModEq at h4
  rw [h4, Nat.mul_mod_left]

/-- The last step length that the seek loop of `simg_process_skip_chunk` leaves in
`skip_chunk`. -/
theorem simg_skip_seek_last : ∀ (fuel len skip_chunk : Nat) (out : out_dev), len ≤ fuel →
    (simg_skip_seek fuel len skip_chunk out).1
      = if len = 0 then skip_chunk else (len - 1) % 2147483648 + 1 := by
  intro fuel
  induction fuel with
  | zero =>
    intro len skip_chunk out h
    have : len = 0 := by omega
    subst this
    simp [simg_skip_seek]
  | succ fuel ih =>
    intro len skip_chunk out h
    unfold simg_skip_seek
    by_cases hz : len = 0
    · simp [hz]
    · simp only [hz, if_false]
      by_cases hgt : len > 2147483648
      · simp only [hgt, if_true]
        rw [ih _ _ _ (by omega)]
        have hnz : ¬ (len - 2147483648 = 0) := by omega
        simp only [hnz, if_false]
        omega
      · simp only [hgt, if_false]
        rw [ih _ _ _ (by omega)]
        simp only [Nat.sub_self, if_true]
        omega

/-- The CRC loop of `simg_process_skip_chunk` ends as soon as the counter can reach
zero in `t` steps of the clamped length `s`. -/
theorem simg_skip_crc_returns (blk_sz s : Nat) (hs : s ≤ blk_sz)
    (hsM : s ≤ 18446744073709551616) :
    ∀ (t fuel len skip_chunk crc : Nat), t < fuel → len < 18446744073709551616 →
      (if skip_chunk > blk_sz then blk_sz else skip_chunk) = s →
      (len + t * (18446744073709551616 - s)) % 18446744073709551616 = 0 →
      ∃ c, simg_skip_crc blk_sz fuel len skip_chunk crc = some c := by
  have hstable : (if s > blk_sz then blk_sz else s) = s := by
    have : ¬ (s > blk_sz) := by omega
    simp only [this, if_false]
  intro t
  induction t with
  | zero =>
    intro fuel len skip_chunk crc hf hl hsc hz
    have h0 : len = 0 := by omega
    obtain ⟨f, rfl⟩ : ∃ f, fuel = f + 1 := ⟨fuel - 1, by omega⟩
    exact ⟨crc, by simp [simg_skip_crc, h0]⟩
  | succ t ih =>
    intro fuel len skip_chunk crc hf hl hsc hz
    obtain ⟨f, rfl⟩ : ∃ f, fuel = f + 1 := ⟨fuel - 1, by omega⟩
    unfold simg_skip_crc
    by_cases h0 : len = 0
    · exact ⟨crc, by simp [h0]⟩
    · simp only [h0, if_false, hsc]
      apply ih f _ s _ (by omega) (Nat.mod_lt _ (by norm_num)) hstable
      have e : (t + 1) * (18446744073709551616 - s)
          = (18446744073709551616 - s) + t * (18446744073709551616 - s) := by
        rw [Nat.add_mul, Nat.one_mul, Nat.add_comm]
      rw [e] at hz
      generalize t * (18446744073709551616 - s) = q at hz ⊢
      omega

theorem simg_skip_crc_zero_len (blk_sz fuel skip_chunk crc : Nat) (h : 0 < fuel) :
    simg_skip_crc blk_sz fuel 0 skip_chunk crc = some crc := by
  obtain ⟨f, rfl⟩ : ∃ f, fuel = f + 1 := ⟨fuel - 1, by omega⟩
  simp [simg_skip_crc]

/-- The function `simg_process_skip_chunk` returns for every 32-bit block count and
block size; the result is the block count and the input stream is untouched. -/
theorem simg_process_skip_chunk_returns (s : simg_io) (blocks blk_sz : Nat)
    (hb : blocks < 4294967296) (hs : blk_sz < 4294967296) :
    ∃ r, simg_process_skip_chunk s blocks blk_sz = some r
      ∧ r.1 = to_int32 blocks ∧ r.2.inp = s.inp := by
  have hret : ∀ c, simg_skip_crc blk_sz 18446744073709551617 (blocks * blk_sz)
        (simg_skip_seek (blocks * blk_sz) (blocks * blk_sz) 0 s.out).1 s.crc32 = some c →
      ∃ r, simg_process_skip_chunk s blocks blk_sz = some r
        ∧ r.1 = to_int32 blocks ∧ r.2.inp = s.inp := by
    intro c hc
    refine ⟨(to_int32 blocks,
      { s with out := (simg_skip_seek (blocks * blk_sz) (blocks * blk_sz) 0 s.out).2,
               crc32 := c }), ?_, rfl, rfl⟩
    unfold simg_process_skip_chunk
    simp only [hc]
  have hlt : blocks * blk_sz < 18446744073709551616 := by
    have h1 : blocks * blk_sz ≤ 4294967295 * 4294967295 :=
      Nat.mul_le_mul (by omega) (by omega)
    omega
  by_cases hz : blocks * blk_sz = 0
  · exact hret s.crc32 (by rw [hz]; exact simg_skip_crc_zero_len _ _ _ _ (by norm_num))
  · have hb0 : 0 < blocks := Nat.pos_of_ne_zero (fun h => hz (by rw [h, Nat.zero_mul]))
    have hs0 : 0 < blk_sz := Nat.pos_of_ne_zero (fun h => hz (by rw [h, Nat.mul_zero]))
    have hlast := simg_skip_seek_last (blocks * blk_sz) (blocks * blk_sz) 0 s.out (le_refl _)
    simp only [hz, if_false] at hlast
    by_cases hcase : (blocks * blk_sz - 1) % 2147483648 + 1 ≥ blk_sz
    · -- the loop runs in steps of one block
      have hclamp : (if (simg_skip_seek (blocks * blk_sz) (blocks * blk_sz) 0 s.out).1 > blk_sz
          then blk_sz else (simg_skip_seek (blocks * blk_sz) (blocks * blk_sz) 0 s.out).1)
          = blk_sz := by
        rw [hlast]; split <;> omega
      have hsum : blocks * blk_sz + blocks * (18446744073709551616 - blk_sz)
          = blocks * 18446744073709551616 := by
        rw [← Nat.mul_add]; congr 1; omega
      obtain ⟨c, hc⟩ := simg_skip_crc_returns blk_sz blk_sz (le_refl _) (by omega) blocks
        18446744073709551617 (blocks * blk_sz) _ s.crc32 (by omega) hlt hclamp
        (by rw [hsum, Nat.mul_mod_left])
      exact hret c hc
    · -- the loop runs in steps of the last seek length
      have hclamp : (if (simg_skip_seek (blocks * blk_sz) (blocks * blk_sz) 0 s.out).1 > blk_sz
          then blk_sz else (simg_skip_seek (blocks * blk_sz) (blocks * blk_sz) 0 s.out).1)
          = (blocks * blk_sz - 1) % 2147483648 + 1 := by
        rw [hlast]; split <;> omega
      obtain ⟨t, ht, hzero⟩ := skip_counter_reaches_zero (blocks * blk_sz)
        ((blocks * blk_sz - 1) % 2147483648 + 1) (by omega) (by omega)
        ⟨(blocks * blk_sz - 1) / 2147483648, by omega⟩
      obtain ⟨c, hc⟩ := simg_skip_crc_returns blk_sz ((blocks * blk_sz - 1) % 2147483648 + 1)
        (by omega) (by omega) t 18446744073709551617 (blocks * blk_sz) _ s.crc32 (by omega)
        hlt hclamp hzero
      exact hret c hc

/-! ## Claims on truncated images -/

theorem byte_at_lt (b : List u8) (i : Nat) : byte_at b i < 256 := (b.getD i 0).isLt

theorem rd32_lt (b : List u8) (i : Nat) : rd32 b i < 4294967296 := by
  have h0 := byte_at_lt b i
  have h1 := byte_at_lt b (i + 1)
  have h2 := byte_at_lt b (i + 2)
  have h3 := byte_at_lt b (i + 3)
  unfold rd32
  omega

/-- The copy loop on a stream that ends before the payload does leaves by `return -1`. -/
theorem simg_raw_loop_short : ∀ (fuel len : Nat) (s : simg_io),
    s.inp.length < len → len ≤ fuel → (simg_raw_loop fuel len s).1 = false := by
  intro fuel
  induction fuel with
  | zero => intro len s h1 h2; omega
  | succ fuel ih =>
    intro len s h1 h2
    unfold simg_raw_loop
    have hz : ¬ (len = 0) := by omega
    simp only [hz, if_false]
    generalize hc : (if len > SIMG_COPY_BUF_SIZE then SIMG_COPY_BUF_SIZE else len) = chunk
    have hc1 : chunk ≤ len := by
      rw [← hc]; split <;> omega
    have hc2 : 0 < chunk := by
      rw [← hc]; split
      · unfold SIMG_COPY_BUF_SIZE; norm_num
      · omega
    by_cases hsh : (s.inp.take chunk).length < chunk
    · simp only [hsh, if_true]
    · simp only [hsh, if_false, out_fwrite, ne_eq, not_true_eq_false]
      apply ih
      · rw [List.length_take] at hsh
        simp only [List.length_drop]
        omega
      · omega

/-- The chunk loop leaves a state that already carries an error as it is. -/
theorem simg_chunk_loop_failed (hdr : sparse_header_t) (n index : Nat) (s : simg_state)
    (h : s.result ≠ 0) : simg_chunk_loop hdr n index s = some s := by
  cases n with
  | zero => rfl
  | succ n => simp [simg_chunk_loop, h]

/-- One turn of the chunk loop when the next chunk header can be read. -/
theorem simg_chunk_loop_step (hdr : sparse_header_t) (n index : Nat) (s : simg_state)
    (hres : s.result = 0) (hlen : 12 ≤ s.io.inp.length) :
    simg_chunk_loop hdr (n + 1) index s
      = match simg_process_chunk hdr (chunk_header_of_bytes (s.io.inp.take 12)) index
          { s with io := { s.io with inp := s.io.inp.drop (max 12 hdr.chunk_hdr_sz) } } with
        | none => none
        | some s3 => simg_chunk_loop hdr n (index + 1) s3 := by
  have hl : (s.io.inp.take 12).length = 12 := by
    rw [List.length_take]; omega
  conv_lhs => unfold simg_chunk_loop
  simp only [hres, ne_eq, not_true_eq_false, if_false, SIMG_CHUNK_HEADER_LEN, hl, if_true]
  by_cases hbig : hdr.chunk_hdr_sz > 12
  · have e : max 12 hdr.chunk_hdr_sz = 12 + (hdr.chunk_hdr_sz - 12) := by omega
    simp only [hbig, if_true, List.drop_drop, e]
  · have e : max 12 hdr.chunk_hdr_sz = 12 := by omega
    simp only [hbig, if_false, e]

/-- One turn of the chunk loop when the stream ends inside the next chunk header. -/
theorem simg_chunk_loop_no_header (hdr : sparse_header_t) (n index : Nat) (s : simg_state)
    (hres : s.result = 0) (hlen : s.io.inp.length < 12) :
    ∃ s', simg_chunk_loop hdr (n + 1) index s = some s' ∧ s'.result = -1 := by
  have hl : ¬ ((s.io.inp.take 12).length = 12) := by
    rw [List.length_take]; omega
  conv => enter [1, s', 1, 1]; unfold simg_chunk_loop
  simp only [hres, ne_eq, not_true_eq_false, if_false, SIMG_CHUNK_HEADER_LEN, hl]
  exact ⟨_, rfl, rfl⟩

/-- What the `switch` on the chunk type leaves: an error, or the same result and
messages with the input stream moved past the payload of a `Raw` chunk. -/
theorem simg_process_chunk_cases (hdr : sparse_header_t) (ch : chunk_header_t) (index : Nat)
    (s : simg_state) (hbs : hdr.blk_sz < 4294967296) (hcs : ch.chunk_sz < 4294967296) :
    ∃ s3, simg_process_chunk hdr ch index s = some s3
      ∧ (s3.result = -1
        ∨ (s3.result = s.result ∧ s3.msgs = s.msgs
          ∧ ((ch.chunk_type = CHUNK_TYPE_RAW
              ∧ ch.chunk_sz * hdr.blk_sz ≤ s.io.inp.length
              ∧ s3.io.inp = s.io.inp.drop (ch.chunk_sz * hdr.blk_sz))
            ∨ (ch.chunk_type ≠ CHUNK_TYPE_RAW ∧ s3.io.inp = s.io.inp)))) := by
  unfold simg_process_chunk
  by_cases hty : ch.chunk_type = CHUNK_TYPE_RAW
  · simp only [hty, if_true]
    by_cases hok : simg_raw_size_ok hdr ch = true
    · simp only [hok, not_true_eq_false, if_false]
      by_cases hpl : s.io.inp.length < ch.chunk_sz * hdr.blk_sz
      · have hsh := simg_raw_loop_short (ch.chunk_sz * hdr.blk_sz)
          (ch.chunk_sz * hdr.blk_sz) s.io hpl (le_refl _)
        have hr1 : (simg_process_raw_chunk s.io ch.chunk_sz hdr.blk_sz).1 = -1 := by
          simp only [simg_process_raw_chunk, hsh]
          rfl
        have hn : ¬ ((simg_process_raw_chunk s.io ch.chunk_sz hdr.blk_sz).1 ≥ 0) := by
          rw [hr1]; decide
        simp only [hn, if_false]
        exact ⟨_, rfl, Or.inl rfl⟩
      · have hsplit : s.io.inp = s.io.inp.take (ch.chunk_sz * hdr.blk_sz)
            ++ s.io.inp.drop (ch.chunk_sz * hdr.blk_sz) := (List.take_append_drop _ _).symm
        have hr := simg_process_raw_chunk_ok s.io
          (s.io.inp.take (ch.chunk_sz * hdr.blk_sz)) (s.io.inp.drop (ch.chunk_sz * hdr.blk_sz))
          ch.chunk_sz hdr.blk_sz hsplit (by rw [List.length_take]; omega)
        rw [hr]
        by_cases hneg : to_int32 ch.chunk_sz ≥ 0
        · simp only [hneg, if_true]
          exact ⟨_, rfl, Or.inr ⟨rfl, rfl, Or.inl ⟨trivial, by omega, rfl⟩⟩⟩
        · simp only [hneg, if_false]
          exact ⟨_, rfl, Or.inl rfl⟩
    · simp only [hok, not_false_eq_true, if_true]
      exact ⟨_, rfl, Or.inl rfl⟩
  · simp only [hty, if_false]
    by_cases hdc : ch.chunk_type = CHUNK_TYPE_DONT_CARE
    · simp only [hdc, if_true]
      by_cases hts : ch.total_sz ≠ hdr.chunk_hdr_sz
      · rw [if_pos hts]
        exact ⟨_, rfl, Or.inl rfl⟩
      · rw [if_neg hts]
        obtain ⟨r, hr, _, hinp⟩ := simg_process_skip_chunk_returns s.io ch.chunk_sz hdr.blk_sz
          hcs hbs
        rw [hr]
        exact ⟨_, rfl, Or.inr ⟨rfl, rfl, Or.inr ⟨by decide, hinp⟩⟩⟩
    · simp only [hdc, if_false]
      exact ⟨_, rfl, Or.inl rfl⟩

/-- The chunk loop on a stream that does not hold all the declared chunk records ends
with an error. -/
theorem simg_chunk_loop_truncated (hdr : sparse_header_t) (hbs : hdr.blk_sz < 4294967296) :
    ∀ (n index : Nat) (s : simg_state), s.result = 0 →
      simg_records_complete hdr n s.io.inp = false →
      ∃ s', simg_chunk_loop hdr n index s = some s' ∧ s'.result ≠ 0 := by
  intro n
  induction n with
  | zero => intro index s _ hc; simp [simg_records_complete] at hc
  | succ n ih =>
    intro index s hres hc
    unfold simg_records_complete at hc
    by_cases hlen : s.io.inp.length < 12
    · obtain ⟨s', h1, h2⟩ := simg_chunk_loop_no_header hdr n index s hres hlen
      exact ⟨s', h1, by rw [h2]; decide⟩
    · simp only [hlen, if_false] at hc
      rw [simg_chunk_loop_step hdr n index s hres (by omega)]
      obtain ⟨s3, h3, hcase⟩ := simg_process_chunk_cases hdr
        (chunk_header_of_bytes (s.io.inp.take 12)) index
        { s with io := { s.io with inp := s.io.inp.drop (max 12 hdr.chunk_hdr_sz) } }
        hbs (rd32_lt _ _)
      rw [h3]
      rcases hcase with hbad | ⟨hr3, _, hraw | hother⟩
      · have hne : s3.result ≠ 0 := by rw [hbad]; decide
        exact ⟨s3, simg_chunk_loop_failed hdr n _ s3 hne, hne⟩
      · obtain ⟨hty, hle, hin⟩ := hraw
        have hnl : ¬ ((s.io.inp.drop (max 12 hdr.chunk_hdr_sz)).length
            < (chunk_header_of_bytes (s.io.inp.take 12)).chunk_sz * hdr.blk_sz) := by
          simp only at hle; omega
        simp only [hty, if_true, hnl, if_false] at hc
        exact ih _ s3 (by rw [hr3]; exact hres) (by rw [hin]; exact hc)
      · obtain ⟨hty, hin⟩ := hother
        simp only [hty, if_false] at hc
        exact ih _ s3 (by rw [hr3]; exact hres) (by rw [hin]; exact hc)

/-- The restore of an image whose header is accepted, when the device cannot be opened. -/
theorem restore_ext4_sparse_ui_no_device (file : List u8) (errno : Int)
    (h0 : (simg_validate_and_skip_image_header file).result = 0) :
    restore_ext4_sparse_ui { imgfile := some file, device := none, errno := errno }
      = some { result := errno, out := none, crc32 := 0, total_blocks := 0,
               msgs := [simg_msg.cannot_open_output] } := by
  unfold restore_ext4_sparse_ui
  simp only [h0, ne_eq, not_true_eq_false, if_false]

/-- C10: when the stream behind an image header does not hold all the chunk records
that the header declares (each the chunk header and, for a `Raw` chunk, the full
payload), `restore_ext4_sparse_ui` returns, and its result is not zero. -/
theorem restore_truncated_image_fails (file : List u8) (device : Option (List u8))
    (errno : Int) (herr : errno ≠ 0)
    (htr : simg_records_complete (sparse_header_of_bytes file)
        (sparse_header_of_bytes file).total_chunks
        (file.drop (max 28 (sparse_header_of_bytes file).file_hdr_sz)) = false) :
    ∃ r, restore_ext4_sparse_ui { imgfile := some file, device := device, errno := errno }
        = some r ∧ r.result ≠ 0 := by
  obtain ⟨hh, _, hiff, hpos⟩ := simg_validate_cases file
  by_cases h0 : (simg_validate_and_skip_image_header file).result = 0
  · obtain ⟨hm, hp⟩ := hpos h0
    cases device with
    | none => exact ⟨_, restore_ext4_sparse_ui_no_device file errno h0, herr⟩
    | some dev =>
      have hv : simg_validate_and_skip_image_header file
          = { result := 0, sparse_header := sparse_header_of_bytes file,
              pos := max 28 (sparse_header_of_bytes file).file_hdr_sz, msgs := [] } := by
        rcases hvv : simg_validate_and_skip_image_header file with ⟨r, h, p, m⟩
        rw [hvv] at hh h0 hm hp
        simp only at hh h0 hm hp
        rw [hh, h0, hm, hp]
      obtain ⟨s', hs', hne⟩ := simg_chunk_loop_truncated (sparse_header_of_bytes file)
        (rd32_lt _ _) (sparse_header_of_bytes file).total_chunks 0
        (simg_start (file.drop (max 28 (sparse_header_of_bytes file).file_hdr_sz)) dev)
        rfl htr
      refine ⟨simg_finish (sparse_header_of_bytes file) s', ?_, hne⟩
      rw [restore_ext4_sparse_ui_accepted file dev errno _ _ hv, hs']
      rfl
  · refine ⟨{ result := (simg_validate_and_skip_image_header file).result, out := none,
              crc32 := 0, total_blocks := 0,
              msgs := (simg_validate_and_skip_image_header file).msgs }, ?_, h0⟩
    unfold restore_ext4_sparse_ui
    simp only [h0, ne_eq, not_false_eq_true, if_true]

set_option maxRecDepth 100000 in
theorem restore_truncated_image_fails_witness :
    (∃ r, restore_ext4_sparse_ui
        { imgfile := some truncated_image, device := some [9, 9, 9, 9, 9, 9, 9, 9, 9, 9, 9, 9],
          errno := 5 } = some r ∧ r.result ≠ 0)
    ∧ (sparse_header_of_bytes truncated_image).total_chunks = 5
    ∧ simg_records_complete (sparse_header_of_bytes truncated_image) 3
        (truncated_image.drop 28) = true
    ∧ restore_ext4_sparse_ui
        { imgfile := some truncated_image, device := some [9, 9, 9, 9, 9, 9, 9, 9, 9, 9, 9, 9],
          errno := 5 }
      = some { result := -1,
               out := some { data := [1, 2, 3, 4, 9, 9, 9, 9, 9, 9, 9, 9, 5, 6, 7, 8], pos := 16 },
               crc32 := sparse_crc32 0 [1, 2, 3, 4, 0, 0, 0, 0, 0, 0, 0, 0, 5, 6, 7, 8],
               total_blocks := 4,
               msgs := [simg_msg.error_reading_chunk 3] } :=
  ⟨restore_truncated_image_fails truncated_image (some [9, 9, 9, 9, 9, 9, 9, 9, 9, 9, 9, 9]) 5
      (by decide) (by decide),
   by decide, by decide, by decide⟩

/-! ## The checksum and chunk count of the encoder -/

theorem write_chunk_raw_ok_cases (info : fs_info) (out : output_file) (off : Nat)
    (data : List u8) (h0 : 0 < info.block_size)
    (hlen : data.length + info.block_size ≤ 2147483648) (hend : out.fpos = out.file.length)
    (hw : (write_chunk_raw info out off data).2.warns = []) :
    (off = out.cur_out_ptr ∧ (write_chunk_raw info out off data).2 = after_raw info out data)
    ∨ (out.cur_out_ptr < off
      ∧ (write_chunk_raw info out off data).2
        = after_raw info (after_skip info out (off - out.cur_out_ptr)) data) := by
  by_cases hlt : off < out.cur_out_ptr
  · simp [write_chunk_raw, hlt] at hw
  · by_cases hal : off % info.block_size = 0
    · by_cases hgt : off > out.cur_out_ptr
      · by_cases hgap : (off - out.cur_out_ptr) % info.block_size = 0
        · exact Or.inr ⟨hgt, by
            rw [write_chunk_raw_gap_eq info out off data h0 hal hgt hgap hlen hend]⟩
        · have hne : off ≠ out.cur_out_ptr := by omega
          simp [write_chunk_raw, hlt, hgt, hal, emit_skip_chunk_unaligned info out _ hgap, hne]
            at hw
      · have he : off = out.cur_out_ptr := by omega
        subst he
        exact Or.inl ⟨rfl, by
          rw [write_chunk_raw_cursor_eq info out data h0 hal hlen hend]⟩
    · simp [write_chunk_raw, hlt, hal] at hw

theorem zero_extend_length (img : List u8) (n : Nat) (h : img.length ≤ n) :
    (zero_extend img n).length = n := by
  simp only [zero_extend, List.length_append, List.length_replicate]; omega

theorem zero_extend_add (img : List u8) (n k : Nat) (h : img.length ≤ n) :
    zero_extend img (n + k) = zero_extend img n ++ List.replicate k 0 := by
  have e : n + k - img.length = (n - img.length) + k := by omega
  simp only [zero_extend, e, List.replicate_add, List.append_assoc]

/-- The logical image after a payload is placed at or beyond its end. -/
theorem file_write_at_beyond (img data : List u8) (off : Nat) (h : img.length ≤ off)
    (hd : data ≠ []) : file_write_at img off data = zero_extend img off ++ data := by
  have hl : data.length ≠ 0 := by
    intro hc; exact hd (List.length_eq_zero.mp hc)
  simp only [file_write_at, hl, if_false, zero_extend]
  rw [List.take_of_length_le h, List.drop_eq_nil_of_le (by omega), List.append_nil]

theorem encoder_inv_open (info : fs_info) (gz : Bool) :
    encoder_inv info (open_output_file info gz true) [] 0 := by
  rw [open_output_file_sparse]
  refine ⟨rfl, rfl, rfl, by simp, ?_, by simp, [], by simp, by simp, rfl⟩
  simp [zero_extend, sparse_crc32_nil]

theorem encoder_inv_skip (info : fs_info) (out : output_file) (img : List u8)
    (bound n : Nat) (h : encoder_inv info out img bound) :
    encoder_inv info (after_skip info out n) img (bound + 1) := by
  obtain ⟨hs, hend, hwn, hil, hcrc, hb, chunks, hfile, hwf, hcnt⟩ := h
  unfold encoder_inv
  refine ⟨?_, ?_, ?_, ?_, ?_, ?_,
    chunks ++ [(skip_chunk_header info n, ([] : List u8))], ?_, ?_, ?_⟩
  · rw [after_skip]; exact hs
  · simp [after_skip, hend, chunk_header_bytes_length]
  · rw [after_skip]; exact hwn
  · simp only [after_skip]; omega
  · simp only [after_skip]
    rw [hcrc, sparse_crc32_append, zero_extend_add img _ n hil]
  · simp only [after_skip]; omega
  · simp only [after_skip, hfile, List.map_append, List.flatten_append, List.map_cons,
      List.map_nil, List.flatten_cons, List.flatten_nil, chunk_record, skip_chunk_header,
      List.append_nil, List.append_assoc]
  · intro c hc
    rw [List.mem_append] at hc
    rcases hc with hc | hc
    · exact hwf c hc
    · simp only [List.mem_singleton] at hc
      subst hc
      rfl
  · simp only [after_skip, hcnt, List.length_append, List.length_singleton]

theorem encoder_inv_raw (info : fs_info) (out : output_file) (img data : List u8)
    (bound : Nat) (h0 : 0 < info.block_size)
    (hlen : data.length + info.block_size ≤ 2147483648)
    (h : encoder_inv info out img bound) :
    encoder_inv info (after_raw info out data) (file_write_at img out.cur_out_ptr data)
      (bound + 1) := by
  obtain ⟨hs, hend, hwn, hil, hcrc, hb, chunks, hfile, hwf, hcnt⟩ := h
  have hr := rnd_up_bounds info data.length h0 (by omega)
  have himg : zero_extend (file_write_at img out.cur_out_ptr data)
        (out.cur_out_ptr + rnd_up info data.length)
      = zero_extend img out.cur_out_ptr
        ++ (data ++ List.replicate (rnd_up info data.length - data.length) 0)
      ∧ (file_write_at img out.cur_out_ptr data).length
        ≤ out.cur_out_ptr + rnd_up info data.length := by
    generalize rnd_up info data.length = R at hr ⊢
    by_cases hd : data = []
    · subst hd
      rw [file_write_at_nil]
      refine ⟨?_, Nat.le_trans hil (Nat.le_add_right _ _)⟩
      rw [zero_extend_add img _ _ hil, List.nil_append, List.length_nil, Nat.sub_zero]
    · rw [file_write_at_beyond img data _ hil hd]
      have hl : (zero_extend img out.cur_out_ptr ++ data).length
          = out.cur_out_ptr + data.length := by
        rw [List.length_append, zero_extend_length img _ hil]
      refine ⟨?_, by rw [hl]; omega⟩
      have e : out.cur_out_ptr + R - (zero_extend img out.cur_out_ptr ++ data).length
          = R - data.length := by
        rw [hl]; omega
      rw [zero_extend, e, List.append_assoc]
  unfold encoder_inv
  refine ⟨?_, ?_, ?_, ?_, ?_, ?_,
    chunks ++ [(raw_chunk_header info data.length, padded info data)], ?_, ?_, ?_⟩
  · rw [after_raw]; exact hs
  · simp only [after_raw, hend, List.length_append, chunk_header_bytes_length,
      List.length_replicate]
    omega
  · rw [after_raw]; exact hwn
  · simp only [after_raw]; exact himg.2
  · simp only [after_raw]
    rw [hcrc, sparse_crc32_append, himg.1]
  · simp only [after_raw]; omega
  · simp only [after_raw, hfile, List.map_append, List.flatten_append, List.map_cons,
      List.map_nil, List.flatten_cons, List.flatten_nil, chunk_record, raw_chunk_header,
      padded, List.append_nil, List.append_assoc]
  · intro c hc
    rw [List.mem_append] at hc
    rcases hc with hc | hc
    · exact hwf c hc
    · simp only [List.mem_singleton] at hc
      subst hc
      simp only [raw_chunk_header, padded, u32_wrap, CHUNK_HEADER_LEN, List.length_append,
        List.length_replicate]
      omega
  · simp only [after_raw, hcnt, List.length_append, List.length_singleton]

theorem encoder_inv_mono (info : fs_info) (out : output_file) (img : List u8)
    (b b' : Nat) (hb : b ≤ b') (h : encoder_inv info out img b) :
    encoder_inv info out img b' := by
  obtain ⟨hs, hend, hwn, hil, hcrc, hbd, hch⟩ := h
  exact ⟨hs, hend, hwn, hil, hcrc, by omega, hch⟩

/-- One call that prints no warning keeps the invariant of the encoder. -/
theorem encoder_inv_apply_op (info : fs_info) (out : output_file) (img : List u8)
    (b : Nat) (op : out_op) (h0 : 0 < info.block_size)
    (hlen : ∀ off data, op = out_op.write off data →
      data.length + info.block_size ≤ 2147483648)
    (h : encoder_inv info out img b) (hw : (apply_op info out op).warns = []) :
    encoder_inv info (apply_op info out op) (image_step img op) (b + 2) := by
  have hs := h.1
  have hend := h.2.1
  have hwn := h.2.2.1
  have hil := h.2.2.2.1
  cases op with
  | write off data =>
    have hl := hlen off data rfl
    simp only [apply_op, image_step] at hw ⊢
    by_cases hpast : off + data.length > info.len
    · simp [write_data_block, hpast, hwn] at hw
    · simp only [write_data_block, hpast, if_false, hs, if_true] at hw ⊢
      rcases write_chunk_raw_ok_cases info out off data h0 (by omega) hend hw with
        ⟨he, hr⟩ | ⟨hgt, hr⟩
      · rw [hr, he]
        exact encoder_inv_mono info _ _ _ _ (by omega) (encoder_inv_raw info out img data b h0 hl h)
      · rw [hr]
        have hsk := encoder_inv_skip info out img b (off - out.cur_out_ptr) h
        have hraw := encoder_inv_raw info _ img data (b + 1) h0 hl hsk
        have hc : (after_skip info out (off - out.cur_out_ptr)).cur_out_ptr = off := by
          simp only [after_skip]; omega
        rw [hc] at hraw
        exact hraw
  | pad len =>
    simp only [apply_op, image_step] at hw ⊢
    by_cases hpast : len > info.len
    · simp [pad_output_file, hpast, hwn] at hw
    · by_cases hlt : len < out.cur_out_ptr
      · simp [pad_output_file, hpast, hs, hlt, hwn] at hw
      · by_cases hgt : len > out.cur_out_ptr
        · by_cases hgap : (len - out.cur_out_ptr) % info.block_size = 0
          · simp only [pad_output_file, hpast, if_false, hs, if_true, hlt, hgt,
              emit_skip_chunk_eq info out _ h0 hgap hend]
            exact encoder_inv_mono info _ _ _ _ (by omega)
              (encoder_inv_skip info out img b _ h)
          · simp [pad_output_file, hpast, hs, hlt, hgt,
              emit_skip_chunk_unaligned info out _ hgap, hwn] at hw
        · simp only [pad_output_file, hpast, if_false, hs, if_true, hlt, hgt]
          exact encoder_inv_mono info _ _ _ _ (by omega) h

theorem ops_write_fst (out : output_file) (d : List u8) : (ops_write out d).1 = 0 := rfl

theorem ops_write_warns (out : output_file) (d : List u8) :
    (ops_write out d).2.warns = out.warns := rfl

theorem emit_skip_chunk_warns (info : fs_info) (out : output_file) (skip_len : Nat) :
    ∃ w, (emit_skip_chunk info out skip_len).2.warns = out.warns ++ w := by
  unfold emit_skip_chunk
  by_cases hal : skip_len % info.block_size ≠ 0
  · rw [if_pos hal]
    exact ⟨[_], rfl⟩
  · rw [if_neg hal]
    exact ⟨[], by simp [ops_write]⟩

/-- The writes at the end of `write_chunk_raw` print no warning; `R` stands for the
rounded length. -/
theorem write_chunk_raw_tail_warns (info : fs_info) (out1 : output_file) (data : List u8)
    (R : Nat) (hdr : chunk_header_t) :
    (let w1 := ops_write out1 (chunk_header_bytes hdr)
      if w1.1 < 0 then ((-1 : Int), w1.2)
      else
        let w2 := ops_write w1.2 data
        if w2.1 < 0 then (-1, w2.2)
        else
          let w3 := if R - data.length ≠ 0
                    then ops_write w2.2 ((zero_buf info).take (R - data.length))
                    else (0, w2.2)
          if w3.1 < 0 then (-1, w3.2)
          else
            let crc1 := sparse_crc32 w3.2.crc32 data
            let crc2 := if R - data.length ≠ 0
                        then sparse_crc32 crc1 ((zero_buf info).take (R - data.length))
                        else crc1
            (0, { w3.2 with crc32 := crc2, cur_out_ptr := w3.2.cur_out_ptr + R,
                            chunk_cnt := w3.2.chunk_cnt + 1 })).2.warns = out1.warns := by
  by_cases hz : R - data.length ≠ 0
  · simp only [ops_write_fst, lt_self_iff_false, if_false, hz, if_true, ops_write_warns,
      ne_eq, not_false_eq_true]
  · simp only [ops_write_fst, lt_self_iff_false, if_false, hz, ops_write_warns]

theorem write_chunk_raw_warns (info : fs_info) (out : output_file) (off : Nat)
    (data : List u8) :
    ∃ w, (write_chunk_raw info out off data).2.warns = out.warns ++ w := by
  unfold write_chunk_raw
  by_cases hlt : off < out.cur_out_ptr
  · rw [if_pos hlt]
    exact ⟨[_], rfl⟩
  · rw [if_neg hlt]
    have hx : ∃ w, (if off > out.cur_out_ptr
        then (emit_skip_chunk info out (off - out.cur_out_ptr)).2 else out).warns
        = out.warns ++ w := by
      split
      · exact emit_skip_chunk_warns info out _
      · exact ⟨[], by simp⟩
    generalize (if off > out.cur_out_ptr
        then (emit_skip_chunk info out (off - out.cur_out_ptr)).2 else out) = out1 at hx ⊢
    obtain ⟨w1, hw1⟩ := hx
    by_cases hal : off % info.block_size ≠ 0
    · rw [if_pos hal]
      exact ⟨w1 ++ [ext4_warn.offset_not_multiple], by simp only [hw1, List.append_assoc]⟩
    · rw [if_neg hal]
      by_cases hne : off ≠ out1.cur_out_ptr
      · rw [if_pos hne]
        exact ⟨w1 ++ [ext4_warn.offset_accounting], by simp only [hw1, List.append_assoc]⟩
      · rw [if_neg hne]
        refine ⟨w1, ?_⟩
        rw [← hw1]
        exact write_chunk_raw_tail_warns info out1 data (rnd_up info data.length) _

theorem pad_plain_warns (out : output_file) (len : Nat) :
    (let s := if len = 0 ∨ len > 9223372036854775808 then ((-1 : Int), out)
              else ops_seek out (len - 1)
     if s.1 < 0 then s.2 else (ops_write s.2 [0]).2).warns = out.warns := by
  by_cases ho : len = 0 ∨ len > 9223372036854775808
  · simp only [if_pos ho]
    rfl
  · simp only [if_neg ho]
    rfl

/-- The warnings of an output file are only ever added to. -/
theorem apply_op_warns (info : fs_info) (out : output_file) (op : out_op) :
    ∃ w, (apply_op info out op).warns = out.warns ++ w := by
  cases op with
  | write off data =>
    simp only [apply_op, write_data_block]
    by_cases hpast : off + data.length > info.len
    · rw [if_pos hpast]
      exact ⟨[_], rfl⟩
    · rw [if_neg hpast]
      by_cases hs : out.sparse = true
      · rw [if_pos hs]
        exact write_chunk_raw_warns info out off data
      · rw [if_neg hs]
        exact ⟨[], by simp [ops_seek, ops_write]⟩
  | pad len =>
    simp only [apply_op, pad_output_file]
    by_cases hpast : len > info.len
    · rw [if_pos hpast]
      exact ⟨[_], rfl⟩
    · rw [if_neg hpast]
      by_cases hs : out.sparse = true
      · rw [if_pos hs]
        by_cases hlt : len < out.cur_out_ptr
        · rw [if_pos hlt]
          exact ⟨[_], rfl⟩
        · rw [if_neg hlt]
          split
          · exact emit_skip_chunk_warns info out _
          · exact ⟨[], by simp⟩
      · rw [if_neg hs]
        exact ⟨[], by rw [List.append_nil]; exact pad_plain_warns out len⟩

theorem run_ops_warns (info : fs_info) (ops : List out_op) :
    ∀ out : output_file, ∃ w, (run_ops info out ops).warns = out.warns ++ w := by
  induction ops with
  | nil => intro out; exact ⟨[], by simp [run_ops]⟩
  | cons op ops ih =>
    intro out
    obtain ⟨w1, h1⟩ := apply_op_warns info out op
    obtain ⟨w2, h2⟩ := ih (apply_op info out op)
    refine ⟨w1 ++ w2, ?_⟩
    simp only [run_ops, List.foldl_cons] at h2 ⊢
    rw [h2, h1, List.append_assoc]

/-- A sequence of calls that print no warning keeps the invariant of the encoder. -/
theorem encoder_inv_run_ops (info : fs_info) (h0 : 0 < info.block_size)
    (ops : List out_op) :
    ∀ (out : output_file) (img : List u8) (b : Nat),
      (∀ off data, out_op.write off data ∈ ops →
        data.length + info.block_size ≤ 2147483648) →
      encoder_inv info out img b → (run_ops info out ops).warns = [] →
      encoder_inv info (run_ops info out ops) (ops.foldl image_step img)
        (b + 2 * ops.length) := by
  induction ops with
  | nil => intro out img b _ h _; exact h
  | cons op ops ih =>
    intro out img b hlen h hw
    have hw1 : (apply_op info out op).warns = [] := by
      obtain ⟨w, hwx⟩ := run_ops_warns info ops (apply_op info out op)
      simp only [run_ops, List.foldl_cons] at hw hwx
      rw [hw] at hwx
      exact (List.append_eq_nil.mp hwx.symm).1
    have h1 := encoder_inv_apply_op info out img b op h0
      (fun off data he => hlen off data (by rw [he]; exact List.mem_cons_self _ _)) h hw1
    have h2 := ih (apply_op info out op) (image_step img op) (b + 2)
      (fun off data hm => hlen off data (List.mem_cons_of_mem _ hm)) h1
      (by simpa only [run_ops, List.foldl_cons] using hw)
    simp only [run_ops, List.foldl_cons, List.length_cons] at h2 ⊢
    exact encoder_inv_mono info _ _ _ _ (by omega) h2

theorem sparse_header_of_bytes_total_chunks (h : sparse_header_t) (rest : List u8) :
    (sparse_header_of_bytes (sparse_header_bytes h ++ rest)).total_chunks
      = h.total_chunks % 4294967296 := by
  simp [sparse_header_of_bytes, sparse_header_bytes, rd32, le16, le32, byte_at, Fin.ofNat]
  omega

/-- What `close_output_file` does to a sparse output: the first 28 bytes of the file are
replaced by the header with the chunk count and the checksum filled in. -/
theorem close_output_file_sparse (out : output_file) (hs : out.sparse = true) :
    (close_output_file out).file
        = sparse_header_bytes
            { out.sparse_header with total_chunks := u32_wrap out.chunk_cnt,
                                     image_checksum := out.crc32 }
          ++ out.file.drop 28
    ∧ (close_output_file out).sparse_header
        = { out.sparse_header with total_chunks := u32_wrap out.chunk_cnt,
                                   image_checksum := out.crc32 } := by
  cases hg : out.gz_fd <;>
    simp [close_output_file, hg, hs, ops_seek, ops_write, file_write_at_zero,
      sparse_header_bytes_length]

/-- C6: after every sequence of `write_data_block` and `pad_output_file` calls on a
freshly opened sparse output that printed no warning (block size not 0, every payload
with `len + B` within `int` range, fewer than 2^31 calls), the running `crc32` is the
CRC-32 of the logical image of length `cur_out_ptr` (every payload at its offset, zero
bytes in the block padding and in the skipped regions), the file is the header followed
by exactly `chunk_cnt` chunk records, and `close_output_file` stores these two values in
the header fields `image_checksum` and `total_chunks`, in memory and in the first 28
bytes of the file. -/
theorem encoder_checksum_and_chunk_count (info : fs_info) (gz : Bool) (ops : List out_op)
    (h0 : 0 < info.block_size)
    (hlen : ∀ off data, out_op.write off data ∈ ops →
      data.length + info.block_size ≤ 2147483648)
    (hops : 2 * ops.length < 4294967296)
    (hok : (run_ops info (open_output_file info gz true) ops).warns = []) :
    (logical_image ops).length ≤ (run_ops info (open_output_file info gz true) ops).cur_out_ptr
    ∧ (run_ops info (open_output_file info gz true) ops).crc32
      = sparse_crc32 0 (zero_extend (logical_image ops)
          (run_ops info (open_output_file info gz true) ops).cur_out_ptr)
    ∧ (∃ chunks : List (chunk_header_t × List u8),
        (run_ops info (open_output_file info gz true) ops).file
          = sparse_header_bytes (closed_header info 0 0) ++ (chunks.map chunk_record).flatten
        ∧ (∀ c ∈ chunks, c.1.total_sz = 12 + c.2.length)
        ∧ (run_ops info (open_output_file info gz true) ops).chunk_cnt = chunks.length)
    ∧ (close_output_file (run_ops info (open_output_file info gz true) ops)).sparse_header.image_checksum
      = (run_ops info (open_output_file info gz true) ops).crc32
    ∧ (close_output_file (run_ops info (open_output_file info gz true) ops)).sparse_header.total_chunks
      = (run_ops info (open_output_file info gz true) ops).chunk_cnt
    ∧ (sparse_header_of_bytes
        (close_output_file (run_ops info (open_output_file info gz true) ops)).file).image_checksum
      = (run_ops info (open_output_file info gz true) ops).crc32
    ∧ (sparse_header_of_bytes
        (close_output_file (run_ops info (open_output_file info gz true) ops)).file).total_chunks
      = (run_ops info (open_output_file info gz true) ops).chunk_cnt := by
  have hinv := encoder_inv_run_ops info h0 ops (open_output_file info gz true) [] 0 hlen
    (encoder_inv_open info gz) hok
  have himg : ops.foldl image_step [] = logical_image ops := rfl
  rw [himg] at hinv
  generalize run_ops info (open_output_file info gz true) ops = out at hinv ⊢
  obtain ⟨hs, _, _, hil, hcrc, hb, hch⟩ := hinv
  obtain ⟨hfile, hhdr⟩ := close_output_file_sparse out hs
  have hc : out.crc32 < 4294967296 := by
    rw [hcrc]; exact sparse_crc32_lt 0 _ (by norm_num)
  have hn : out.chunk_cnt < 4294967296 := by omega
  refine ⟨hil, hcrc, hch, ?_, ?_, ?_, ?_⟩
  · rw [hhdr]
  · rw [hhdr]; exact Nat.mod_eq_of_lt hn
  · rw [hfile, sparse_header_of_bytes_checksum]; exact Nat.mod_eq_of_lt hc
  · rw [hfile, sparse_header_of_bytes_total_chunks]
    show out.chunk_cnt % 4294967296 % 4294967296 = out.chunk_cnt
    rw [Nat.mod_mod, Nat.mod_eq_of_lt hn]

/-- The calls used to exercise the invariant: three bytes at offset 0, five bytes at
offset 8 and padding up to 32, for blocks of 4 bytes. -/
theorem encoder_checksum_and_chunk_count_witness :
    (run_ops ⟨64, 4⟩ (open_output_file ⟨64, 4⟩ false true)
        [out_op.write 0 [1, 2, 3], out_op.write 8 [5, 6, 7, 8, 9], out_op.pad 32]).cur_out_ptr
      = 32
    ∧ (run_ops ⟨64, 4⟩ (open_output_file ⟨64, 4⟩ false true)
        [out_op.write 0 [1, 2, 3], out_op.write 8 [5, 6, 7, 8, 9], out_op.pad 32]).chunk_cnt
      = 4
    ∧ logical_image [out_op.write 0 [1, 2, 3], out_op.write 8 [5, 6, 7, 8, 9], out_op.pad 32]
      = [1, 2, 3, 0, 0, 0, 0, 0, 5, 6, 7, 8, 9]
    ∧ (run_ops ⟨64, 4⟩ (open_output_file ⟨64, 4⟩ false true)
        [out_op.write 0 [1, 2, 3], out_op.write 8 [5, 6, 7, 8, 9], out_op.pad 32]).crc32
      = sparse_crc32 0 (zero_extend
          (logical_image
            [out_op.write 0 [1, 2, 3], out_op.write 8 [5, 6, 7, 8, 9], out_op.pad 32])
          (run_ops ⟨64, 4⟩ (open_output_file ⟨64, 4⟩ false true)
            [out_op.write 0 [1, 2, 3], out_op.write 8 [5, 6, 7, 8, 9],
              out_op.pad 32]).cur_out_ptr)
    ∧ (sparse_header_of_bytes
        (close_output_file (run_ops ⟨64, 4⟩ (open_output_file ⟨64, 4⟩ false true)
          [out_op.write 0 [1, 2, 3], out_op.write 8 [5, 6, 7, 8, 9],
            out_op.pad 32])).file).total_chunks
      = (run_ops ⟨64, 4⟩ (open_output_file ⟨64, 4⟩ false true)
          [out_op.write 0 [1, 2, 3], out_op.write 8 [5, 6, 7, 8, 9], out_op.pad 32]).chunk_cnt :=
  have h := encoder_checksum_and_chunk_count ⟨64, 4⟩ false
    [out_op.write 0 [1, 2, 3], out_op.write 8 [5, 6, 7, 8, 9], out_op.pad 32]
    (by decide)
    (by
      intro off data hm
      simp only [List.mem_cons, out_op.write.injEq, List.mem_singleton, reduceCtorEq,
        or_false, List.not_mem_nil] at hm
      rcases hm with ⟨_, rfl⟩ | ⟨_, rfl⟩ <;> decide)
    (by decide) (by decide)
  ⟨by decide, by decide, by decide, h.2.1, h.2.2.2.2.2.2⟩

/-! ## The final checks of the sparse restore -/

theorem divine_method_cascade (src : List u8) (hne : src ≠ []) :
    cmd_restore_divine_method { source := some src, read_error := false }
      = if has_sparse_magic (divine_buffer src) then divined 0 cmd_backup_method.ext4_sparse
        else if has_mbr_signature (divine_buffer src) then divined 0 cmd_backup_method.dump
        else if has_ext4_magic (divine_buffer src) then divined 0 cmd_backup_method.ext4
        else if has_yaffs2_headers (divine_buffer src) then divined 0 cmd_backup_method.yaffs2
        else divined (-1) cmd_backup_method.dump := by
  have hl : 0 < (src.take 8192).length := by
    rw [List.length_take]
    have : 0 < src.length := List.length_pos.mpr hne
    omega
  have hcb : ((((src.take 8192).length : Nat) : Int) > 0) := by exact_mod_cast hl
  unfold cmd_restore_divine_method
  simp only [Bool.false_eq_true, if_false, hcb, if_true]
  generalize divine_buffer src = buf
  simp only [ has_sparse_magic, has_mbr_signature,
    has_ext4_magic, has_yaffs2_headers, MBR_SIG_OFFSET, S_MAGIC_OFFSET, OH_PARENT_OFFSET,
    OH_NAME_OFFSET, YAFFS2_CHUNK_SIZE, YAFFS2_SPARE_SIZE, YAFFS_OBJECT_TYPE_DIRECTORY, divined,
    decide_eq_true_eq, Nat.reduceAdd]
  by_cases h1 : rd32 buf 0 = SPARSE_HEADER_MAGIC
  · simp [h1]
  · by_cases h2 : rd16 buf 510 = PC_BIOS_BOOT_SIG
    · simp [h1, h2]
    · by_cases h3 : rd16 buf 1080 = EXT4_SUPER_MAGIC
      · simp [h1, h2, h3]
      · by_cases h4 : rd32 buf 0 = 3 ∧ rd32 buf 4 = 1 ∧ byte_at buf 10 = 0
        · have h31 : ¬ (3 = SPARSE_HEADER_MAGIC) := by decide
          by_cases h5 : rd32 buf 2116 = 1 ∧ byte_at buf 2122 ≠ 0
          · simp [h1, h2, h3, h4, h5, h31]
          · simp [h1, h2, h3, h4, h5, h31]
        · simp [h1, h2, h3, h4]

/-- Beyond the bytes read the buffer holds the zeros of `memset`. -/
theorem byte_at_divine_buffer_ge (src : List u8) (i : Nat) (h : src.length ≤ i) :
    byte_at (divine_buffer src) i = 0 := by
  have hl : (src.take 8192).length ≤ i := by
    rw [List.length_take]; omega
  unfold byte_at divine_buffer
  rw [List.getD_eq_getElem?_getD, List.getElem?_append_right hl, List.getElem?_replicate]
  split <;> rfl

theorem not_has_sparse_magic_short (src : List u8) (h : src.length < 4) :
    has_sparse_magic (divine_buffer src) = false := by
  have h3 := byte_at_divine_buffer_ge src 3 (by omega)
  have b0 := byte_at_lt (divine_buffer src) 0
  have b1 := byte_at_lt (divine_buffer src) 1
  have b2 := byte_at_lt (divine_buffer src) 2
  simp only [has_sparse_magic, rd32, SPARSE_HEADER_MAGIC, decide_eq_false_iff_not]
  simp only [Nat.zero_add] at *
  omega

theorem not_has_mbr_signature_short (src : List u8) (h : src.length < 512) :
    has_mbr_signature (divine_buffer src) = false := by
  have h3 := byte_at_divine_buffer_ge src 511 (by omega)
  have b0 := byte_at_lt (divine_buffer src) 510
  simp only [has_mbr_signature, rd16, PC_BIOS_BOOT_SIG, decide_eq_false_iff_not]
  simp only [Nat.reduceAdd] at *
  omega

theorem not_has_ext4_magic_short (src : List u8) (h : src.length < 1082) :
    has_ext4_magic (divine_buffer src) = false := by
  have h3 := byte_at_divine_buffer_ge src 1081 (by omega)
  have b0 := byte_at_lt (divine_buffer src) 1080
  simp only [has_ext4_magic, rd16, EXT4_SUPER_MAGIC, decide_eq_false_iff_not]
  simp only [Nat.reduceAdd] at *
  omega

theorem not_has_yaffs2_headers_short (src : List u8) (h : src.length < 2123) :
    has_yaffs2_headers (divine_buffer src) = false := by
  have h3 := byte_at_divine_buffer_ge src 2122 (by omega)
  simp only [has_yaffs2_headers, h3, ne_eq, not_true_eq_false, and_false, decide_False]

/-- The detector on every readable file: a method is reported only when its signature
is in the buffer, and without any signature the detector fails. -/
theorem divine_method_cases (src : List u8) :
    (((cmd_restore_divine_method { source := some src, read_error := false }).result = 0
        ∧ (cmd_restore_divine_method { source := some src, read_error := false }).method
          = cmd_backup_method.ext4_sparse) → has_sparse_magic (divine_buffer src) = true)
    ∧ (((cmd_restore_divine_method { source := some src, read_error := false }).result = 0
        ∧ (cmd_restore_divine_method { source := some src, read_error := false }).method
          = cmd_backup_method.dump) → has_mbr_signature (divine_buffer src) = true)
    ∧ (((cmd_restore_divine_method { source := some src, read_error := false }).result = 0
        ∧ (cmd_restore_divine_method { source := some src, read_error := false }).method
          = cmd_backup_method.ext4) → has_ext4_magic (divine_buffer src) = true)
    ∧ (((cmd_restore_divine_method { source := some src, read_error := false }).result = 0
        ∧ (cmd_restore_divine_method { source := some src, read_error := false }).method
          = cmd_backup_method.yaffs2) → has_yaffs2_headers (divine_buffer src) = true)
    ∧ (has_sparse_magic (divine_buffer src) = false →
        has_mbr_signature (divine_buffer src) = false →
        has_ext4_magic (divine_buffer src) = false →
        has_yaffs2_headers (divine_buffer src) = false →
        cmd_restore_divine_method { source := some src, read_error := false }
          = divined (-1) cmd_backup_method.dump) := by
  by_cases hne : src = []
  · subst hne
    have hr : cmd_restore_divine_method { source := some [], read_error := false }
        = divined (-1) cmd_backup_method.dump := by
      simp [cmd_restore_divine_method, divined]
    rw [hr]
    simp [divined]
  · rw [divine_method_cascade src hne]
    cases h1 : has_sparse_magic (divine_buffer src) <;>
    cases h2 : has_mbr_signature (divine_buffer src) <;>
    cases h3 : has_ext4_magic (divine_buffer src) <;>
    cases h4 : has_yaffs2_headers (divine_buffer src) <;>
    simp [divined]

/-- C12: on every non-empty leading buffer (the first 8192 bytes of the file, continued
with zeros) `cmd_restore_divine_method` returns the first match in the fixed order:
sparse magic at offset 0 gives `ext4_sparse`, the MBR boot signature gives `dump`, the
EXT4 magic in the superblock at offset 1024 gives `ext4`, the two-header heuristic
gives `yaffs2`, and otherwise the result is -1; in particular a buffer with the MBR
signature and the EXT4 magic and no sparse magic is classified as `dump`. -/
theorem divine_method_first_match (src : List u8) (hne : src ≠ []) :
    cmd_restore_divine_method { source := some src, read_error := false }
      = (if has_sparse_magic (divine_buffer src) then divined 0 cmd_backup_method.ext4_sparse
        else if has_mbr_signature (divine_buffer src) then divined 0 cmd_backup_method.dump
        else if has_ext4_magic (divine_buffer src) then divined 0 cmd_backup_method.ext4
        else if has_yaffs2_headers (divine_buffer src) then divined 0 cmd_backup_method.yaffs2
        else divined (-1) cmd_backup_method.dump)
    ∧ (has_sparse_magic (divine_buffer src) = false →
        has_mbr_signature (divine_buffer src) = true →
        has_ext4_magic (divine_buffer src) = true →
        cmd_restore_divine_method { source := some src, read_error := false }
          = divined 0 cmd_backup_method.dump) := by
  have h := divine_method_cascade src hne
  refine ⟨h, ?_⟩
  intro h1 h2 _
  rw [h, h1, h2]
  rfl

set_option maxRecDepth 100000 in
theorem divine_method_first_match_witness :
    has_ext4_magic (divine_buffer mbr_and_ext4_image) = true
    ∧ cmd_restore_divine_method { source := some mbr_and_ext4_image, read_error := false }
      = divined 0 cmd_backup_method.dump :=
  ⟨by decide,
   (divine_method_first_match mbr_and_ext4_image (by decide)).2
     (by decide) (by decide) (by decide)⟩

/-- C15: the detector reports no signature whose bytes lie beyond the bytes read.  For
a file that ends before byte 4 the sparse magic does not match, before byte 512 the MBR
signature does not match, before byte 1082 (the end of the magic in the superblock at
offset 1024) the EXT4 magic does not match, before byte 2123 (the parent id and the
first name byte of the second unit's header at offset 2112) the YAFFS2 heuristic does
not match, and the matching method is not reported; an empty file and a file of fewer
than 4 bytes yield -1. -/
theorem divine_method_short_file (src : List u8) :
    (src.length < 4 →
      has_sparse_magic (divine_buffer src) = false
      ∧ ¬ ((cmd_restore_divine_method { source := some src, read_error := false }).result = 0
        ∧ (cmd_restore_divine_method { source := some src, read_error := false }).method
          = cmd_backup_method.ext4_sparse))
    ∧ (src.length < 512 →
      has_mbr_signature (divine_buffer src) = false
      ∧ ¬ ((cmd_restore_divine_method { source := some src, read_error := false }).result = 0
        ∧ (cmd_restore_divine_method { source := some src, read_error := false }).method
          = cmd_backup_method.dump))
    ∧ (src.length < 1082 →
      has_ext4_magic (divine_buffer src) = false
      ∧ ¬ ((cmd_restore_divine_method { source := some src, read_error := false }).result = 0
        ∧ (cmd_restore_divine_method { source := some src, read_error := false }).method
          = cmd_backup_method.ext4))
    ∧ (src.length < 2123 →
      has_yaffs2_headers (divine_buffer src) = false
      ∧ ¬ ((cmd_restore_divine_method { source := some src, read_error := false }).result = 0
        ∧ (cmd_restore_divine_method { source := some src, read_error := false }).method
          = cmd_backup_method.yaffs2))
    ∧ (src.length < 4 →
      cmd_restore_divine_method { source := some src, read_error := false }
        = divined (-1) cmd_backup_method.dump) := by
  obtain ⟨c1, c2, c3, c4, c5⟩ := divine_method_cases src
  refine ⟨?_, ?_, ?_, ?_, ?_⟩
  · intro h
    have hn := not_has_sparse_magic_short src h
    exact ⟨hn, fun hc => by rw [c1 hc] at hn; cases hn⟩
  · intro h
    have hn := not_has_mbr_signature_short src h
    exact ⟨hn, fun hc => by rw [c2 hc] at hn; cases hn⟩
  · intro h
    have hn := not_has_ext4_magic_short src h
    exact ⟨hn, fun hc => by rw [c3 hc] at hn; cases hn⟩
  · intro h
    have hn := not_has_yaffs2_headers_short src h
    exact ⟨hn, fun hc => by rw [c4 hc] at hn; cases hn⟩
  · intro h
    exact c5 (not_has_sparse_magic_short src h) (not_has_mbr_signature_short src (by omega))
      (not_has_ext4_magic_short src (by omega)) (not_has_yaffs2_headers_short src (by omega))

set_option maxRecDepth 100000 in
theorem divine_method_short_file_witness :
    cmd_restore_divine_method { source := some [58, 255, 38], read_error := false }
      = divined (-1) cmd_backup_method.dump
    ∧ has_mbr_signature (divine_buffer (List.replicate 510 0 ++ [85])) = false
    ∧ cmd_restore_divine_method { source := some [], read_error := false }
      = divined (-1) cmd_backup_method.dump :=
  ⟨(divine_method_short_file [58, 255, 38]).2.2.2.2 (by decide),
   ((divine_method_short_file (List.replicate 510 0 ++ [85])).2.1 (by decide)).1,
   (divine_method_short_file []).2.2.2.2 (by decide)⟩

/-- A byte of the buffer within the first 8192 is the byte of the file, or zero behind
its end. -/
theorem byte_at_divine_buffer (src : List u8) (i : Nat) (h : i < 8192) :
    byte_at (divine_buffer src) i = byte_at src i := by
  by_cases hi : src.length ≤ i
  · rw [byte_at_divine_buffer_ge src i hi]
    unfold byte_at
    rw [List.getD_eq_getElem?_getD, List.getElem?_eq_none hi]
    rfl
  · have hl : i < (src.take 8192).length := by
      rw [List.length_take]; omega
    unfold byte_at divine_buffer
    rw [List.getD_eq_getElem?_getD, List.getD_eq_getElem?_getD, List.getElem?_append_left hl,
      List.getElem?_take_of_lt h]

/-- The detector reads the buffer only in the payload of the first two units. -/
theorem divine_method_congr (src src2 : List u8) (hne : src ≠ []) (hne2 : src2 ≠ [])
    (hb : ∀ i, (i < 2048 ∨ (2112 ≤ i ∧ i < 4160)) → byte_at src2 i = byte_at src i) :
    cmd_restore_divine_method { source := some src2, read_error := false }
      = cmd_restore_divine_method { source := some src, read_error := false } := by
  have hbb : ∀ i, (i < 2048 ∨ (2112 ≤ i ∧ i < 4160)) →
      byte_at (divine_buffer src2) i = byte_at (divine_buffer src) i := by
    intro i hi
    rw [byte_at_divine_buffer src2 i (by omega), byte_at_divine_buffer src i (by omega)]
    exact hb i hi
  rw [divine_method_cascade src hne, divine_method_cascade src2 hne2]
  simp only [has_sparse_magic, has_mbr_signature, has_ext4_magic, has_yaffs2_headers, rd32, rd16,
    Nat.reduceAdd, Nat.zero_add,
    hbb 0 (by omega), hbb 1 (by omega), hbb 2 (by omega), hbb 3 (by omega), hbb 4 (by omega),
    hbb 5 (by omega), hbb 6 (by omega), hbb 7 (by omega), hbb 10 (by omega),
    hbb 510 (by omega), hbb 511 (by omega), hbb 1080 (by omega), hbb 1081 (by omega),
    hbb 2116 (by omega), hbb 2117 (by omega), hbb 2118 (by omega), hbb 2119 (by omega),
    hbb 2122 (by omega)]

/-- C13 (the claim as stated fails): the second unit of `yaffs2_like_image` carries the
tag byte-count 5, not `0xFFFF`, and the image has no sparse magic, no MBR signature and
no EXT4 magic, yet the detector classifies it as `yaffs2`. -/
theorem divine_method_accepts_data_tag :
    yaffs2_byte_count (yaffs2_like_image.drop 2112) = 5
    ∧ has_sparse_magic (divine_buffer yaffs2_like_image) = false
    ∧ has_mbr_signature (divine_buffer yaffs2_like_image) = false
    ∧ has_ext4_magic (divine_buffer yaffs2_like_image) = false
    ∧ cmd_restore_divine_method { source := some yaffs2_like_image, read_error := false }
      = divined 0 cmd_backup_method.yaffs2 := by
  decide!

/-- C13 (amended): the detector looks at the payload of the units, never at their tags.
An image whose second 2112-byte unit does not start with an object header with parent 1
and a name that is not empty is never classified as `yaffs2`, and the result is -1 when
no earlier signature matches; two images that differ only in the tag areas of the
first two units are classified alike. -/
theorem divine_method_yaffs2_by_payload (src : List u8) (hne : src ≠ []) :
    (¬ (rd32 (divine_buffer src) 2116 = 1 ∧ byte_at (divine_buffer src) 2122 ≠ 0) →
      ¬ ((cmd_restore_divine_method { source := some src, read_error := false }).result = 0
        ∧ (cmd_restore_divine_method { source := some src, read_error := false }).method
          = cmd_backup_method.yaffs2)
      ∧ (has_sparse_magic (divine_buffer src) = false →
          has_mbr_signature (divine_buffer src) = false →
          has_ext4_magic (divine_buffer src) = false →
          cmd_restore_divine_method { source := some src, read_error := false }
            = divined (-1) cmd_backup_method.dump))
    ∧ (∀ src2 : List u8, src2 ≠ [] →
        (∀ i, (i < 2048 ∨ (2112 ≤ i ∧ i < 4160)) → byte_at src2 i = byte_at src i) →
        cmd_restore_divine_method { source := some src2, read_error := false }
          = cmd_restore_divine_method { source := some src, read_error := false }) := by
  obtain ⟨_, _, _, c4, c5⟩ := divine_method_cases src
  refine ⟨?_, fun src2 hne2 hb => divine_method_congr src src2 hne hne2 hb⟩
  intro hn
  have hy : has_yaffs2_headers (divine_buffer src) = false := by
    simp only [has_yaffs2_headers, hn, and_false, decide_False]
  refine ⟨fun hc => ?_, fun h1 h2 h3 => c5 h1 h2 h3 hy⟩
  rw [c4 hc] at hy
  cases hy

theorem divine_method_yaffs2_by_payload_witness :
    cmd_restore_divine_method
        { source := some ([3, 0, 0, 0, 1, 0, 0, 0] ++ List.replicate 2104 0
            ++ [1, 0, 0, 0, 1, 0, 0, 0]),
          read_error := false }
      = divined (-1) cmd_backup_method.dump :=
  ((divine_method_yaffs2_by_payload
      ([3, 0, 0, 0, 1, 0, 0, 0] ++ List.replicate 2104 0 ++ [1, 0, 0, 0, 1, 0, 0, 0])
      (by decide)).1 (by decide!)).2 (by decide!) (by decide!) (by decide!)

/-! ## The detector on the images of the encoders -/

theorem backup_dump_loop_copies (callbacks : Option ui_callbacks) :
    ∀ (fuel : Nat) (source dest : List u8), source.length < fuel →
      backup_dump_loop callbacks fuel source dest = (0, dest ++ source, []) := by
  intro fuel
  induction fuel with
  | zero => intro source dest h; omega
  | succ fuel ih =>
    intro source dest h
    unfold backup_dump_loop
    by_cases hs : source = []
    · subst hs
      simp
    · have hpos : 0 < source.length := List.length_pos.mpr hs
      have hl : 0 < (source.take 4096).length := by
        rw [List.length_take]; omega
      have hcb : (((source.take 4096).length : Nat) : Int) > 0 := by exact_mod_cast hl
      simp only [hcb, if_true, gzwrite, lt_self_iff_false, if_false]
      rw [ih (source.drop 4096) (dest ++ source.take 4096)
        (by rw [List.length_drop]; omega)]
      rw [List.append_assoc, List.take_append_drop]

/-- The raw dump of a device that can be opened, into a file that can be created: the
image holds the bytes of the device. -/
theorem backup_dump_ui_image (size_result errno : Int) (dev : List u8) (gzip : Bool)
    (callbacks : Option ui_callbacks) :
    (backup_dump_ui { size_result := size_result, device := some dev, dest_ok := true,
                      errno := errno } gzip callbacks).result = 0
    ∧ (backup_dump_ui { size_result := size_result, device := some dev, dest_ok := true,
                        errno := errno } gzip callbacks).image = some dev := by
  have h := backup_dump_loop_copies callbacks (dev.length + 1) dev [] (by omega)
  simp only [backup_dump_ui, not_true_eq_false, if_false, h, List.nil_append, ne_eq,
    and_self]

theorem ops_write_sparse (out : output_file) (d : List u8) :
    (ops_write out d).2.sparse = out.sparse
    ∧ (ops_write out d).2.sparse_header = out.sparse_header := ⟨rfl, rfl⟩

theorem emit_skip_chunk_header (info : fs_info) (out : output_file) (skip_len : Nat) :
    (emit_skip_chunk info out skip_len).2.sparse = out.sparse
    ∧ (emit_skip_chunk info out skip_len).2.sparse_header = out.sparse_header := by
  unfold emit_skip_chunk
  by_cases hal : skip_len % info.block_size ≠ 0
  · rw [if_pos hal]
    exact ⟨rfl, rfl⟩
  · rw [if_neg hal]
    simp [ops_write]

/-- The writes at the end of `write_chunk_raw` leave the `sparse` flag and the header
record alone; `R` stands for the rounded length. -/
theorem write_chunk_raw_tail_header (info : fs_info) (out1 : output_file) (data : List u8)
    (R : Nat) (hdr : chunk_header_t) :
    (let w1 := ops_write out1 (chunk_header_bytes hdr)
      if w1.1 < 0 then ((-1 : Int), w1.2)
      else
        let w2 := ops_write w1.2 data
        if w2.1 < 0 then (-1, w2.2)
        else
          let w3 := if R - data.length ≠ 0
                    then ops_write w2.2 ((zero_buf info).take (R - data.length))
                    else (0, w2.2)
          if w3.1 < 0 then (-1, w3.2)
          else
            let crc1 := sparse_crc32 w3.2.crc32 data
            let crc2 := if R - data.length ≠ 0
                        then sparse_crc32 crc1 ((zero_buf info).take (R - data.length))
                        else crc1
            (0, { w3.2 with crc32 := crc2, cur_out_ptr := w3.2.cur_out_ptr + R,
                            chunk_cnt := w3.2.chunk_cnt + 1 })).2.sparse = out1.sparse
    ∧ (let w1 := ops_write out1 (chunk_header_bytes hdr)
      if w1.1 < 0 then ((-1 : Int), w1.2)
      else
        let w2 := ops_write w1.2 data
        if w2.1 < 0 then (-1, w2.2)
        else
          let w3 := if R - data.length ≠ 0
                    then ops_write w2.2 ((zero_buf info).take (R - data.length))
                    else (0, w2.2)
          if w3.1 < 0 then (-1, w3.2)
          else
            let crc1 := sparse_crc32 w3.2.crc32 data
            let crc2 := if R - data.length ≠ 0
                        then sparse_crc32 crc1 ((zero_buf info).take (R - data.length))
                        else crc1
            (0, { w3.2 with crc32 := crc2, cur_out_ptr := w3.2.cur_out_ptr + R,
                            chunk_cnt := w3.2.chunk_cnt + 1 })).2.sparse_header
        = out1.sparse_header := by
  by_cases hz : R - data.length ≠ 0
  · simp only [ops_write_fst, lt_self_iff_false, if_false, hz, if_true, ops_write_sparse,
      ne_eq, not_false_eq_true, and_self]
  · simp only [ops_write_fst, lt_self_iff_false, if_false, hz, ops_write_sparse, and_self]

theorem write_chunk_raw_header (info : fs_info) (out : output_file) (off : Nat)
    (data : List u8) :
    (write_chunk_raw info out off data).2.sparse = out.sparse
    ∧ (write_chunk_raw info out off data).2.sparse_header = out.sparse_header := by
  unfold write_chunk_raw
  by_cases hlt : off < out.cur_out_ptr
  · rw [if_pos hlt]
    exact ⟨rfl, rfl⟩
  · rw [if_neg hlt]
    have hx : (if off > out.cur_out_ptr
        then (emit_skip_chunk info out (off - out.cur_out_ptr)).2 else out).sparse = out.sparse
        ∧ (if off > out.cur_out_ptr
          then (emit_skip_chunk info out (off - out.cur_out_ptr)).2 else out).sparse_header
          = out.sparse_header := by
      split
      · exact emit_skip_chunk_header info out _
      · exact ⟨rfl, rfl⟩
    generalize (if off > out.cur_out_ptr
        then (emit_skip_chunk info out (off - out.cur_out_ptr)).2 else out) = out1 at hx ⊢
    obtain ⟨hx1, hx2⟩ := hx
    by_cases hal : off % info.block_size ≠ 0
    · rw [if_pos hal]
      exact ⟨hx1, hx2⟩
    · rw [if_neg hal]
      by_cases hne : off ≠ out1.cur_out_ptr
      · rw [if_pos hne]
        exact ⟨hx1, hx2⟩
      · rw [if_neg hne]
        rw [← hx1, ← hx2]
        exact write_chunk_raw_tail_header info out1 data (rnd_up info data.length) _

theorem apply_op_header (info : fs_info) (out : output_file) (op : out_op)
    (hs : out.sparse = true) :
    (apply_op info out op).sparse = true
    ∧ (apply_op info out op).sparse_header = out.sparse_header := by
  cases op with
  | write off data =>
    simp only [apply_op, write_data_block]
    by_cases hpast : off + data.length > info.len
    · rw [if_pos hpast]
      exact ⟨hs, rfl⟩
    · rw [if_neg hpast, if_pos hs]
      have h := write_chunk_raw_header info out off data
      rw [hs] at h
      exact h
  | pad len =>
    simp only [apply_op, pad_output_file]
    by_cases hpast : len > info.len
    · rw [if_pos hpast]
      exact ⟨hs, rfl⟩
    · rw [if_neg hpast, if_pos hs]
      by_cases hlt : len < out.cur_out_ptr
      · rw [if_pos hlt]
        exact ⟨hs, rfl⟩
      · rw [if_neg hlt]
        split
        · have h := emit_skip_chunk_header info out (len - out.cur_out_ptr)
          rw [hs] at h
          exact h
        · exact ⟨hs, rfl⟩

theorem run_ops_header (info : fs_info) (ops : List out_op) :
    ∀ out : output_file, out.sparse = true →
      (run_ops info out ops).sparse = true
      ∧ (run_ops info out ops).sparse_header = out.sparse_header := by
  induction ops with
  | nil => intro out hs; exact ⟨hs, rfl⟩
  | cons op ops ih =>
    intro out hs
    obtain ⟨h1, h2⟩ := apply_op_header info out op hs
    obtain ⟨h3, h4⟩ := ih (apply_op info out op) h1
    simp only [run_ops, List.foldl_cons] at h3 h4 ⊢
    exact ⟨h3, by rw [h4, h2]⟩

/-- A file that begins with the bytes of a header record with the sparse magic is
detected as `ext4_sparse`, whatever follows the header. -/
theorem divine_method_sparse_header (hdr : sparse_header_t) (rest : List u8)
    (hm : hdr.magic = SPARSE_HEADER_MAGIC) :
    cmd_restore_divine_method
        { source := some (sparse_header_bytes hdr ++ rest), read_error := false }
      = divined 0 cmd_backup_method.ext4_sparse := by
  have hne : sparse_header_bytes hdr ++ rest ≠ [] := by
    intro hc
    have hl := congrArg List.length hc
    rw [List.length_append, sparse_header_bytes_length] at hl
    simp at hl
  have hmag : has_sparse_magic (divine_buffer (sparse_header_bytes hdr ++ rest)) = true := by
    have e : sparse_header_bytes hdr ++ rest
        = le32 hdr.magic ++ (le16 hdr.major_version ++ le16 hdr.minor_version
          ++ le16 hdr.file_hdr_sz ++ le16 hdr.chunk_hdr_sz ++ le32 hdr.blk_sz
          ++ le32 hdr.total_blks ++ le32 hdr.total_chunks ++ le32 hdr.image_checksum
          ++ rest) := by
      simp only [sparse_header_bytes, List.append_assoc]
    have hr : rd32 (divine_buffer (sparse_header_bytes hdr ++ rest)) 0
        = rd32 (sparse_header_bytes hdr ++ rest) 0 := by
      simp only [rd32, Nat.zero_add]
      rw [byte_at_divine_buffer _ 0 (by omega), byte_at_divine_buffer _ 1 (by omega),
        byte_at_divine_buffer _ 2 (by omega), byte_at_divine_buffer _ 3 (by omega)]
    simp only [has_sparse_magic, decide_eq_true_eq]
    rw [hr, e, rd32_le32, hm]
    rfl
  rw [divine_method_cascade _ hne, hmag]
  rfl

/-- C14 (the claim as stated fails): the raw dump of a device of 512 zero bytes
succeeds and the image holds these bytes, but the detector does not classify the image
as `dump`: it returns -1. -/
theorem blank_dump_is_not_detected :
    (backup_dump_ui { size_result := 0, device := some blank_device, dest_ok := true,
                      errno := 0 } false none).result = 0
    ∧ (backup_dump_ui { size_result := 0, device := some blank_device, dest_ok := true,
                        errno := 0 } false none).image = some blank_device
    ∧ cmd_restore_divine_method { source := some blank_device, read_error := false }
      = divined (-1) cmd_backup_method.dump :=
  ⟨(backup_dump_ui_image 0 0 blank_device false none).1,
   (backup_dump_ui_image 0 0 blank_device false none).2,
   by decide!⟩

/-- C14 (amended): every file written by the sparse encoder (`open_output_file` with
`sparse` set, any calls, `close_output_file`; compressed or not) begins with the 28
bytes of a header record with the sparse magic, and the file, like every file that
begins with these 28 bytes, is detected as `ext4_sparse`; the image that
`backup_dump_ui` writes holds the bytes of the device, and it is detected as `dump`
exactly when these bytes carry the MBR boot signature and do not begin with the sparse
magic. -/
theorem detect_encoded_images (info : fs_info) (gz : Bool) (ops : List out_op)
    (rest : List u8) (size_result errno : Int) (dev : List u8) (gzip : Bool)
    (callbacks : Option ui_callbacks) :
    (∃ hdr : sparse_header_t, hdr.magic = SPARSE_HEADER_MAGIC
      ∧ (close_output_file (run_ops info (open_output_file info gz true) ops)).file
        = sparse_header_bytes hdr
          ++ (run_ops info (open_output_file info gz true) ops).file.drop 28
      ∧ cmd_restore_divine_method
          { source := some
              (close_output_file (run_ops info (open_output_file info gz true) ops)).file,
            read_error := false }
        = divined 0 cmd_backup_method.ext4_sparse
      ∧ cmd_restore_divine_method
          { source := some (sparse_header_bytes hdr ++ rest), read_error := false }
        = divined 0 cmd_backup_method.ext4_sparse)
    ∧ (backup_dump_ui { size_result := size_result, device := some dev, dest_ok := true,
                        errno := errno } gzip callbacks).result = 0
    ∧ (backup_dump_ui { size_result := size_result, device := some dev, dest_ok := true,
                        errno := errno } gzip callbacks).image = some dev
    ∧ (cmd_restore_divine_method { source := some dev, read_error := false }
        = divined 0 cmd_backup_method.dump
      ↔ has_sparse_magic (divine_buffer dev) = false
        ∧ has_mbr_signature (divine_buffer dev) = true) := by
  have hopen : (open_output_file info gz true).sparse = true
      ∧ (open_output_file info gz true).sparse_header = closed_header info 0 0 := by
    rw [open_output_file_sparse]
    exact ⟨rfl, rfl⟩
  obtain ⟨hs, hh⟩ := run_ops_header info ops (open_output_file info gz true) hopen.1
  rw [hopen.2] at hh
  generalize run_ops info (open_output_file info gz true) ops = out at hs hh ⊢
  obtain ⟨hfile, _⟩ := close_output_file_sparse out hs
  have hdump := backup_dump_ui_image size_result errno dev gzip callbacks
  refine ⟨⟨_, ?_, hfile, ?_, ?_⟩, hdump.1, hdump.2, ?_⟩
  · rw [hh]; rfl
  · rw [hfile]
    exact divine_method_sparse_header _ _ (by rw [hh]; rfl)
  · exact divine_method_sparse_header _ _ (by rw [hh]; rfl)
  · obtain ⟨_, c2, _, _, _⟩ := divine_method_cases dev
    constructor
    · intro hd
      have hmbr := c2 (by rw [hd]; exact ⟨rfl, rfl⟩)
      refine ⟨?_, hmbr⟩
      have hne : dev ≠ [] := by
        intro hc
        subst hc
        simp [cmd_restore_divine_method, divined] at hd
      rw [divine_method_cascade dev hne] at hd
      cases hsp : has_sparse_magic (divine_buffer dev)
      · rfl
      · rw [hsp] at hd
        simp [divined] at hd
    · intro hd
      have hne : dev ≠ [] := by
        intro hc
        subst hc
        have := not_has_mbr_signature_short [] (by simp)
        rw [hd.2] at this
        cases this
      rw [divine_method_cascade dev hne, hd.1, hd.2]
      rfl

/-! ## Claims on the YAFFS2 restore -/

theorem yaffs2_read_chunk_img (s : yaffs2_state) :
    (yaffs2_read_chunk s).2.img = s.img.drop 2112 := by
  unfold yaffs2_read_chunk
  simp only [YAFFS2_CHUNK_SIZE, YAFFS2_SPARE_SIZE]
  split
  · rfl
  · split <;> rfl

theorem yaffs2_read_chunk_ok (s : yaffs2_state) (h : (yaffs2_read_chunk s).1 ≠ -1) :
    2112 ≤ s.img.length := by
  unfold yaffs2_read_chunk at h
  simp only [YAFFS2_CHUNK_SIZE, YAFFS2_SPARE_SIZE, List.length_take] at h
  by_contra hc
  have h1 : ¬ (min 2112 s.img.length = 2048 + 64) := by omega
  rw [if_neg h1] at h
  split at h <;> exact h rfl

/-- The buffer is overwritten by the next read. -/
theorem yaffs2_read_chunk_data (s : yaffs2_state) (d : List u8) :
    yaffs2_read_chunk { s with data := d } = yaffs2_read_chunk s := rfl

theorem yaffs2_file_loop_img :
    ∀ (fuel remain : Nat) (s : yaffs2_state) (b : Bool) (s1 : yaffs2_state),
      yaffs2_file_loop fuel remain s = some (b, s1) → s1.img.length ≤ s.img.length := by
  intro fuel
  induction fuel with
  | zero =>
    intro remain s b s1 h
    simp only [yaffs2_file_loop, Option.some.injEq, Prod.mk.injEq] at h
    rw [← h.2]
  | succ fuel ih =>
    intro remain s b s1 h
    unfold yaffs2_file_loop at h
    have hd : (yaffs2_read_chunk s).2.img.length ≤ s.img.length := by
      rw [yaffs2_read_chunk_img, List.length_drop]; omega
    by_cases hr : remain > 0
    · rw [if_pos hr] at h
      simp only at h
      by_cases h1 : (yaffs2_read_chunk s).1 ≠ 0
      · rw [if_pos h1] at h
        simp only [Option.some.injEq, Prod.mk.injEq] at h
        rw [← h.2]; exact hd
      · rw [if_neg h1] at h
        generalize (if remain < rd32 (yaffs2_read_chunk s).2.data
            (YAFFS2_CHUNK_SIZE + PT_BYTE_COUNT_OFFSET) then remain
          else rd32 (yaffs2_read_chunk s).2.data (YAFFS2_CHUNK_SIZE + PT_BYTE_COUNT_OFFSET))
          = n at h
        by_cases hn : n > YAFFS2_CHUNK_SIZE + YAFFS2_SPARE_SIZE
        · rw [if_pos hn] at h
          cases h
        · rw [if_neg hn] at h
          exact Nat.le_trans (ih _ _ b s1 h) hd
    · rw [if_neg hr] at h
      simp only [Option.some.injEq, Prod.mk.injEq] at h
      rw [← h.2]

theorem yaffs2_process_chunk_img (s s1 : yaffs2_state)
    (h : yaffs2_process_chunk s = some s1) : s1.img.length ≤ s.img.length := by
  unfold yaffs2_process_chunk at h
  split at h
  · simp only at h
    split at h
    · cases h
    · cases h
    · split at h
      · cases h
      · split at h
        · cases h
        · rename_i hr
          cases h
          split at hr
          · split at hr
            · cases hr
            · cases hr
            · rename_i hfl
              cases hr
              have hle := yaffs2_file_loop_img _ _ _ _ _ hfl
              exact hle
          · split at hr
            · cases hr
            · split at hr
              · cases hr
              · split at hr
                · split at hr
                  · cases hr
                  · cases hr
                · cases hr
        · rename_i hr
          cases h
          show _ ≤ s.img.length
          split at hr
          · split at hr
            · cases hr
            · rename_i hfl
              cases hr
              have hle := yaffs2_file_loop_img _ _ _ _ _ hfl
              exact hle
            · cases hr
          · split at hr
            · cases hr
              exact Nat.le_refl _
            · split at hr
              · cases hr
                exact Nat.le_refl _
              · split at hr
                · split at hr
                  · cases hr
                  · cases hr
                    exact Nat.le_refl _
                · cases hr
                  exact Nat.le_refl _
  · cases h
    exact Nat.le_refl _

/-- Beyond the number of bytes left in the stream, the bound on the turns of the
replay loop does not matter. -/
theorem yaffs2_replay_fuel :
    ∀ (n : Nat) (s : yaffs2_state) (f1 f2 : Nat), s.img.length < n →
      s.img.length < f1 → s.img.length < f2 → yaffs2_replay f1 s = yaffs2_replay f2 s := by
  intro n
  induction n with
  | zero => intro s f1 f2 h; omega
  | succ n ih =>
    intro s f1 f2 hn h1 h2
    obtain ⟨g1, rfl⟩ : ∃ g, f1 = g + 1 := ⟨f1 - 1, by omega⟩
    obtain ⟨g2, rfl⟩ : ∃ g, f2 = g + 1 := ⟨f2 - 1, by omega⟩
    unfold yaffs2_replay
    simp only
    by_cases hr : (yaffs2_read_chunk s).1 ≠ -1
    · rw [if_pos hr, if_pos hr]
      have hlen := yaffs2_read_chunk_ok s hr
      have hd : (yaffs2_read_chunk s).2.img.length = s.img.length - 2112 := by
        rw [yaffs2_read_chunk_img, List.length_drop]
      cases hp : yaffs2_process_chunk (yaffs2_read_chunk s).2 with
      | none => rfl
      | some s1 =>
        have hle := yaffs2_process_chunk_img _ s1 hp
        exact ih s1 g1 g2 (by omega) (by omega) (by omega)
    · rw [if_neg hr, if_neg hr]

/-- A unit whose tag byte-count is not `0xFFFF` is passed over by
`yaffs2_process_chunk`. -/
theorem yaffs2_process_chunk_data_unit (s : yaffs2_state)
    (h : rd32 s.data (YAFFS2_CHUNK_SIZE + PT_BYTE_COUNT_OFFSET) ≠ 65535) :
    yaffs2_process_chunk s = some s := by
  unfold yaffs2_process_chunk
  rw [if_neg h]

/-- The read of a complete unit. -/
theorem yaffs2_read_chunk_unit (s : yaffs2_state) (unit rest : List u8)
    (hl : unit.length = 2112) (hi : s.img = unit ++ rest) :
    yaffs2_read_chunk s = (0, { s with data := unit, img := rest }) := by
  unfold yaffs2_read_chunk
  have ht : s.img.take 2112 = unit := by
    rw [hi, ← hl]; exact List.take_left' rfl
  have hd : s.img.drop 2112 = rest := by
    rw [hi, ← hl]; exact List.drop_left' rfl
  simp only [YAFFS2_CHUNK_SIZE, YAFFS2_SPARE_SIZE, Nat.reduceAdd, ht, hd, hl, if_true,
    Nat.sub_self, List.replicate_zero, List.append_nil]

/-- The replay of a stream that starts with a unit whose tag byte-count is not `0xFFFF`
is the replay of the rest of the stream. -/
theorem yaffs2_replay_data_unit (s : yaffs2_state) (unit rest : List u8)
    (hl : unit.length = 2112) (hbc : yaffs2_byte_count unit ≠ 65535)
    (hi : s.img = unit ++ rest) :
    yaffs2_replay (s.img.length + 1) s
      = yaffs2_replay (rest.length + 1) { s with img := rest } := by
  have hlen : s.img.length = rest.length + 2112 := by
    rw [hi, List.length_append, hl]; omega
  conv_lhs => unfold yaffs2_replay
  simp only
  rw [yaffs2_read_chunk_unit s unit rest hl hi]
  simp only [ne_eq, (by decide : ¬ ((0 : Int) = -1)), not_false_eq_true, if_true]
  rw [yaffs2_process_chunk_data_unit { s with data := unit, img := rest } hbc]
  simp only
  rw [yaffs2_replay_fuel (rest.length + 1) _ s.img.length (rest.length + 1) (by simp)
    (by simp only; omega) (by simp)]
  unfold yaffs2_replay
  rfl

/-- C16 (the code at the failing inputs): when the image file cannot be opened,
`restore_yaffs2_ui` passes the error line to the sink and returns 0; and for a stream
that ends with a short unit of 100 bytes it reports the corrupt image and returns 0. -/
theorem restore_yaffs2_ui_reports_success :
    (∀ (directory : List u8) (callbacks : Option ui_callbacks) (gzdopen_ok : Bool)
        (errno : Int),
      restore_yaffs2_ui { imgfile := none, gzdopen_ok := gzdopen_ok, errno := errno }
          directory callbacks
        = some { result := 0, calls := [],
                 msgs := ui_line callbacks yaffs2_msg.cannot_open })
    ∧ restore_yaffs2_ui
        { imgfile := some (List.replicate 100 7), gzdopen_ok := true, errno := 5 }
        [47, 120] (some { uiprint := true, progress := true })
      = some { result := 0, calls := [], msgs := [yaffs2_msg.corrupt] } :=
  ⟨fun _ _ _ _ => rfl, by decide!⟩

/-- C17 (the claim as stated fails): the first unit of `yaffs2_desync_image` is read
outside a file-data sequence and carries the byte-count 5, yet the replay goes on: the
second unit is processed, its directory is created, and the restore returns 0. -/
theorem yaffs2_replay_goes_on_after_data_unit :
    yaffs2_byte_count yaffs2_desync_image = 5
    ∧ restore_yaffs2_ui
        { imgfile := some yaffs2_desync_image, gzdopen_ok := true, errno := 5 }
        [47, 120] (some { uiprint := true, progress := true })
      = some { result := 0,
               calls := [fs_call.mkdir [47, 120, 47, 100] 511,
                         fs_call.lchown [47, 120, 47, 100] 0 0,
                         fs_call.chmod [47, 120, 47, 100] 0,
                         fs_call.utimes [47, 120, 47, 100] 0 0],
               msgs := [] } := by
  decide!

/-- C17 (amended): a unit whose tag byte-count is not `0xFFFF` and that is read outside
a file-data sequence is skipped: `yaffs2_process_chunk` leaves the state as it is (no
call on the file system, no message), the replay loop goes on with the next unit, and
the restore of a stream that starts with such a unit is the restore of the rest of the
stream. -/
theorem yaffs2_data_unit_is_skipped (unit rest directory : List u8)
    (callbacks : Option ui_callbacks) (errno : Int)
    (hl : unit.length = 2112) (hbc : yaffs2_byte_count unit ≠ 65535) :
    (∀ s : yaffs2_state, s.data = unit → yaffs2_process_chunk s = some s)
    ∧ (∀ s : yaffs2_state, s.img = unit ++ rest →
        yaffs2_replay (s.img.length + 1) s
          = yaffs2_replay (rest.length + 1) { s with img := rest })
    ∧ restore_yaffs2_ui { imgfile := some (unit ++ rest), gzdopen_ok := true, errno := errno }
        directory callbacks
      = restore_yaffs2_ui { imgfile := some rest, gzdopen_ok := true, errno := errno }
        directory callbacks := by
  refine ⟨?_, fun s hi => yaffs2_replay_data_unit s unit rest hl hbc hi, ?_⟩
  · intro s hs
    exact yaffs2_process_chunk_data_unit s (by rw [hs]; exact hbc)
  · have h := yaffs2_replay_data_unit (yaffs2_init_state (unit ++ rest) directory callbacks)
      unit rest hl hbc rfl
    unfold restore_yaffs2_ui
    simp only [if_true]
    have e : (yaffs2_init_state (unit ++ rest) directory callbacks).img.length
        = (unit ++ rest).length := rfl
    rw [e] at h
    rw [h]
    rfl

theorem yaffs2_data_unit_is_skipped_witness :
    restore_yaffs2_ui
        { imgfile := some (yaffs2_unit [7, 7, 7, 7, 7] 300 5
            ++ yaffs2_unit [3, 0, 0, 0, 1, 0, 0, 0, 0, 0, 100] 257 65535),
          gzdopen_ok := true, errno := 5 } [47, 120] none
      = restore_yaffs2_ui
        { imgfile := some (yaffs2_unit [3, 0, 0, 0, 1, 0, 0, 0, 0, 0, 100] 257 65535),
          gzdopen_ok := true, errno := 5 } [47, 120] none :=
  (yaffs2_data_unit_is_skipped (yaffs2_unit [7, 7, 7, 7, 7] 300 5)
    (yaffs2_unit [3, 0, 0, 0, 1, 0, 0, 0, 0, 0, 100] 257 65535) [47, 120] none 5
    (by decide!) (by decide!)).2.2

/-! ## Claims on the message sink -/

theorem ui_line_discarding {α : Type} (m : α) :
    ui_line (some discarding_sink) m = ui_line none m := rfl

theorem backup_dump_loop_discarding :
    ∀ (fuel : Nat) (source dest : List u8),
      backup_dump_loop (some discarding_sink) fuel source dest
        = backup_dump_loop none fuel source dest := by
  intro fuel
  induction fuel with
  | zero => intro source dest; rfl
  | succ fuel ih =>
    intro source dest
    unfold backup_dump_loop
    simp only [ui_line_discarding, ih]

/-- The raw dump with a sink that discards its input is the raw dump with a NULL sink. -/
theorem backup_dump_ui_discarding (env : dump_env) (gzip : Bool) :
    backup_dump_ui env gzip (some discarding_sink) = backup_dump_ui env gzip none := by
  unfold backup_dump_ui
  simp only [ui_line_discarding, backup_dump_loop_discarding]

/-- C18 (the code at the failing input): for a volume whose size can be determined,
`backup_ext4` and `backup_ext4_sparse`, which pass a NULL sink, read
`callbacks->uiprint` through the NULL pointer, while the same call with a sink that
discards its input returns the result of `make_ext4fs`; the raw dump behaves with a
NULL sink as with a discarding sink. -/
theorem backup_ext4_null_sink (make_ext4fs : Bool → Bool → Int) (gzip : Bool)
    (denv : dump_env) :
    backup_ext4 { size_result := 0, make_ext4fs := make_ext4fs } gzip = none
    ∧ backup_ext4_sparse { size_result := 0, make_ext4fs := make_ext4fs } gzip = none
    ∧ backup_ext4_ui { size_result := 0, make_ext4fs := make_ext4fs } gzip
        (some discarding_sink)
      = some { result := make_ext4fs gzip false, msgs := [] }
    ∧ backup_ext4_sparse_ui { size_result := 0, make_ext4fs := make_ext4fs } gzip
        (some discarding_sink)
      = some { result := make_ext4fs gzip true, msgs := [] }
    ∧ backup_dump denv gzip = backup_dump_ui denv gzip (some discarding_sink) :=
  ⟨rfl, rfl, rfl, rfl, (backup_dump_ui_discarding denv gzip).symm⟩

/-! ## Claims on the convert workflow -/

/-- C19: in `cmd_convert_volume` the source volume is formatted only after the backup
to the temporary image has returned 0, and the restore is attempted only after the
backup and the format have both returned 0: `format_volume` is called only right after
the backup, and `restore_yaffs2_ui` only right after the format. -/
theorem convert_format_and_restore_guarded (env : convert_env) :
    (convert_event.format ∈ cmd_convert_volume env →
      env.backup = 0
      ∧ ∃ pre post, cmd_convert_volume env
          = pre ++ [convert_event.backup, convert_event.format] ++ post)
    ∧ (convert_event.restore ∈ cmd_convert_volume env →
      env.backup = 0 ∧ env.format = 0
      ∧ ∃ pre post, cmd_convert_volume env
          = pre ++ [convert_event.backup, convert_event.format, convert_event.restore]
            ++ post) := by
  by_cases h1 : env.destvol_found = true
  · by_cases h2 : env.mount_dest.1 = 0
    · by_cases h3 : env.mount_source.1 = 0
      · by_cases h4 : env.backup = 0
        · by_cases h5 : env.format = 0
          · by_cases h6 : env.remove = 0
            · refine ⟨fun _ => ⟨h4, ?_⟩, fun _ => ⟨h4, h5, ?_⟩⟩
              · exact ⟨[convert_event.print_converting, convert_event.mount_dest,
                  convert_event.mount_source], _, by
                  simp only [cmd_convert_volume, h1, h2, h3, h4, h5, h6, not_true_eq_false,
                    ne_eq, if_false, if_true, List.append_assoc, List.cons_append,
                    List.nil_append]
                  rfl⟩
              · exact ⟨[convert_event.print_converting, convert_event.mount_dest,
                  convert_event.mount_source], _, by
                  simp only [cmd_convert_volume, h1, h2, h3, h4, h5, h6, not_true_eq_false,
                    ne_eq, if_false, if_true, List.append_assoc, List.cons_append,
                    List.nil_append]
                  rfl⟩
            · refine ⟨fun _ => ⟨h4, ?_⟩, fun _ => ⟨h4, h5, ?_⟩⟩
              · exact ⟨[convert_event.print_converting, convert_event.mount_dest,
                  convert_event.mount_source], _, by
                  simp only [cmd_convert_volume, h1, h2, h3, h4, h5, h6, not_true_eq_false,
                    ne_eq, if_false, if_true, List.append_assoc, List.cons_append,
                    List.nil_append, not_false_eq_true]
                  rfl⟩
              · exact ⟨[convert_event.print_converting, convert_event.mount_dest,
                  convert_event.mount_source], _, by
                  simp only [cmd_convert_volume, h1, h2, h3, h4, h5, h6, not_true_eq_false,
                    ne_eq, if_false, if_true, List.append_assoc, List.cons_append,
                    List.nil_append, not_false_eq_true]
                  rfl⟩
          · refine ⟨fun _ => ⟨h4, ?_⟩, fun hm => ?_⟩
            · exact ⟨[convert_event.print_converting, convert_event.mount_dest,
                convert_event.mount_source], _, by
                simp only [cmd_convert_volume, h1, h2, h3, h4, h5, not_true_eq_false, ne_eq,
                  if_false, if_true, List.append_assoc, List.cons_append, List.nil_append,
                  not_false_eq_true]
                rfl⟩
            · exfalso
              simp only [cmd_convert_volume, h1, h2, h3, h4, h5, not_true_eq_false, ne_eq,
                if_false, if_true] at hm
              split_ifs at hm <;> simp at hm
        · refine ⟨fun hm => ?_, fun hm => ?_⟩ <;>
          · exfalso
            simp only [cmd_convert_volume, h1, h2, h3, h4, not_true_eq_false, ne_eq,
              if_false, if_true] at hm
            split_ifs at hm <;> simp at hm
      · refine ⟨fun hm => ?_, fun hm => ?_⟩ <;>
        · exfalso
          simp only [cmd_convert_volume, h1, h2, h3, not_true_eq_false, ne_eq,
            if_false, if_true] at hm
          split_ifs at hm <;> simp at hm
    · refine ⟨fun hm => ?_, fun hm => ?_⟩ <;>
      · exfalso
        simp [cmd_convert_volume, h1, h2] at hm
  · refine ⟨fun hm => ?_, fun hm => ?_⟩ <;>
    · exfalso
      simp [cmd_convert_volume, h1] at hm

theorem convert_format_and_restore_guarded_witness :
    convert_event.format ∉ cmd_convert_volume convert_backup_fails
    ∧ convert_event.restore ∉ cmd_convert_volume convert_backup_fails
    ∧ (convert_remove_fails.backup = 0 ∧ convert_remove_fails.format = 0
      ∧ ∃ pre post, cmd_convert_volume convert_remove_fails
          = pre ++ [convert_event.backup, convert_event.format, convert_event.restore]
            ++ post) :=
  ⟨by decide, by decide,
   (convert_format_and_restore_guarded convert_remove_fails).2 (by decide)⟩

/-- C20 (the code at the failing inputs): `cmd_convert_volume` prints that the volume
was converted exactly when the backup and the format have returned 0 and `remove` of
the temporary image has returned 0; the result of the restore does not count.  So the
volume is reported as converted when the restore fails, and it is not reported as
converted when only the removal of the temporary image fails. -/
theorem convert_reported_by_remove_result :
    (∀ env : convert_env,
      convert_event.print_converted ∈ cmd_convert_volume env
        ↔ (env.destvol_found = true ∧ env.mount_dest.1 = 0 ∧ env.mount_source.1 = 0
          ∧ env.backup = 0 ∧ env.format = 0 ∧ env.remove = 0))
    ∧ convert_event.log_restore_failed ∈ cmd_convert_volume convert_restore_fails
    ∧ convert_event.print_converted ∈ cmd_convert_volume convert_restore_fails
    ∧ convert_event.restore ∈ cmd_convert_volume convert_remove_fails
    ∧ convert_event.log_restore_failed ∉ cmd_convert_volume convert_remove_fails
    ∧ convert_event.print_converted ∉ cmd_convert_volume convert_remove_fails := by
  refine ⟨?_, by decide, by decide, by decide, by decide, by decide⟩
  intro env
  by_cases h1 : env.destvol_found = true
  · by_cases h2 : env.mount_dest.1 = 0
    · by_cases h3 : env.mount_source.1 = 0
      · by_cases h4 : env.backup = 0
        · by_cases h5 : env.format = 0
          · by_cases h6 : env.remove = 0
            · simp [cmd_convert_volume, h1, h2, h3, h4, h5, h6]
            · simp only [cmd_convert_volume, h1, h2, h3, h4, h5, h6, not_true_eq_false, ne_eq,
                if_false, if_true, not_false_eq_true, and_false, and_true, iff_false]
              intro hm
              split_ifs at hm <;> simp at hm
          · simp only [cmd_convert_volume, h1, h2, h3, h4, h5, not_true_eq_false, ne_eq,
              if_false, if_true, not_false_eq_true, and_false, false_and, iff_false]
            intro hm
            split_ifs at hm <;> simp at hm
        · simp only [cmd_convert_volume, h1, h2, h3, h4, not_true_eq_false, ne_eq,
            if_false, if_true, not_false_eq_true, and_false, false_and, iff_false]
          intro hm
          split_ifs at hm <;> simp at hm
      · simp only [cmd_convert_volume, h1, h2, h3, not_true_eq_false, ne_eq,
          if_false, if_true, not_false_eq_true, and_false, false_and, iff_false]
        intro hm
        split_ifs at hm <;> simp at hm
    · simp [cmd_convert_volume, h1, h2]
  · simp [cmd_convert_volume, h1]

/-! ## The temporary image of the convert workflow -/

/-- C30 (the claim as stated fails): when the backup and the format succeed and the
restore returns -1, `cmd_convert_volume` logs the failed restore and still removes the
temporary image. -/
theorem convert_removes_image_after_failed_restore :
    cmd_convert_volume convert_restore_fails
      = [convert_event.print_converting, convert_event.mount_dest,
         convert_event.mount_source, convert_event.backup, convert_event.format,
         convert_event.restore, convert_event.log_restore_failed,
         convert_event.remove_temp, convert_event.unmount_source,
         convert_event.unmount_dest, convert_event.print_converted,
         convert_event.volume_stats, convert_event.print_stats,
         convert_event.ui_reset_progress] := by
  decide

/-- C30 (amended): `cmd_convert_volume` removes the temporary image exactly when the
backup and the format have both returned 0, and then right after the restore was
attempted (and a failed restore was logged), whatever the restore returned. -/
theorem convert_removes_image_after_restore (env : convert_env) :
    (convert_event.remove_temp ∈ cmd_convert_volume env
      ↔ (env.destvol_found = true ∧ env.mount_dest.1 = 0 ∧ env.mount_source.1 = 0
        ∧ env.backup = 0 ∧ env.format = 0))
    ∧ (convert_event.remove_temp ∈ cmd_convert_volume env →
        ∃ pre post, cmd_convert_volume env
          = pre ++ [convert_event.restore]
            ++ (if env.restore ≠ 0 then [convert_event.log_restore_failed] else [])
            ++ [convert_event.remove_temp] ++ post) := by
  by_cases h1 : env.destvol_found = true
  · by_cases h2 : env.mount_dest.1 = 0
    · by_cases h3 : env.mount_source.1 = 0
      · by_cases h4 : env.backup = 0
        · by_cases h5 : env.format = 0
          · by_cases h6 : env.remove = 0
            · refine ⟨by simp [cmd_convert_volume, h1, h2, h3, h4, h5, h6], fun _ => ?_⟩
              exact ⟨[convert_event.print_converting, convert_event.mount_dest,
                convert_event.mount_source, convert_event.backup, convert_event.format], _, by
                simp only [cmd_convert_volume, h1, h2, h3, h4, h5, h6, not_true_eq_false,
                  ne_eq, if_false, if_true, List.append_assoc, List.cons_append,
                  List.nil_append]
                rfl⟩
            · refine ⟨by simp [cmd_convert_volume, h1, h2, h3, h4, h5, h6], fun _ => ?_⟩
              exact ⟨[convert_event.print_converting, convert_event.mount_dest,
                convert_event.mount_source, convert_event.backup, convert_event.format], _, by
                simp only [cmd_convert_volume, h1, h2, h3, h4, h5, h6, not_true_eq_false,
                  ne_eq, if_false, if_true, List.append_assoc, List.cons_append,
                  List.nil_append, not_false_eq_true]
                rfl⟩
          · have hn : convert_event.remove_temp ∉ cmd_convert_volume env := by
              intro hm
              simp only [cmd_convert_volume, h1, h2, h3, h4, h5, not_true_eq_false, ne_eq,
                if_false, if_true, not_false_eq_true] at hm
              split_ifs at hm <;> simp at hm
            exact ⟨⟨fun hm => absurd hm hn, fun hc => absurd hc.2.2.2.2 h5⟩,
              fun hm => absurd hm hn⟩
        · have hn : convert_event.remove_temp ∉ cmd_convert_volume env := by
            intro hm
            simp only [cmd_convert_volume, h1, h2, h3, h4, not_true_eq_false, ne_eq,
              if_false, if_true, not_false_eq_true] at hm
            split_ifs at hm <;> simp at hm
          exact ⟨⟨fun hm => absurd hm hn, fun hc => absurd hc.2.2.2.1 h4⟩,
            fun hm => absurd hm hn⟩
      · have hn : convert_event.remove_temp ∉ cmd_convert_volume env := by
          intro hm
          simp only [cmd_convert_volume, h1, h2, h3, not_true_eq_false, ne_eq,
            if_false, if_true, not_false_eq_true] at hm
          split_ifs at hm <;> simp at hm
        exact ⟨⟨fun hm => absurd hm hn, fun hc => absurd hc.2.2.1 h3⟩,
          fun hm => absurd hm hn⟩
    · have hn : convert_event.remove_temp ∉ cmd_convert_volume env := by
        simp [cmd_convert_volume, h1, h2]
      exact ⟨⟨fun hm => absurd hm hn, fun hc => absurd hc.2.1 h2⟩,
        fun hm => absurd hm hn⟩
  · have hn : convert_event.remove_temp ∉ cmd_convert_volume env := by
      simp [cmd_convert_volume, h1]
    exact ⟨⟨fun hm => absurd hm hn, fun hc => absurd hc.1 h1⟩,
      fun hm => absurd hm hn⟩

theorem convert_removes_image_after_restore_witness :
    ∃ pre post, cmd_convert_volume convert_remove_fails
      = pre ++ [convert_event.restore]
        ++ (if convert_remove_fails.restore ≠ 0 then [convert_event.log_restore_failed]
            else [])
        ++ [convert_event.remove_temp] ++ post :=
  (convert_removes_image_after_restore convert_remove_fails).2 (by decide)

/-! ## The length of the writes of the YAFFS2 restore -/

/-- C29 (the code at the failing inputs): for a data unit with the tag byte-count 2100
the restore hands `write` 2100 bytes, the 2048 bytes of the payload and the first 52
bytes of the tags; for a data unit with the byte-count 5000 the length given to `write`
exceeds the 2112 bytes of the unit buffer. -/
theorem yaffs2_write_exceeds_payload :
    restore_yaffs2_ui
        { imgfile := some yaffs2_overlong_image, gzdopen_ok := true, errno := 5 }
        [47, 120] none
      = some { result := 0,
               calls := [fs_call.creat [47, 120, 47, 102] 0,
                         fs_call.write (List.replicate 2048 7
                           ++ [0, 0, 0, 0, 1, 1, 0, 0, 0, 0, 0, 0, 52, 8, 0, 0]
                           ++ List.replicate 36 0)],
               msgs := [] }
    ∧ (List.replicate 2048 (7 : u8) ++ [0, 0, 0, 0, 1, 1, 0, 0, 0, 0, 0, 0, 52, 8, 0, 0]
        ++ List.replicate 36 0).length = 2100
    ∧ restore_yaffs2_ui
        { imgfile := some yaffs2_overrun_image, gzdopen_ok := true, errno := 5 }
        [47, 120] none = none := by
  decide!

/-! ## The object table of the YAFFS2 restore -/

theorem yaffs2_read_chunk_obj_list (s : yaffs2_state) :
    (yaffs2_read_chunk s).2.obj_list = s.obj_list := by
  unfold yaffs2_read_chunk
  simp only
  split
  · rfl
  · split <;> rfl

theorem yaffs2_file_loop_obj_list :
    ∀ (fuel remain : Nat) (s : yaffs2_state) (b : Bool) (s1 : yaffs2_state),
      yaffs2_file_loop fuel remain s = some (b, s1) → s1.obj_list = s.obj_list := by
  intro fuel
  induction fuel with
  | zero =>
    intro remain s b s1 h
    simp only [yaffs2_file_loop, Option.some.injEq, Prod.mk.injEq] at h
    rw [← h.2]
  | succ fuel ih =>
    intro remain s b s1 h
    unfold yaffs2_file_loop at h
    by_cases hr : remain > 0
    · rw [if_pos hr] at h
      simp only at h
      by_cases h1 : (yaffs2_read_chunk s).1 ≠ 0
      · rw [if_pos h1] at h
        simp only [Option.some.injEq, Prod.mk.injEq] at h
        rw [← h.2]; exact yaffs2_read_chunk_obj_list s
      · rw [if_neg h1] at h
        generalize (if remain < rd32 (yaffs2_read_chunk s).2.data
            (YAFFS2_CHUNK_SIZE + PT_BYTE_COUNT_OFFSET) then remain
          else rd32 (yaffs2_read_chunk s).2.data (YAFFS2_CHUNK_SIZE + PT_BYTE_COUNT_OFFSET))
          = n at h
        by_cases hn : n > YAFFS2_CHUNK_SIZE + YAFFS2_SPARE_SIZE
        · rw [if_pos hn] at h
          cases h
        · rw [if_neg hn] at h
          have hh := ih _ _ b s1 h
          rw [hh]
          exact yaffs2_read_chunk_obj_list s
    · rw [if_neg hr] at h
      simp only [Option.some.injEq, Prod.mk.injEq] at h
      rw [← h.2]

/-- What `yaffs2_process_chunk` does to the object table for an object header: the
parent has a path, the object id lies within the table, and the path of the object is
put in front. -/
theorem yaffs2_process_chunk_obj_list (s s1 : yaffs2_state)
    (hs : rd32 s.data (YAFFS2_CHUNK_SIZE + PT_BYTE_COUNT_OFFSET) = 65535)
    (h : yaffs2_process_chunk s = some s1) :
    ∃ parent,
      obj_list_get s.obj_list (to_int32 (rd32 (s.data.take OH_SIZE) OH_PARENT_OFFSET))
        = some (some parent)
      ∧ rd32 s.data (YAFFS2_CHUNK_SIZE + PT_OBJECT_ID_OFFSET) < YAFFS2_MAX_OBJECTS
      ∧ s1.obj_list
        = (rd32 s.data (YAFFS2_CHUNK_SIZE + PT_OBJECT_ID_OFFSET),
            parent ++ [47] ++ cstr ((s.data.take OH_SIZE).drop OH_NAME_OFFSET)) :: s.obj_list := by
  unfold yaffs2_process_chunk at h
  rw [if_pos hs] at h
  simp only at h
  split at h
  · cases h
  · cases h
  · rename_i parent hget
    refine ⟨parent, hget, ?_⟩
    split at h
    · cases h
    · rename_i hid
      refine ⟨by omega, ?_⟩
      split at h
      · cases h
      · rename_i hr
        cases h
        split at hr
        · split at hr
          · cases hr
          · cases hr
          · rename_i hfl
            cases hr
            have hle := yaffs2_file_loop_obj_list _ _ _ _ _ hfl
            exact hle
        · split at hr
          · cases hr
          · split at hr
            · cases hr
            · split at hr
              · split at hr
                · cases hr
                · cases hr
              · cases hr
      · rename_i hr
        cases h
        show _ = _ :: s.obj_list
        split at hr
        · split at hr
          · cases hr
          · rename_i hfl
            cases hr
            have hle := yaffs2_file_loop_obj_list _ _ _ _ _ hfl
            exact hle
          · cases hr
        · split at hr
          · cases hr
            rfl
          · split at hr
            · cases hr
              rfl
            · split at hr
              · split at hr
                · cases hr
                · cases hr
                  rfl
              · cases hr
                rfl

theorem obj_list_get_cons (l : List (Nat × List u8)) (k : Nat) (p : List u8) (i : Int) :
    obj_list_get ((k, p) :: l) i
      = if i < 0 ∨ i ≥ (YAFFS2_MAX_OBJECTS : Nat) then none
        else if k = i.toNat then some (some p) else obj_list_get l i := by
  unfold obj_list_get
  by_cases hr : i < 0 ∨ i ≥ (YAFFS2_MAX_OBJECTS : Nat)
  · rw [if_pos hr, if_pos hr]
  · rw [if_neg hr, if_neg hr, if_neg hr]
    by_cases hk : k = i.toNat
    · rw [if_pos hk]
      simp [List.find?_cons, hk]
    · rw [if_neg hk]
      simp [List.find?_cons, hk]

theorem obj_list_get_cons_present (l : List (Nat × List u8)) (k : Nat) (p : List u8)
    (i : Int) (q : List u8) (h : obj_list_get l i = some (some q)) :
    ∃ q1, obj_list_get ((k, p) :: l) i = some (some q1) := by
  have hr : ¬ (i < 0 ∨ i ≥ (YAFFS2_MAX_OBJECTS : Nat)) := by
    intro hr
    unfold obj_list_get at h
    rw [if_pos hr] at h
    cases h
  rw [obj_list_get_cons, if_neg hr]
  by_cases hk : k = i.toNat
  · rw [if_pos hk]; exact ⟨p, rfl⟩
  · rw [if_neg hk]; exact ⟨q, h⟩

theorem yaffs2_process_chunk_present (s s1 : yaffs2_state)
    (h : yaffs2_process_chunk s = some s1) (i : Int) (q : List u8)
    (hq : obj_list_get s.obj_list i = some (some q)) :
    ∃ q1, obj_list_get s1.obj_list i = some (some q1) := by
  by_cases hs : rd32 s.data (YAFFS2_CHUNK_SIZE + PT_BYTE_COUNT_OFFSET) = 65535
  · obtain ⟨parent, _, _, hl⟩ := yaffs2_process_chunk_obj_list s s1 hs h
    rw [hl]
    exact obj_list_get_cons_present _ _ _ _ _ hq
  · unfold yaffs2_process_chunk at h
    rw [if_neg hs] at h
    cases h
    exact ⟨q, hq⟩

theorem yaffs2_replay_present :
    ∀ (fuel : Nat) (s s1 : yaffs2_state), yaffs2_replay fuel s = some s1 →
      ∀ (i : Int) (q : List u8), obj_list_get s.obj_list i = some (some q) →
        ∃ q1, obj_list_get s1.obj_list i = some (some q1) := by
  intro fuel
  induction fuel with
  | zero =>
    intro s s1 h i q hq
    simp only [yaffs2_replay, Option.some.injEq] at h
    rw [← h]; exact ⟨q, hq⟩
  | succ fuel ih =>
    intro s s1 h i q hq
    unfold yaffs2_replay at h
    simp only at h
    have hq2 : obj_list_get (yaffs2_read_chunk s).2.obj_list i = some (some q) := by
      rw [yaffs2_read_chunk_obj_list]; exact hq
    by_cases h1 : (yaffs2_read_chunk s).1 ≠ -1
    · rw [if_pos h1] at h
      split at h
      · cases h
      · rename_i s2 hp
        obtain ⟨q1, hq1⟩ := yaffs2_process_chunk_present _ _ hp i q hq2
        exact ih _ _ h i q1 hq1
    · rw [if_neg h1] at h
      cases h
      exact ⟨q, hq2⟩

/-- C25: the table of `yaffs2_init_state` holds the destination directory at the root
id 1 and NULL elsewhere; `yaffs2_process_chunk` on an object header reads the path of
the parent id, puts that path, a slash and the name of the header at the object id of
the tags and leaves every other entry as it was (and it returns for every header that is
neither a file nor a hard link, as soon as the parent has a path and the object id lies
within the table); no entry that holds a path is without one at the end of a replay. -/
theorem yaffs2_object_path_table :
    (∀ (img directory : List u8) (cb : Option ui_callbacks) (i : Int),
      0 ≤ i → i < (YAFFS2_MAX_OBJECTS : Nat) →
      obj_list_get (yaffs2_init_state img directory cb).obj_list i
        = some (if i = (YAFFS2_YAFFS_OBJECTID_ROOT : Nat) then some directory else none))
    ∧ (∀ (s s1 : yaffs2_state),
        rd32 s.data (YAFFS2_CHUNK_SIZE + PT_BYTE_COUNT_OFFSET) = 65535 →
        yaffs2_process_chunk s = some s1 →
        ∃ parent,
          obj_list_get s.obj_list (to_int32 (rd32 (s.data.take OH_SIZE) OH_PARENT_OFFSET))
            = some (some parent)
          ∧ obj_list_get s1.obj_list
              ((rd32 s.data (YAFFS2_CHUNK_SIZE + PT_OBJECT_ID_OFFSET) : Nat) : Int)
            = some (some (parent ++ [47] ++ cstr ((s.data.take OH_SIZE).drop OH_NAME_OFFSET)))
          ∧ ∀ i : Int,
              i ≠ ((rd32 s.data (YAFFS2_CHUNK_SIZE + PT_OBJECT_ID_OFFSET) : Nat) : Int) →
              obj_list_get s1.obj_list i = obj_list_get s.obj_list i)
    ∧ (∀ (s : yaffs2_state) (parent : List u8),
        rd32 s.data (YAFFS2_CHUNK_SIZE + PT_BYTE_COUNT_OFFSET) = 65535 →
        obj_list_get s.obj_list (to_int32 (rd32 (s.data.take OH_SIZE) OH_PARENT_OFFSET))
          = some (some parent) →
        rd32 s.data (YAFFS2_CHUNK_SIZE + PT_OBJECT_ID_OFFSET) < YAFFS2_MAX_OBJECTS →
        rd32 (s.data.take OH_SIZE) 0 ≠ YAFFS_OBJECT_TYPE_FILE →
        rd32 (s.data.take OH_SIZE) 0 ≠ YAFFS_OBJECT_TYPE_HARDLINK →
        ∃ s1, yaffs2_process_chunk s = some s1)
    ∧ (∀ (fuel : Nat) (s s1 : yaffs2_state), yaffs2_replay fuel s = some s1 →
        ∀ (i : Int) (q : List u8), obj_list_get s.obj_list i = some (some q) →
          ∃ q1, obj_list_get s1.obj_list i = some (some q1)) := by
  refine ⟨?_, ?_, ?_, yaffs2_replay_present⟩
  · intro img directory cb i h0 h1
    have hr : ¬ (i < 0 ∨ i ≥ (YAFFS2_MAX_OBJECTS : Nat)) := by omega
    show obj_list_get [(YAFFS2_YAFFS_OBJECTID_ROOT, directory)] i = _
    rw [obj_list_get_cons, if_neg hr]
    by_cases hi : i = (YAFFS2_YAFFS_OBJECTID_ROOT : Nat)
    · have hk : YAFFS2_YAFFS_OBJECTID_ROOT = i.toNat := by rw [hi]; rfl
      rw [if_pos hk, if_pos hi]
    · have hk : ¬ (YAFFS2_YAFFS_OBJECTID_ROOT = i.toNat) := by
        intro hk; apply hi; omega
      rw [if_neg hk, if_neg hi]
      unfold obj_list_get
      rw [if_neg hr]
      rfl
  · intro s s1 hs h
    obtain ⟨parent, hp, hid, hl⟩ := yaffs2_process_chunk_obj_list s s1 hs h
    refine ⟨parent, hp, ?_, ?_⟩
    · rw [hl, obj_list_get_cons]
      have hr : ¬ (((rd32 s.data (YAFFS2_CHUNK_SIZE + PT_OBJECT_ID_OFFSET) : Nat) : Int) < 0
          ∨ ((rd32 s.data (YAFFS2_CHUNK_SIZE + PT_OBJECT_ID_OFFSET) : Nat) : Int)
            ≥ (YAFFS2_MAX_OBJECTS : Nat)) := by omega
      rw [if_neg hr, if_pos (by simp)]
    · intro i hi
      rw [hl, obj_list_get_cons]
      by_cases hr : i < 0 ∨ i ≥ (YAFFS2_MAX_OBJECTS : Nat)
      · rw [if_pos hr]
        unfold obj_list_get
        rw [if_pos hr]
      · rw [if_neg hr]
        have hk : ¬ (rd32 s.data (YAFFS2_CHUNK_SIZE + PT_OBJECT_ID_OFFSET) = i.toNat) := by
          intro hk; apply hi; omega
        rw [if_neg hk]
  · intro s parent hs hp hid hf hh
    unfold yaffs2_process_chunk
    rw [if_pos hs]
    simp only
    rw [hp]
    simp only
    rw [if_neg (by omega), if_neg hf]
    by_cases h2 : rd32 (List.take OH_SIZE s.data) 0 = YAFFS_OBJECT_TYPE_SYMLINK
    · rw [if_pos h2]; exact ⟨_, rfl⟩
    · rw [if_neg h2]
      by_cases h3 : rd32 (List.take OH_SIZE s.data) 0 = YAFFS_OBJECT_TYPE_DIRECTORY
      · rw [if_pos h3]; exact ⟨_, rfl⟩
      · rw [if_neg h3, if_neg hh]; exact ⟨_, rfl⟩

theorem yaffs2_object_path_table_witness :
    ∃ s1, yaffs2_process_chunk yaffs2_dir_state = some s1
      ∧ obj_list_get s1.obj_list 257 = some (some [47, 120, 47, 100])
      ∧ obj_list_get s1.obj_list 1 = some (some [47, 120]) := by
  have hs : rd32 yaffs2_dir_state.data (YAFFS2_CHUNK_SIZE + PT_BYTE_COUNT_OFFSET) = 65535 := by
    decide!
  have hp : obj_list_get yaffs2_dir_state.obj_list
      (to_int32 (rd32 (yaffs2_dir_state.data.take OH_SIZE) OH_PARENT_OFFSET))
        = some (some [47, 120]) := by decide!
  have hid : rd32 yaffs2_dir_state.data (YAFFS2_CHUNK_SIZE + PT_OBJECT_ID_OFFSET) = 257 := by
    decide!
  have hn : cstr ((yaffs2_dir_state.data.take OH_SIZE).drop OH_NAME_OFFSET) = [100] := by
    decide!
  obtain ⟨s1, h⟩ := yaffs2_object_path_table.2.2.1 yaffs2_dir_state [47, 120] hs hp
    (by rw [hid]; decide) (by decide!) (by decide!)
  obtain ⟨parent, hp1, hg, hk⟩ := yaffs2_object_path_table.2.1 yaffs2_dir_state s1 hs h
  rw [hp] at hp1
  cases hp1
  rw [hid, hn] at hg
  rw [hid] at hk
  exact ⟨s1, h, hg, by rw [hk 1 (by decide)]; decide!⟩

/-! ## The file data of the YAFFS2 restore -/

theorem yaffs2_file_loop_done (fuel : Nat) (s : yaffs2_state) :
    yaffs2_file_loop fuel 0 s = some (true, s) := by
  cases fuel with
  | zero => rfl
  | succ f =>
    unfold yaffs2_file_loop
    rw [if_neg (by omega)]

/-- One turn of the file loop on a complete unit whose byte-count fits the buffer. -/
theorem yaffs2_file_loop_unit (fuel N : Nat) (s : yaffs2_state) (unit rest : List u8)
    (hl : unit.length = 2112) (hi : s.img = unit ++ rest) (hN : 0 < N)
    (hb : min N (yaffs2_byte_count unit) ≤ 2112) :
    yaffs2_file_loop (fuel + 1) N s
      = yaffs2_file_loop fuel (N - min N (yaffs2_byte_count unit))
          { s with data := unit, img := rest,
                   calls := s.calls
                     ++ [fs_call.write (unit.take (min N (yaffs2_byte_count unit)))] } := by
  conv_lhs => unfold yaffs2_file_loop
  rw [if_pos hN]
  simp only
  rw [yaffs2_read_chunk_unit s unit rest hl hi]
  simp only [ne_eq, not_true_eq_false, if_false]
  have hm : (if N < rd32 unit (YAFFS2_CHUNK_SIZE + PT_BYTE_COUNT_OFFSET) then N
      else rd32 unit (YAFFS2_CHUNK_SIZE + PT_BYTE_COUNT_OFFSET))
        = min N (yaffs2_byte_count unit) := by
    unfold yaffs2_byte_count
    split <;> omega
  rw [hm]
  rw [if_neg (by simp only [YAFFS2_CHUNK_SIZE, YAFFS2_SPARE_SIZE]; omega)]

/-- The file loop over the units `us`, which supply fewer than `N` bytes, and the unit
`last`, which completes the `N` bytes. -/
theorem yaffs2_file_loop_units (last rest : List u8) (hll : last.length = 2112)
    (hbl : yaffs2_byte_count last ≤ 2112) :
    ∀ (us : List (List u8)) (fuel N : Nat) (s : yaffs2_state),
      (∀ u ∈ us, u.length = 2112) → (∀ u ∈ us, yaffs2_byte_count u ≤ 2112) →
      s.img = us.flatten ++ (last ++ rest) → us.length + 1 ≤ fuel →
      (us.map yaffs2_byte_count).sum < N →
      N ≤ (us.map yaffs2_byte_count).sum + yaffs2_byte_count last →
      yaffs2_file_loop fuel N s
        = some (true, { s with
            data := last, img := rest,
            calls := s.calls
              ++ us.map (fun u => fs_call.write (u.take (yaffs2_byte_count u)))
              ++ [fs_call.write (last.take (N - (us.map yaffs2_byte_count).sum))] }) := by
  intro us
  induction us with
  | nil =>
    intro fuel N s _ _ hi hf hlt hge
    obtain ⟨f, rfl⟩ : ∃ f, fuel = f + 1 := ⟨fuel - 1, by simp at hf; omega⟩
    simp only [List.map_nil, List.sum_nil, zero_add, List.flatten_nil, List.nil_append,
      List.append_nil, Nat.sub_zero] at hi hlt hge ⊢
    have hm : min N (yaffs2_byte_count last) = N := by omega
    rw [yaffs2_file_loop_unit f N s last rest hll hi hlt (by omega), hm, Nat.sub_self,
      yaffs2_file_loop_done]
  | cons u us ih =>
    intro fuel N s hl hb hi hf hlt hge
    obtain ⟨f, rfl⟩ : ∃ f, fuel = f + 1 := ⟨fuel - 1, by simp at hf; omega⟩
    simp only [List.map_cons, List.sum_cons, List.flatten_cons, List.append_assoc,
      List.length_cons] at hi hlt hge hf ⊢
    have hlu : u.length = 2112 := hl u (List.mem_cons_self _ _)
    have hbu : yaffs2_byte_count u ≤ 2112 := hb u (List.mem_cons_self _ _)
    have hm : min N (yaffs2_byte_count u) = yaffs2_byte_count u := by omega
    rw [yaffs2_file_loop_unit f N s u _ hlu hi (by omega) (by omega), hm,
      ih f (N - yaffs2_byte_count u) _ (fun v hv => hl v (List.mem_cons_of_mem _ hv))
        (fun v hv => hb v (List.mem_cons_of_mem _ hv)) rfl (by omega) (by omega) (by omega)]
    simp only [List.append_assoc, List.singleton_append, List.cons_append, Nat.sub_sub,
      List.nil_append]

theorem yaffs2_units_length (us : List (List u8)) (hl : ∀ u ∈ us, u.length = 2112) :
    us.flatten.length = 2112 * us.length := by
  induction us with
  | nil => rfl
  | cons u us ih =>
    rw [List.flatten_cons, List.length_append, hl u (List.mem_cons_self _ _),
      ih (fun v hv => hl v (List.mem_cons_of_mem _ hv)), List.length_cons]
    omega

theorem yaffs2_prefixes_length (us : List (List u8)) (hl : ∀ u ∈ us, u.length = 2112)
    (hb : ∀ u ∈ us, yaffs2_byte_count u ≤ 2048) :
    ((us.map (fun u => (u.take YAFFS2_CHUNK_SIZE).take (yaffs2_byte_count u))).flatten).length
      = (us.map yaffs2_byte_count).sum := by
  induction us with
  | nil => rfl
  | cons u us ih =>
    have h1 := hl u (List.mem_cons_self _ _)
    have h2 := hb u (List.mem_cons_self _ _)
    rw [List.map_cons, List.flatten_cons, List.length_append,
      ih (fun v hv => hl v (List.mem_cons_of_mem _ hv))
        (fun v hv => hb v (List.mem_cons_of_mem _ hv)), List.map_cons, List.sum_cons,
      List.length_take, List.length_take, h1]
    simp only [YAFFS2_CHUNK_SIZE]
    omega

theorem yaffs2_payload_take (u : List u8) (n : Nat) (h : n ≤ 2048) :
    (u.take YAFFS2_CHUNK_SIZE).take n = u.take n := by
  rw [List.take_take]
  congr 1
  simp only [YAFFS2_CHUNK_SIZE]
  omega

/-- C26: when `yaffs2_process_chunk` meets the header of a file of `N` bytes (with a
parent that has a path and an object id within the table) and the stream goes on with
complete units `us` and `last` whose byte-counts do not exceed the 2048 bytes of payload,
the units `us` supplying fewer than `N` bytes and `last` completing them, then the
function creates the file, writes for every unit of `us` the first byte-count bytes of
its payload and for `last` the first bytes of its payload that were still missing,
closes the file and sets owner, mode and times; the bytes written are `N` in all, and
the stream is left right behind `last`. -/
theorem yaffs2_file_data_replay (s : yaffs2_state) (parent : List u8)
    (us : List (List u8)) (last rest : List u8)
    (hs : rd32 s.data (YAFFS2_CHUNK_SIZE + PT_BYTE_COUNT_OFFSET) = 65535)
    (ht : rd32 (s.data.take OH_SIZE) 0 = YAFFS_OBJECT_TYPE_FILE)
    (hp : obj_list_get s.obj_list (to_int32 (rd32 (s.data.take OH_SIZE) OH_PARENT_OFFSET))
      = some (some parent))
    (hid : rd32 s.data (YAFFS2_CHUNK_SIZE + PT_OBJECT_ID_OFFSET) < YAFFS2_MAX_OBJECTS)
    (hl : ∀ u ∈ us ++ [last], u.length = YAFFS2_CHUNK_SIZE + YAFFS2_SPARE_SIZE)
    (hb : ∀ u ∈ us ++ [last], yaffs2_byte_count u ≤ YAFFS2_CHUNK_SIZE)
    (hi : s.img = us.flatten ++ (last ++ rest))
    (hlt : (us.map yaffs2_byte_count).sum < rd32 (s.data.take OH_SIZE) (OH_MODE_OFFSET + 24))
    (hge : rd32 (s.data.take OH_SIZE) (OH_MODE_OFFSET + 24)
      ≤ (us.map yaffs2_byte_count).sum + yaffs2_byte_count last) :
    yaffs2_process_chunk s
      = some
          { data := last,
            obj_list := (rd32 s.data (YAFFS2_CHUNK_SIZE + PT_OBJECT_ID_OFFSET),
              parent ++ [47] ++ cstr ((s.data.take OH_SIZE).drop OH_NAME_OFFSET)) :: s.obj_list,
            img := rest,
            callbacks := s.callbacks,
            calls := s.calls
              ++ [fs_call.creat
                    (parent ++ [47] ++ cstr ((s.data.take OH_SIZE).drop OH_NAME_OFFSET))
                    (rd32 (s.data.take OH_SIZE) OH_MODE_OFFSET)]
              ++ us.map (fun u =>
                    fs_call.write ((u.take YAFFS2_CHUNK_SIZE).take (yaffs2_byte_count u)))
              ++ [fs_call.write ((last.take YAFFS2_CHUNK_SIZE).take
                    (rd32 (s.data.take OH_SIZE) (OH_MODE_OFFSET + 24)
                      - (us.map yaffs2_byte_count).sum))]
              ++ [fs_call.close,
                  fs_call.lchown
                    (parent ++ [47] ++ cstr ((s.data.take OH_SIZE).drop OH_NAME_OFFSET))
                    (rd32 (s.data.take OH_SIZE) (OH_MODE_OFFSET + 4))
                    (rd32 (s.data.take OH_SIZE) (OH_MODE_OFFSET + 8)),
                  fs_call.chmod
                    (parent ++ [47] ++ cstr ((s.data.take OH_SIZE).drop OH_NAME_OFFSET))
                    (rd32 (s.data.take OH_SIZE) OH_MODE_OFFSET),
                  fs_call.utimes
                    (parent ++ [47] ++ cstr ((s.data.take OH_SIZE).drop OH_NAME_OFFSET))
                    (rd32 (s.data.take OH_SIZE) (OH_MODE_OFFSET + 12))
                    (rd32 (s.data.take OH_SIZE) (OH_MODE_OFFSET + 16))],
            msgs := s.msgs }
    ∧ ((us.map (fun u => (u.take YAFFS2_CHUNK_SIZE).take (yaffs2_byte_count u))).flatten
        ++ (last.take YAFFS2_CHUNK_SIZE).take
            (rd32 (s.data.take OH_SIZE) (OH_MODE_OFFSET + 24)
              - (us.map yaffs2_byte_count).sum)).length
      = rd32 (s.data.take OH_SIZE) (OH_MODE_OFFSET + 24) := by
  have hlu : ∀ u ∈ us, u.length = 2112 := fun u hu => hl u (List.mem_append_left _ hu)
  have hbu : ∀ u ∈ us, yaffs2_byte_count u ≤ 2048 := fun u hu => hb u (List.mem_append_left _ hu)
  have hll : last.length = 2112 := hl last (by simp)
  have hbl : yaffs2_byte_count last ≤ 2048 := hb last (by simp)
  generalize hN : rd32 (s.data.take OH_SIZE) (OH_MODE_OFFSET + 24) = N at hlt hge ⊢
  have hmap : us.map (fun u => fs_call.write ((u.take YAFFS2_CHUNK_SIZE).take (yaffs2_byte_count u)))
      = us.map (fun u => fs_call.write (u.take (yaffs2_byte_count u))) := by
    apply List.map_congr_left
    intro u hu
    rw [yaffs2_payload_take u _ (hbu u hu)]
  constructor
  · rw [hmap, yaffs2_payload_take last _ (by omega)]
    unfold yaffs2_process_chunk
    rw [if_pos hs]
    simp only
    rw [hp]
    simp only
    rw [if_neg (by omega), if_pos ht, hN]
    have hloop := fun (ol : List (Nat × List u8)) (cl : List fs_call) =>
      yaffs2_file_loop_units last rest hll (by omega) us (s.img.length + 1) N
        { s with obj_list := ol, calls := cl } hlu
        (fun u hu => by have := hbu u hu; omega) hi
        (by rw [hi, List.length_append, yaffs2_units_length us hlu]; omega) hlt hge
    rw [hloop]
    simp only [ht, YAFFS_OBJECT_TYPE_FILE, YAFFS_OBJECT_TYPE_SYMLINK, ne_eq,
      (by decide : ¬ (1 = 2)), not_false_eq_true, if_true, List.append_assoc,
      List.singleton_append, List.cons_append, List.nil_append]
  · rw [List.length_append, yaffs2_prefixes_length us hlu hbu, List.length_take,
      List.length_take, hll]
    simp only [YAFFS2_CHUNK_SIZE]
    omega

theorem yaffs2_file_data_replay_witness :
    ∃ s1, yaffs2_process_chunk yaffs2_file_state = some s1
      ∧ s1.calls.length = 7 ∧ s1.img = [] :=
  ⟨_, (yaffs2_file_data_replay yaffs2_file_state [47, 120] [yaffs2_full_unit]
        yaffs2_full_unit [] (by decide!) (by decide!) (by decide!) (by decide!)
        (by decide!) (by decide!) (by decide!) (by decide!) (by decide!)).1, rfl, rfl⟩

/-! ## The seek and the counter of the skip chunk helper -/

/-- The output handle after `simg_process_skip_chunk` is the one the seek loop leaves. -/
theorem simg_process_skip_chunk_out (s : simg_io) (blocks blk_sz : Nat) (r : Int × simg_io)
    (h : simg_process_skip_chunk s blocks blk_sz = some r) :
    r.2.out = (simg_skip_seek (blocks * blk_sz) (blocks * blk_sz) 0 s.out).2 := by
  unfold simg_process_skip_chunk at h
  simp only at h
  split at h
  · cases h
  · cases h
    rfl

/-- The seek loop for a length of at most `0x80000000`: a single call of `fseek`. -/
theorem simg_skip_seek_single (fuel len skip_chunk : Nat) (out : out_dev) (h0 : 0 < len)
    (hl : len ≤ 2147483648) (hf : 0 < fuel) :
    simg_skip_seek fuel len skip_chunk out = (len, out_fseek_cur out (to_int32 len)) := by
  obtain ⟨f, rfl⟩ : ∃ f, fuel = f + 1 := ⟨fuel - 1, by omega⟩
  unfold simg_skip_seek
  rw [if_neg (by omega)]
  simp only
  rw [if_neg (by omega), Nat.sub_self]
  cases f with
  | zero => rfl
  | succ g =>
    unfold simg_skip_seek
    rw [if_pos rfl]

/-- The CRC loop of `simg_process_skip_chunk` while the counter holds `t` steps of the
length `sz`. -/
theorem simg_skip_crc_steps (blk_sz sz : Nat) (hs : sz ≤ blk_sz) (hs0 : 0 < sz) :
    ∀ (t fuel len crc : Nat), t * sz ≤ len → len < 18446744073709551616 →
      simg_skip_crc blk_sz (fuel + t) len sz crc
        = simg_skip_crc blk_sz fuel (len - t * sz) sz
            ((fun c => sparse_crc32 c ((List.replicate blk_sz 0).take sz))^[t] crc) := by
  intro t
  induction t with
  | zero =>
    intro fuel len crc _ _
    simp only [Nat.zero_mul, Nat.sub_zero, Nat.add_zero, Function.iterate_zero, id_eq]
  | succ t ih =>
    intro fuel len crc hle hlt
    have e : (t + 1) * sz = t * sz + sz := by rw [Nat.add_mul, Nat.one_mul]
    rw [e] at hle
    rw [← Nat.add_assoc]
    conv_lhs => unfold simg_skip_crc
    rw [if_neg (by omega)]
    simp only
    rw [if_neg (by omega)]
    have hm : (len + 18446744073709551616 - sz) % 18446744073709551616 = len - sz := by
      omega
    rw [hm, ih fuel (len - sz) _ (by omega) (by omega), Function.iterate_succ_apply, e]
    congr 1
    omega

/-- One step of the CRC loop of `simg_process_skip_chunk`. -/
theorem simg_skip_crc_step (blk_sz sz fuel len crc : Nat) (hs : sz ≤ blk_sz) (h0 : len ≠ 0) :
    simg_skip_crc blk_sz (fuel + 1) len sz crc
      = simg_skip_crc blk_sz fuel
          ((len + 18446744073709551616 - sz) % 18446744073709551616) sz
          (sparse_crc32 crc ((List.replicate blk_sz 0).take sz)) := by
  conv_lhs => unfold simg_skip_crc
  rw [if_neg h0]
  simp only
  rw [if_neg (by omega)]

/-- C28 (the code at the failing inputs): for `chunk_sz = 524288` and `blk_sz = 4096`, a
skip of `0x80000000` bytes, the function returns after one call of `fseek` whose `long`
offset is `-2147483648`, so an output position below `0x80000000` stays where it was
instead of advancing; for `chunk_sz = 715828` and `blk_sz = 3000` the seek loop leaves
352 in `skip_chunk`, and the CRC loop, which then counts down from 2147484000 in steps of
352, goes from 288 to `2 ^ 64 - 64`. -/
theorem simg_skip_chunk_seek_and_counter :
    (∀ s : simg_io, ∃ r, simg_process_skip_chunk s 524288 4096 = some r
      ∧ r.1 = 524288
      ∧ r.2.out = out_fseek_cur s.out (-2147483648)
      ∧ (s.out.pos < 2147483648 → r.2.out.pos = s.out.pos))
    ∧ (∀ out : out_dev, (simg_skip_seek (715828 * 3000) (715828 * 3000) 0 out).1 = 352)
    ∧ (∀ crc : Nat, ∃ crc1 crc2,
        simg_skip_crc 3000 18446744073709551617 (715828 * 3000) 352 crc
          = simg_skip_crc 3000 18446744073703450811 288 352 crc1
        ∧ simg_skip_crc 3000 18446744073703450811 288 352 crc1
          = simg_skip_crc 3000 18446744073703450810 18446744073709551552 352 crc2) := by
  refine ⟨?_, ?_, ?_⟩
  · intro s
    obtain ⟨r, hr, h1, _⟩ := simg_process_skip_chunk_returns s 524288 4096 (by norm_num)
      (by norm_num)
    have ho := simg_process_skip_chunk_out s 524288 4096 r hr
    rw [simg_skip_seek_single _ _ _ _ (by norm_num) (by norm_num) (by norm_num)] at ho
    have ht : to_int32 (524288 * 4096) = -2147483648 := by
      norm_num [to_int32]
    rw [ht] at ho
    refine ⟨r, hr, ?_, ho, ?_⟩
    · rw [h1]; norm_num [to_int32]
    · intro hp
      rw [ho]
      unfold out_fseek_cur
      rw [if_pos (by omega)]
  · intro out
    rw [simg_skip_seek_last _ _ _ _ (le_refl _)]
    norm_num
  · intro crc
    have h1 := simg_skip_crc_steps 3000 352 (by norm_num) (by norm_num) 6100806
      18446744073703450811 (715828 * 3000) crc (by norm_num) (by norm_num)
    have h2 := fun c => simg_skip_crc_step 3000 352 18446744073703450810 288 c (by norm_num)
      (by norm_num)
    have e1 : 715828 * 3000 - 6100806 * 352 = 288 := by norm_num
    have e2 : (288 + 18446744073709551616 - 352) % 18446744073709551616
        = 18446744073709551552 := by norm_num
    rw [e1] at h1
    rw [e2] at h2
    exact ⟨_, _, h1, h2 _⟩

/-! ## Claims on the device wipe -/

theorem cmd_wipe_device_loop_stalls :
    ∀ (fuel index : Nat) (vols : List wipe_volume_env) (failed : Nat)
      (events : List wipe_event),
      (∃ v ∈ vols, v.wipe = true ∧ v.mount.1 ≠ 0) →
      cmd_wipe_device_loop fuel index vols failed events = none := by
  intro fuel
  induction fuel with
  | zero => intro index vols failed events _; rfl
  | succ fuel ih =>
    intro index vols failed events h
    cases vols with
    | nil =>
      obtain ⟨v, hv, _⟩ := h
      cases hv
    | cons v rest =>
      unfold cmd_wipe_device_loop
      by_cases hw : v.wipe = true
      · rw [if_pos hw]
        by_cases hm : v.mount.1 ≠ 0
        · rw [if_pos hm]
          exact ih _ _ _ _ h
        · rw [if_neg hm]
          apply ih
          obtain ⟨w, hwm, h1, h2⟩ := h
          rcases List.mem_cons.mp hwm with rfl | hr
          · exact absurd h2 hm
          · exact ⟨w, hr, h1, h2⟩
      · rw [if_neg hw]
        apply ih
        obtain ⟨w, hwm, h1, h2⟩ := h
        rcases List.mem_cons.mp hwm with rfl | hr
        · exact absurd h1 hw
        · exact ⟨w, hr, h1, h2⟩

theorem cmd_wipe_device_loop_ends :
    ∀ (vols : List wipe_volume_env) (fuel index failed : Nat) (events : List wipe_event),
      (∀ v ∈ vols, v.wipe = true → v.mount.1 = 0) → vols.length + 1 ≤ fuel →
      ∃ r, cmd_wipe_device_loop fuel index vols failed events = some r := by
  intro vols
  induction vols with
  | nil =>
    intro fuel index failed events _ hf
    obtain ⟨f, rfl⟩ : ∃ f, fuel = f + 1 := ⟨fuel - 1, by simp at hf; omega⟩
    exact ⟨_, rfl⟩
  | cons v rest ih =>
    intro fuel index failed events h hf
    obtain ⟨f, rfl⟩ : ∃ f, fuel = f + 1 := ⟨fuel - 1, by simp at hf; omega⟩
    simp only [List.length_cons] at hf
    have hrest : ∀ w ∈ rest, w.wipe = true → w.mount.1 = 0 :=
      fun w hw => h w (List.mem_cons_of_mem _ hw)
    unfold cmd_wipe_device_loop
    by_cases hw : v.wipe = true
    · rw [if_pos hw, if_neg (by rw [h v (List.mem_cons_self _ _) hw]; simp)]
      exact ih _ _ _ _ hrest (by omega)
    · rw [if_neg hw]
      exact ih _ _ _ _ hrest (by omega)

/-- C21 (the code): `cmd_wipe_device` returns exactly when no volume flagged for the
wipe fails to mount; with such a volume in the table the loop has not ended after any
number of turns, as for the table `wipe_mount_fails`, where the loop never gets to the
second volume; a failing `wipe_volume` is logged and the loop goes on, as for the table
`wipe_format_fails`. -/
theorem cmd_wipe_device_returns_iff (env : wipe_env) :
    ((∃ fuel r, cmd_wipe_device fuel env = some r)
      ↔ ∀ v ∈ env.volumes, v.wipe = true → v.mount.1 = 0)
    ∧ (∀ fuel, cmd_wipe_device fuel wipe_mount_fails = none)
    ∧ cmd_wipe_device 4 wipe_format_fails
      = some [wipe_event.ui_clear_text, wipe_event.ui_show_indeterminate_progress,
          wipe_event.print_wiping, wipe_event.mount_volume 1, wipe_event.wipe_volume 1,
          wipe_event.warn_unable_to_wipe 1 5, wipe_event.unmount_volume 1,
          wipe_event.mount_volume 2, wipe_event.wipe_volume 2, wipe_event.mount_sdcard,
          wipe_event.unlink_android_secure, wipe_event.unlink_android,
          wipe_event.unmount_sdcard, wipe_event.print_partially_wiped,
          wipe_event.ui_reset_progress] := by
  have hstall : ∀ (e : wipe_env), (∃ v ∈ e.volumes, v.wipe = true ∧ v.mount.1 ≠ 0) →
      ∀ fuel, cmd_wipe_device fuel e = none := by
    intro e h fuel
    unfold cmd_wipe_device
    rw [cmd_wipe_device_loop_stalls fuel 0 e.volumes 0 _ h]
  refine ⟨⟨?_, ?_⟩, ?_, by decide⟩
  · rintro ⟨fuel, r, hr⟩ v hv hw
    by_contra hm
    rw [hstall env ⟨v, hv, hw, hm⟩ fuel] at hr
    cases hr
  · intro h
    obtain ⟨r, hr⟩ := cmd_wipe_device_loop_ends env.volumes (env.volumes.length + 1) 0 0
      [wipe_event.ui_clear_text, wipe_event.ui_show_indeterminate_progress,
       wipe_event.print_wiping] h (le_refl _)
    refine ⟨env.volumes.length + 1, ?_⟩
    unfold cmd_wipe_device
    rw [hr]
    exact ⟨_, rfl⟩
  · exact hstall wipe_mount_fails ⟨_, List.mem_cons_self _ _, rfl, by decide⟩

/-! ## Claims on the device backup -/

theorem device_backup_first_pass_events :
    ∀ (vols : List device_backup_volume) (index destvol : Nat)
      (events : List device_backup_event),
      (∀ e ∈ events, first_pass_event e = true) →
      ∀ e ∈ (device_backup_first_pass index vols destvol events).2,
        first_pass_event e = true := by
  intro vols
  induction vols with
  | nil => intro index destvol events h; exact h
  | cons v rest ih =>
    intro index destvol events h
    unfold device_backup_first_pass
    by_cases hd : v.dump = true
    · rw [if_pos hd]
      by_cases hi : index = destvol
      · rw [if_pos hi]
        intro e he
        rcases List.mem_append.mp he with h1 | h1
        · exact h e h1
        · rw [List.mem_singleton] at h1
          subst h1
          rfl
      · rw [if_neg hi]
        by_cases hs : volume_stats v.mount_first v.statfs_first ≠ 0
        · rw [if_pos hs]
          intro e he
          rcases List.mem_append.mp he with h1 | h1
          · exact h e h1
          · simp only [List.mem_cons, List.mem_singleton, List.not_mem_nil, or_false] at h1
            rcases h1 with h1 | h1 <;> (subst h1; rfl)
        · rw [if_neg hs]
          apply ih
          intro e he
          rcases List.mem_append.mp he with h1 | h1
          · exact h e h1
          · rw [List.mem_singleton] at h1
            subst h1
            rfl
    · rw [if_neg hd]
      exact ih _ _ _ h

/-- A first pass that is left by `return` ends with the log of an error. -/
theorem device_backup_first_pass_error :
    ∀ (vols : List device_backup_volume) (index destvol : Nat)
      (events : List device_backup_event),
      (device_backup_first_pass index vols destvol events).1 = false →
      ∃ pre e, (device_backup_first_pass index vols destvol events).2 = pre ++ [e]
        ∧ first_pass_error e = true := by
  intro vols
  induction vols with
  | nil => intro index destvol events h; cases h
  | cons v rest ih =>
    intro index destvol events h
    unfold device_backup_first_pass at h ⊢
    by_cases hd : v.dump = true
    · rw [if_pos hd] at h ⊢
      by_cases hi : index = destvol
      · rw [if_pos hi]
        exact ⟨_, _, rfl, rfl⟩
      · rw [if_neg hi] at h ⊢
        by_cases hs : volume_stats v.mount_first v.statfs_first ≠ 0
        · rw [if_pos hs]
          exact ⟨events ++ [device_backup_event.volume_stats index],
            device_backup_event.log_cannot_get_stats index,
            by simp only [List.append_assoc, List.singleton_append], rfl⟩
        · rw [if_neg hs] at h ⊢
          exact ih _ _ _ h
    · rw [if_neg hd] at h ⊢
      exact ih _ _ _ h

/-- The first pass is left by `return` when the destination volume is flagged for the
backup. -/
theorem device_backup_first_pass_dest :
    ∀ (vols : List device_backup_volume) (index destvol : Nat)
      (events : List device_backup_event) (v : device_backup_volume),
      index ≤ destvol → vols[destvol - index]? = some v → v.dump = true →
      (device_backup_first_pass index vols destvol events).1 = false := by
  intro vols
  induction vols with
  | nil => intro index destvol events v _ hv _; cases hv
  | cons w rest ih =>
    intro index destvol events v hle hv hd
    unfold device_backup_first_pass
    by_cases hi : index = destvol
    · subst hi
      rw [Nat.sub_self] at hv
      simp only [List.getElem?_cons_zero, Option.some.injEq] at hv
      subst hv
      rw [if_pos hd, if_pos rfl]
    · have hlt : index < destvol := by omega
      have hv1 : rest[destvol - (index + 1)]? = some v := by
        have e : destvol - index = (destvol - (index + 1)) + 1 := by omega
        rw [e, List.getElem?_cons_succ] at hv
        exact hv
      by_cases hw : w.dump = true
      · rw [if_pos hw, if_neg hi]
        by_cases hs : volume_stats w.mount_first w.statfs_first ≠ 0
        · rw [if_pos hs]
        · rw [if_neg hs]
          exact ih _ _ _ v (by omega) hv1 hd
      · rw [if_neg hw]
        exact ih _ _ _ v (by omega) hv1 hd

/-- The first pass is left by `return` when the statistics of a volume flagged for the
backup cannot be read. -/
theorem device_backup_first_pass_stats :
    ∀ (vols : List device_backup_volume) (index destvol : Nat)
      (events : List device_backup_event),
      (∃ v ∈ vols, v.dump = true ∧ volume_stats v.mount_first v.statfs_first ≠ 0) →
      (device_backup_first_pass index vols destvol events).1 = false := by
  intro vols
  induction vols with
  | nil =>
    intro index destvol events h
    obtain ⟨v, hv, _⟩ := h
    cases hv
  | cons w rest ih =>
    intro index destvol events h
    unfold device_backup_first_pass
    by_cases hw : w.dump = true
    · rw [if_pos hw]
      by_cases hi : index = destvol
      · rw [if_pos hi]
      · rw [if_neg hi]
        by_cases hs : volume_stats w.mount_first w.statfs_first ≠ 0
        · rw [if_pos hs]
        · rw [if_neg hs]
          apply ih
          obtain ⟨v, hv, h1, h2⟩ := h
          rcases List.mem_cons.mp hv with rfl | hr
          · exact absurd h2 hs
          · exact ⟨v, hr, h1, h2⟩
    · rw [if_neg hw]
      apply ih
      obtain ⟨v, hv, h1, h2⟩ := h
      rcases List.mem_cons.mp hv with rfl | hr
      · exact absurd h1 hw
      · exact ⟨v, hr, h1, h2⟩

/-- When the first pass is left by `return`, `cmd_backup_device` has taken only steps
of the first pass, and the last of them is the log of an error. -/
theorem cmd_backup_device_rejected (env : device_backup_env)
    (h : ∀ d, env.destvol = some d →
      (device_backup_first_pass 0 env.volumes d [device_backup_event.ui_clear_text]).1 = false) :
    (∀ e ∈ cmd_backup_device env, first_pass_event e = true)
    ∧ ∃ pre e, cmd_backup_device env = pre ++ [e] ∧ first_pass_error e = true := by
  unfold cmd_backup_device
  simp only
  by_cases hp : env.path_result ≠ 0
  · rw [if_pos hp]
    refine ⟨?_, _, _, rfl, rfl⟩
    intro e he
    simp only [List.cons_append, List.nil_append, List.mem_cons, List.mem_singleton,
      List.not_mem_nil, or_false] at he
    rcases he with he | he <;> (subst he; rfl)
  · rw [if_neg hp]
    cases hd : env.destvol with
    | none =>
      simp only
      refine ⟨?_, _, _, rfl, rfl⟩
      intro e he
      simp only [List.cons_append, List.nil_append, List.mem_cons, List.mem_singleton,
        List.not_mem_nil, or_false] at he
      rcases he with he | he <;> (subst he; rfl)
    | some d =>
      simp only
      rw [if_pos (h d hd)]
      refine ⟨?_, device_backup_first_pass_error env.volumes 0 d _ (h d hd)⟩
      exact device_backup_first_pass_events env.volumes 0 d _
        (fun e he => by
          rw [List.mem_singleton] at he
          subst he
          rfl)

/-- C23: when the volume that `get_volume_for_path` finds for the destination is flagged
for the backup, `cmd_backup_device` returns before its first pass is over: its last step
is the log of an error, it does not mount the destination, creates no destination
folder, backs up no volume and prints no final line. -/
theorem cmd_backup_device_rejects_source_as_dest (env : device_backup_env) (d : Nat)
    (v : device_backup_volume) (hd : env.destvol = some d) (hv : env.volumes[d]? = some v)
    (hdump : v.dump = true) :
    (∃ pre e, cmd_backup_device env = pre ++ [e] ∧ first_pass_error e = true)
    ∧ device_backup_event.mount_dest ∉ cmd_backup_device env
    ∧ device_backup_event.create_folder ∉ cmd_backup_device env
    ∧ (∀ i, device_backup_event.backup_yaffs2_ui i ∉ cmd_backup_device env)
    ∧ device_backup_event.print_backed_up_successfully ∉ cmd_backup_device env := by
  have hrej := cmd_backup_device_rejected env (fun d1 hd1 => by
    rw [hd] at hd1
    cases hd1
    exact device_backup_first_pass_dest env.volumes 0 d _ v (Nat.zero_le _) hv hdump)
  refine ⟨hrej.2, ?_, ?_, ?_, ?_⟩
  · intro hm
    have := hrej.1 _ hm
    cases this
  · intro hm
    have := hrej.1 _ hm
    cases this
  · intro i hm
    have := hrej.1 _ hm
    cases this
  · intro hm
    have := hrej.1 _ hm
    cases this

theorem cmd_backup_device_rejects_source_as_dest_witness :
    (∃ pre e, cmd_backup_device device_backup_dest_is_source = pre ++ [e]
        ∧ first_pass_error e = true)
    ∧ device_backup_event.mount_dest ∉ cmd_backup_device device_backup_dest_is_source
    ∧ device_backup_event.create_folder ∉ cmd_backup_device device_backup_dest_is_source
    ∧ (∀ i, device_backup_event.backup_yaffs2_ui i
        ∉ cmd_backup_device device_backup_dest_is_source)
    ∧ device_backup_event.print_backed_up_successfully
        ∉ cmd_backup_device device_backup_dest_is_source :=
  cmd_backup_device_rejects_source_as_dest device_backup_dest_is_source 1 device_backup_good
    rfl rfl rfl

theorem device_backup_volume_steps_backup (index k : Nat) (v : device_backup_volume) :
    device_backup_event.backup_yaffs2_ui k ∈ device_backup_volume_steps index v
      ↔ k = index ∧ v.dump = true ∧ v.mount_backup.1 = 0 := by
  unfold device_backup_volume_steps
  by_cases hd : v.dump = true
  · rw [if_pos hd]
    by_cases hm : v.mount_backup.1 = 0
    · rw [if_pos hm]
      by_cases h1 : volume_stats v.mount_second v.statfs_second ≠ 0 <;>
      by_cases h2 : v.backup ≠ 0 <;>
      by_cases h3 : v.mount_backup.2 = true <;>
      simp [h1, h2, h3, hd, hm]
    · rw [if_neg hm]
      by_cases h1 : volume_stats v.mount_second v.statfs_second ≠ 0 <;>
      simp [h1, hd, hm]
  · rw [if_neg hd]
    simp [hd]

theorem device_backup_volume_steps_log (index : Nat) (v : device_backup_volume)
    (hd : v.dump = true) (hm : v.mount_backup.1 ≠ 0) :
    device_backup_event.log_cannot_mount index v.mount_backup.1
      ∈ device_backup_volume_steps index v := by
  unfold device_backup_volume_steps
  rw [if_pos hd, if_neg hm]
  simp

theorem device_backup_second_pass_mono :
    ∀ (vols : List device_backup_volume) (index : Nat) (events : List device_backup_event)
      (e : device_backup_event), e ∈ events →
      e ∈ device_backup_second_pass index vols events := by
  intro vols
  induction vols with
  | nil => intro index events e h; exact h
  | cons v rest ih =>
    intro index events e h
    unfold device_backup_second_pass
    exact ih _ _ e (List.mem_append_left _ h)

theorem device_backup_second_pass_backup :
    ∀ (vols : List device_backup_volume) (index : Nat) (events : List device_backup_event)
      (k : Nat),
      device_backup_event.backup_yaffs2_ui k ∈ device_backup_second_pass index vols events
        ↔ device_backup_event.backup_yaffs2_ui k ∈ events
          ∨ (index ≤ k ∧ ∃ v, vols[k - index]? = some v ∧ v.dump = true
              ∧ v.mount_backup.1 = 0) := by
  intro vols
  induction vols with
  | nil =>
    intro index events k
    simp [device_backup_second_pass]
  | cons w rest ih =>
    intro index events k
    unfold device_backup_second_pass
    rw [ih, List.mem_append, device_backup_volume_steps_backup]
    constructor
    · rintro ((h | ⟨rfl, h1, h2⟩) | ⟨hle, v, hv, h1, h2⟩)
      · exact Or.inl h
      · exact Or.inr ⟨le_refl _, w, by rw [Nat.sub_self, List.getElem?_cons_zero], h1, h2⟩
      · refine Or.inr ⟨by omega, v, ?_, h1, h2⟩
        have e : k - index = (k - (index + 1)) + 1 := by omega
        rw [e, List.getElem?_cons_succ]
        exact hv
    · rintro (h | ⟨hle, v, hv, h1, h2⟩)
      · exact Or.inl (Or.inl h)
      · by_cases hk : k = index
        · subst hk
          rw [Nat.sub_self] at hv
          simp only [List.getElem?_cons_zero, Option.some.injEq] at hv
          subst hv
          exact Or.inl (Or.inr ⟨rfl, h1, h2⟩)
        · refine Or.inr ⟨by omega, v, ?_, h1, h2⟩
          have e : k - index = (k - (index + 1)) + 1 := by omega
          rw [e, List.getElem?_cons_succ] at hv
          exact hv

theorem device_backup_second_pass_log :
    ∀ (vols : List device_backup_volume) (index : Nat) (events : List device_backup_event)
      (k : Nat) (v : device_backup_volume), index ≤ k → vols[k - index]? = some v →
      v.dump = true → v.mount_backup.1 ≠ 0 →
      device_backup_event.log_cannot_mount k v.mount_backup.1
        ∈ device_backup_second_pass index vols events := by
  intro vols
  induction vols with
  | nil => intro index events k v _ hv; cases hv
  | cons w rest ih =>
    intro index events k v hle hv hd hm
    unfold device_backup_second_pass
    by_cases hk : k = index
    · subst hk
      rw [Nat.sub_self] at hv
      simp only [List.getElem?_cons_zero, Option.some.injEq] at hv
      subst hv
      exact device_backup_second_pass_mono _ _ _ _
        (List.mem_append_right _ (device_backup_volume_steps_log k w hd hm))
    · have e : k - index = (k - (index + 1)) + 1 := by omega
      rw [e, List.getElem?_cons_succ] at hv
      exact ih _ _ k v (by omega) hv hd hm

/-- The first pass runs to its end when the destination volume is not flagged for the
backup and the statistics of every flagged volume can be read. -/
theorem device_backup_first_pass_ok :
    ∀ (vols : List device_backup_volume) (index destvol : Nat)
      (events : List device_backup_event),
      (∀ k v, vols[k]? = some v → v.dump = true →
        index + k ≠ destvol ∧ volume_stats v.mount_first v.statfs_first = 0) →
      (device_backup_first_pass index vols destvol events).1 = true := by
  intro vols
  induction vols with
  | nil => intro index destvol events _; rfl
  | cons w rest ih =>
    intro index destvol events h
    have hrest : ∀ k v, rest[k]? = some v → v.dump = true →
        index + 1 + k ≠ destvol ∧ volume_stats v.mount_first v.statfs_first = 0 := by
      intro k v hv hd
      have := h (k + 1) v (by rw [List.getElem?_cons_succ]; exact hv) hd
      exact ⟨by omega, this.2⟩
    unfold device_backup_first_pass
    by_cases hw : w.dump = true
    · have h0 := h 0 w (by rw [List.getElem?_cons_zero]) hw
      rw [if_pos hw, if_neg (by omega), if_neg (by rw [h0.2]; simp)]
      exact ih _ _ _ hrest
    · rw [if_neg hw]
      exact ih _ _ _ hrest

/-- C22 (the claim as stated fails): with the volumes A, B and C flagged for the backup
and every `mount_volume` on B failing, `cmd_backup_device` returns in its first pass,
after the `volume_stats` of B, and backs up nothing; when B can be mounted for the
statistics and only the mount before its backup fails, A and C are backed up and the
last line printed is the one of a successful backup. -/
theorem cmd_backup_device_unmountable_volume :
    cmd_backup_device device_backup_mount_fails
      = [device_backup_event.ui_clear_text, device_backup_event.volume_stats 0,
         device_backup_event.volume_stats 1, device_backup_event.log_cannot_get_stats 1]
    ∧ cmd_backup_device device_backup_late_mount_fails
      = [device_backup_event.ui_clear_text, device_backup_event.volume_stats 0,
         device_backup_event.volume_stats 1, device_backup_event.volume_stats 2,
         device_backup_event.mount_dest, device_backup_event.create_folder,
         device_backup_event.print_backing_up_device,
         device_backup_event.print_backing_up 0, device_backup_event.volume_stats 0,
         device_backup_event.ui_show_progress 0, device_backup_event.mount_volume 0,
         device_backup_event.backup_yaffs2_ui 0, device_backup_event.unmount_volume 0,
         device_backup_event.print_backing_up 1, device_backup_event.volume_stats 1,
         device_backup_event.ui_show_progress 1, device_backup_event.mount_volume 1,
         device_backup_event.log_cannot_mount 1 (-1),
         device_backup_event.print_backing_up 2, device_backup_event.volume_stats 2,
         device_backup_event.ui_show_progress 2, device_backup_event.mount_volume 2,
         device_backup_event.backup_yaffs2_ui 2, device_backup_event.unmount_volume 2,
         device_backup_event.unmount_dest, device_backup_event.ui_reset_progress,
         device_backup_event.print_backed_up_successfully] := by
  decide

/-- C22 (amended): let the volume at position `b` be flagged for the backup.  If the
`mount_volume` inside its `volume_stats` of the first pass fails, `cmd_backup_device`
ends with the log of an error, backs up no volume and prints no final line.  If the
first pass runs to its end, the destination is mounted and its folder created, and the
`mount_volume` before the backup of that volume fails, the failure is logged, the
volume is not backed up, and every other flagged volume that can be mounted is backed
up. -/
theorem cmd_backup_device_mount_failure (env : device_backup_env) (b : Nat)
    (vb : device_backup_volume) (hb : env.volumes[b]? = some vb) (hdump : vb.dump = true) :
    (vb.mount_first.1 ≠ 0 →
      (∃ pre e, cmd_backup_device env = pre ++ [e] ∧ first_pass_error e = true)
      ∧ (∀ i, device_backup_event.backup_yaffs2_ui i ∉ cmd_backup_device env)
      ∧ device_backup_event.print_backed_up_successfully ∉ cmd_backup_device env)
    ∧ (∀ d, env.path_result = 0 → env.destvol = some d →
        (∀ k v, env.volumes[k]? = some v → v.dump = true →
          k ≠ d ∧ volume_stats v.mount_first v.statfs_first = 0) →
        env.mount_dest.1 = 0 → env.create_folder = 0 → vb.mount_backup.1 ≠ 0 →
        device_backup_event.log_cannot_mount b vb.mount_backup.1 ∈ cmd_backup_device env
        ∧ device_backup_event.backup_yaffs2_ui b ∉ cmd_backup_device env
        ∧ ∀ i v, env.volumes[i]? = some v → v.dump = true → v.mount_backup.1 = 0 →
            device_backup_event.backup_yaffs2_ui i ∈ cmd_backup_device env) := by
  constructor
  · intro hm
    have hmem : vb ∈ env.volumes := List.getElem?_mem hb
    have hstats : volume_stats vb.mount_first vb.statfs_first ≠ 0 := by
      unfold volume_stats
      rw [if_pos hm]
      exact hm
    have hrej := cmd_backup_device_rejected env (fun d _ =>
      device_backup_first_pass_stats env.volumes 0 d _ ⟨vb, hmem, hdump, hstats⟩)
    refine ⟨hrej.2, ?_, ?_⟩
    · intro i hc
      have := hrej.1 _ hc
      cases this
    · intro hc
      have := hrej.1 _ hc
      cases this
  · intro d hp hd hok hmd hcf hmb
    have hfirst := device_backup_first_pass_ok env.volumes 0 d
      [device_backup_event.ui_clear_text]
      (fun k v hv hdv => by
        have := hok k v hv hdv
        exact ⟨by omega, this.2⟩)
    have hev := device_backup_first_pass_events env.volumes 0 d
      [device_backup_event.ui_clear_text]
      (fun e he => by
        rw [List.mem_singleton] at he
        subst he
        rfl)
    have hrun : cmd_backup_device env
        = device_backup_second_pass 0 env.volumes
            ((device_backup_first_pass 0 env.volumes d [device_backup_event.ui_clear_text]).2
              ++ [device_backup_event.mount_dest, device_backup_event.create_folder,
                  device_backup_event.print_backing_up_device])
          ++ (if env.mount_dest.2 then [device_backup_event.unmount_dest] else [])
          ++ [device_backup_event.ui_reset_progress,
              device_backup_event.print_backed_up_successfully] := by
      unfold cmd_backup_device
      simp only
      rw [if_neg (by rw [hp]; simp), hd]
      simp only
      rw [if_neg (by rw [hfirst]; simp), if_neg (by rw [hmd]; simp),
        if_neg (by rw [hcf]; simp)]
    have hback : ∀ k, device_backup_event.backup_yaffs2_ui k ∈ cmd_backup_device env
        ↔ ∃ v, env.volumes[k]? = some v ∧ v.dump = true ∧ v.mount_backup.1 = 0 := by
      intro k
      rw [hrun]
      simp only [List.mem_append, device_backup_second_pass_backup, Nat.sub_zero,
        Nat.zero_le, true_and]
      constructor
      · rintro ((((h | h) | h) | h) | h)
        · have := hev _ h
          cases this
        · simp at h
        · exact h
        · split at h <;> simp at h
        · simp at h
      · intro h
        exact Or.inl (Or.inl (Or.inr h))
    refine ⟨?_, ?_, ?_⟩
    · rw [hrun]
      apply List.mem_append_left
      apply List.mem_append_left
      exact device_backup_second_pass_log env.volumes 0 _ b vb (Nat.zero_le _) hb hdump hmb
    · intro hc
      obtain ⟨v, hv, _, hv0⟩ := (hback b).mp hc
      rw [hb] at hv
      cases hv
      exact hmb hv0
    · intro i v hv hdv hmv
      exact (hback i).mpr ⟨v, hv, hdv, hmv⟩

theorem cmd_backup_device_mount_failure_witness :
    ((∃ pre e, cmd_backup_device device_backup_mount_fails = pre ++ [e]
        ∧ first_pass_error e = true)
      ∧ (∀ i, device_backup_event.backup_yaffs2_ui i
          ∉ cmd_backup_device device_backup_mount_fails)
      ∧ device_backup_event.print_backed_up_successfully
          ∉ cmd_backup_device device_backup_mount_fails)
    ∧ (device_backup_event.log_cannot_mount 1 (-1)
          ∈ cmd_backup_device device_backup_late_mount_fails
      ∧ device_backup_event.backup_yaffs2_ui 1
          ∉ cmd_backup_device device_backup_late_mount_fails
      ∧ device_backup_event.backup_yaffs2_ui 0
          ∈ cmd_backup_device device_backup_late_mount_fails
      ∧ device_backup_event.backup_yaffs2_ui 2
          ∈ cmd_backup_device device_backup_late_mount_fails) := by
  refine ⟨(cmd_backup_device_mount_failure device_backup_mount_fails 1
    { device_backup_good with
        mount_first := (-1, false), mount_second := (-1, false), mount_backup := (-1, false) }
    rfl rfl).1 (by decide), ?_⟩
  have h := (cmd_backup_device_mount_failure device_backup_late_mount_fails 1
    { device_backup_good with mount_backup := (-1, false) } rfl rfl).2 3 rfl rfl
    (by
      intro k v hv hd
      rcases k with _ | _ | _ | _ | k
      · cases hv; decide
      · cases hv; decide
      · cases hv; decide
      · cases hv; cases hd
      · cases hv)
    rfl rfl (by decide)
  exact ⟨h.1, h.2.1, h.2.2 0 device_backup_good rfl rfl rfl,
    h.2.2 2 device_backup_good rfl rfl rfl⟩

/-! ## Claims on the volume backup -/

/-- What `mount_volume` gives: with the flag set the call has returned 0 and has mounted
a volume that was not mounted; with the flag 0 the volume is as before. -/
theorem mount_volume_cases (v : volume_state) :
    ((mount_volume v).2.1 ≠ 0 ∧ (mount_volume v).1 = 0 ∧ v.is_mounted = false
        ∧ v.ramdisk = false ∧ (mount_volume v).2.2 = { v with is_mounted := true })
    ∨ ((mount_volume v).2.1 = 0 ∧ (mount_volume v).2.2 = v) := by
  unfold mount_volume
  by_cases h1 : v.ramdisk = true
  · rw [if_pos h1]; exact Or.inr ⟨rfl, rfl⟩
  · rw [if_neg h1]
    by_cases h2 : v.scan_mount < 0
    · rw [if_pos h2]; exact Or.inr ⟨rfl, rfl⟩
    · rw [if_neg h2]
      by_cases h3 : v.is_mounted = true
      · rw [if_pos h3]; exact Or.inr ⟨rfl, rfl⟩
      · rw [if_neg h3]
        by_cases h4 : v.mount_result = 0
        · rw [if_pos h4]
          exact Or.inl ⟨by simp, rfl, by simpa using h3, by simpa using h1, rfl⟩
        · rw [if_neg h4]; exact Or.inr ⟨rfl, rfl⟩

/-- A successful `unmount_volume` undoes the `mount_volume` that mounted the volume. -/
theorem unmount_volume_undoes (v : volume_state) (h : (mount_volume v).2.1 ≠ 0)
    (hs : 0 ≤ v.scan_unmount) (hu : v.unmount_result = 0) :
    (unmount_volume (mount_volume v).2.2).2 = v := by
  rcases mount_volume_cases v with ⟨_, _, hm, hr, hst⟩ | ⟨h0, _⟩
  · rw [hst]
    have hs1 : ¬ (v.scan_unmount < 0) := not_lt.mpr hs
    obtain ⟨rd, im, sm, mr, su, ur⟩ := v
    simp only at hm hr hu hs1
    subst hm hr hu
    simp [unmount_volume, hs1]
  · exact absurd h0 h

/-- C24: `cmd_backup_volume` calls `unmount_volume` on the source exactly when it has
called `mount_volume` on it and that call set the flag `srcmounted`, and on the
destination exactly when its call of `mount_volume` on it set the flag `destmounted`,
whatever the other calls return; a volume on which the unmount succeeds is at the end as
it was at the start. -/
theorem cmd_backup_volume_restores_mounts (env : backup_volume_env) :
    (backup_volume_event.unmount_source ∈ (cmd_backup_volume env).events
      ↔ backup_volume_event.mount_source ∈ (cmd_backup_volume env).events
        ∧ (mount_volume env.srcvol).2.1 ≠ 0)
    ∧ (backup_volume_event.unmount_dest ∈ (cmd_backup_volume env).events
      ↔ backup_volume_event.mount_dest ∈ (cmd_backup_volume env).events
        ∧ (mount_volume env.destvol).2.1 ≠ 0)
    ∧ (0 ≤ env.srcvol.scan_unmount → env.srcvol.unmount_result = 0 →
        (cmd_backup_volume env).srcvol = env.srcvol)
    ∧ (0 ≤ env.destvol.scan_unmount → env.destvol.unmount_result = 0 →
        (cmd_backup_volume env).destvol = env.destvol) := by
  have hsrc := mount_volume_cases env.srcvol
  have hdst := mount_volume_cases env.destvol
  have hus := unmount_volume_undoes env.srcvol
  have hud := unmount_volume_undoes env.destvol
  unfold cmd_backup_volume
  simp only
  generalize mount_volume env.srcvol = ms at hsrc hus ⊢
  generalize mount_volume env.destvol = md at hdst hud ⊢
  by_cases hb : env.backup = 0
  all_goals (
    by_cases h1 : env.destvol_found = false
    · simp [h1]
    · by_cases h2 : env.same_volume = true
      · simp [hb, h1, h2]
      · by_cases h3 : md.1 ≠ 0
        · have hd0 : md.2.1 = 0 := by
            rcases hdst with ⟨_, h0, _⟩ | ⟨h0, _⟩
            · exact absurd h0 h3
            · exact h0
          have hd1 : md.2.2 = env.destvol := by
            rcases hdst with ⟨hn, _⟩ | ⟨_, h0⟩
            · exact absurd hd0 hn
            · exact h0
          simp [hb, h1, h2, h3, hd0, hd1]
        · by_cases h4 : env.create_path = 0
          · by_cases h5 : ms.1 = 0
            · by_cases h6 : ms.2.1 ≠ 0
              · by_cases h7 : md.2.1 ≠ 0
                · cases hm : env.method <;>
                    simp [hb, h1, h2, h3, h4, h5, h6, h7, hm] <;>
                    exact ⟨fun a b => hus h6 a b, fun a b => hud h7 a b⟩
                · have hd1 : md.2.2 = env.destvol := by
                    rcases hdst with ⟨hn, _⟩ | ⟨_, h0⟩
                    · exact absurd hn h7
                    · exact h0
                  cases hm : env.method <;>
                    simp [hb, h1, h2, h3, h4, h5, h6, h7, hm, hd1] <;>
                    exact fun a b => hus h6 a b
              · have hs1 : ms.2.2 = env.srcvol := by
                  rcases hsrc with ⟨hn, _⟩ | ⟨_, h0⟩
                  · exact absurd hn h6
                  · exact h0
                by_cases h7 : md.2.1 ≠ 0
                · cases hm : env.method <;>
                    simp [hb, h1, h2, h3, h4, h5, h6, h7, hm, hs1] <;>
                    exact fun a b => hud h7 a b
                · have hd1 : md.2.2 = env.destvol := by
                    rcases hdst with ⟨hn, _⟩ | ⟨_, h0⟩
                    · exact absurd hn h7
                    · exact h0
                  cases hm : env.method <;>
                    simp [hb, h1, h2, h3, h4, h5, h6, h7, hm, hs1, hd1]
            · have hs0 : ms.2.1 = 0 := by
                rcases hsrc with ⟨_, h0, _⟩ | ⟨h0, _⟩
                · exact absurd h0 h5
                · exact h0
              have hs1 : ms.2.2 = env.srcvol := by
                rcases hsrc with ⟨hn, _⟩ | ⟨_, h0⟩
                · exact absurd hs0 hn
                · exact h0
              by_cases h7 : md.2.1 ≠ 0
              · simp [hb, h1, h2, h3, h4, h5, h7, hs0, hs1]
                exact fun a b => hud h7 a b
              · have hd1 : md.2.2 = env.destvol := by
                  rcases hdst with ⟨hn, _⟩ | ⟨_, h0⟩
                  · exact absurd hn h7
                  · exact h0
                simp [hb, h1, h2, h3, h4, h5, h7, hs0, hs1, hd1]
          · by_cases h7 : md.2.1 ≠ 0
            · simp [hb, h1, h2, h3, h4, h7]
              exact fun a b => hud h7 a b
            · have hd1 : md.2.2 = env.destvol := by
                rcases hdst with ⟨hn, _⟩ | ⟨_, h0⟩
                · exact absurd hn h7
                · exact h0
              simp [hb, h1, h2, h3, h4, h7, hd1]
  )

theorem cmd_backup_volume_restores_mounts_witness :
    backup_volume_event.unmount_dest ∈ (cmd_backup_volume backup_volume_failing).events
    ∧ backup_volume_event.unmount_source ∉ (cmd_backup_volume backup_volume_failing).events
    ∧ (cmd_backup_volume backup_volume_failing).destvol = backup_volume_failing.destvol :=
  ⟨(cmd_backup_volume_restores_mounts backup_volume_failing).2.1.mpr ⟨by decide, by decide⟩,
   fun h => ((cmd_backup_volume_restores_mounts backup_volume_failing).1.mp h).2 (by decide),
   (cmd_backup_volume_restores_mounts backup_volume_failing).2.2.2 (by decide) rfl⟩

/-! ## Claims on the cursor of the encoder -/

theorem chunk_sz_sum_append (a b : List (chunk_header_t × List u8)) :
    chunk_sz_sum (a ++ b) = chunk_sz_sum a + chunk_sz_sum b := by
  simp only [chunk_sz_sum, List.map_append, List.sum_append]

theorem cursor_inv_open (info : fs_info) (gz : Bool) (h0 : 0 < info.block_size) :
    cursor_inv info (open_output_file info gz true) := by
  rw [open_output_file_sparse]
  refine ⟨rfl, rfl, Nat.zero_mod _, by simp only; omega, [], by simp, by simp, ?_, rfl⟩
  simp [chunk_sz_sum]

theorem cursor_inv_warns (info : fs_info) (out : output_file) (w : List ext4_warn)
    (h : cursor_inv info out) : cursor_inv info { out with warns := w } := h

theorem cursor_inv_skip (info : fs_info) (out : output_file) (n : Nat)
    (hal : n % info.block_size = 0) (hn : n / info.block_size < 4294967296)
    (hend : out.cur_out_ptr + n < info.len + info.block_size)
    (h : cursor_inv info out) : cursor_inv info (after_skip info out n) := by
  obtain ⟨hs, hfp, hcur, _, chunks, hfile, hwf, hsum, hcnt⟩ := h
  refine ⟨?_, ?_, ?_, ?_, chunks ++ [(skip_chunk_header info n, ([] : List u8))], ?_, ?_, ?_,
    ?_⟩
  · rw [after_skip]; exact hs
  · simp [after_skip, hfp, chunk_header_bytes_length]
  · simp only [after_skip]
    rw [Nat.add_mod, hcur, hal]
    simp
  · simp only [after_skip]; exact hend
  · simp only [after_skip, hfile, List.map_append, List.flatten_append, List.map_cons,
      List.map_nil, List.flatten_cons, List.flatten_nil, chunk_record, skip_chunk_header,
      List.append_nil, List.append_assoc]
  · intro c hc
    rw [List.mem_append] at hc
    rcases hc with hc | hc
    · exact hwf c hc
    · simp only [List.mem_singleton] at hc
      subst hc
      refine ⟨rfl, ?_, Or.inr ⟨rfl, rfl, rfl⟩⟩
      simp only [skip_chunk_header, u32_wrap]
      omega
  · simp only [after_skip]
    rw [chunk_sz_sum_append, Nat.mul_add, ← hsum]
    congr 1
    simp only [chunk_sz_sum, List.map_cons, List.map_nil, List.sum_cons, List.sum_nil,
      skip_chunk_header, u32_wrap, Nat.add_zero]
    rw [Nat.mod_eq_of_lt hn, Nat.mul_div_cancel' (Nat.dvd_of_mod_eq_zero hal)]
  · simp only [after_skip, hcnt, List.length_append, List.length_singleton]

/-- The rounded length of a write below `2 ^ 31` bytes for a power-of-two block size:
a whole number of blocks, fewer than `2 ^ 31`, that holds the data and ends less than a
block behind it. -/
theorem rnd_up_blocks (info : fs_info) (len k : Nat) (hB : info.block_size = 2 ^ k)
    (hk : k < 32) (hl : len < 2147483648) :
    ∃ q, rnd_up info len = q * info.block_size ∧ q < 2147483648
      ∧ len ≤ rnd_up info len ∧ rnd_up info len < len + info.block_size := by
  have h0 : 0 < info.block_size := by rw [hB]; exact Nat.two_pow_pos k
  have hle : info.block_size ≤ 2147483648 := by
    rw [hB]
    calc 2 ^ k ≤ 2 ^ 31 := Nat.pow_le_pow_right (by norm_num) (by omega)
      _ = 2147483648 := by norm_num
  have hb := rnd_up_bounds info len h0 (by omega)
  have hp := rnd_up_pow2 info len k hB (by omega)
  refine ⟨(len + (info.block_size - 1)) / info.block_size, hp, ?_, hb.1, hb.2⟩
  generalize (len + (info.block_size - 1)) / info.block_size = q at hp
  generalize rnd_up info len = R at hb hp
  by_cases h1 : info.block_size = 1
  · rw [h1, Nat.mul_one] at hp
    omega
  · have h2 : q * 2 ≤ q * info.block_size := Nat.mul_le_mul_left q (by omega)
    omega

/-- The invariant after a `Raw` chunk of `q` blocks; `R` stands for the rounded
length. -/
theorem cursor_inv_raw_blocks (info : fs_info) (out : output_file) (data : List u8)
    (R q crc : Nat) (h0 : 0 < info.block_size) (hq : R = q * info.block_size)
    (hq31 : q < 2147483648) (hge : data.length ≤ R)
    (hend : out.cur_out_ptr + R < info.len + info.block_size)
    (h : cursor_inv info out) :
    cursor_inv info { out with
      file := out.file ++ chunk_header_bytes
        { chunk_type := CHUNK_TYPE_RAW, reserved1 := 0,
          chunk_sz := R / info.block_size,
          total_sz := u32_wrap (CHUNK_HEADER_LEN + R) }
        ++ data ++ List.replicate (R - data.length) 0,
      fpos := out.fpos + 12 + R,
      cur_out_ptr := out.cur_out_ptr + R,
      chunk_cnt := out.chunk_cnt + 1,
      crc32 := crc } := by
  obtain ⟨hs, hfp, hcur, _, chunks, hfile, hwf, hsum, hcnt⟩ := h
  have hdiv : R / info.block_size = q := by rw [hq, Nat.mul_div_cancel q h0]
  refine ⟨hs, ?_, ?_, hend,
    chunks ++ [Prod.mk
      (chunk_header_t.mk CHUNK_TYPE_RAW 0 (R / info.block_size) (u32_wrap (CHUNK_HEADER_LEN + R)))
      (data ++ List.replicate (R - data.length) 0)], ?_, ?_, ?_, ?_⟩
  · simp only [hfp, List.length_append, chunk_header_bytes_length, List.length_replicate]
    omega
  · simp only
    rw [hq, Nat.add_mod, hcur, Nat.mul_mod_left]
    simp
  · simp only [hfile, List.map_append, List.flatten_append, List.map_cons,
      List.map_nil, List.flatten_cons, List.flatten_nil, chunk_record,
      List.append_nil, List.append_assoc]
  · intro c hc
    rw [List.mem_append] at hc
    rcases hc with hc | hc
    · exact hwf c hc
    · simp only [List.mem_singleton] at hc
      subst hc
      have hpl : (data ++ List.replicate (R - data.length) (0 : u8)).length = R := by
        simp only [List.length_append, List.length_replicate]
        omega
      refine ⟨rfl, ?_, Or.inl ⟨rfl, ?_, ?_, ?_⟩⟩
      · simp only [hdiv]; omega
      · simp only [hdiv]; exact hq31
      · show (data ++ List.replicate (R - data.length) (0 : u8)).length
            = R / info.block_size * info.block_size
        rw [hpl, hdiv, hq]
      · simp only [hpl]
  · simp only
    rw [chunk_sz_sum_append, Nat.mul_add, ← hsum]
    congr 1
    simp only [chunk_sz_sum, List.map_cons, List.map_nil, List.sum_cons, List.sum_nil,
      Nat.add_zero]
    rw [hq, Nat.mul_div_cancel q h0, Nat.mul_comm]
  · simp only [hcnt, List.length_append, List.length_singleton]

theorem cursor_inv_raw (info : fs_info) (out : output_file) (data : List u8) (k : Nat)
    (hB : info.block_size = 2 ^ k) (hk : k < 32) (hl : data.length < 2147483648)
    (hend : out.cur_out_ptr + rnd_up info data.length < info.len + info.block_size)
    (h : cursor_inv info out) : cursor_inv info (after_raw info out data) := by
  have h0 : 0 < info.block_size := by rw [hB]; exact Nat.two_pow_pos k
  obtain ⟨q, hq, hq31, hge, _⟩ := rnd_up_blocks info data.length k hB hk hl
  rw [after_raw]
  exact cursor_inv_raw_blocks info out data (rnd_up info data.length) q _ h0 hq hq31 hge
    hend h

/-- The three outcomes of `write_chunk_raw` on a file whose cursor is a multiple of the
block size: only warnings, a `Raw` chunk at the cursor, or a `DontCare` chunk for the gap
followed by a `Raw` chunk. -/
theorem write_chunk_raw_cases (info : fs_info) (out : output_file) (off : Nat)
    (data : List u8) (h0 : 0 < info.block_size)
    (hcur : out.cur_out_ptr % info.block_size = 0)
    (hlen : data.length + info.block_size ≤ 2147483648) (hend : out.fpos = out.file.length) :
    (∃ w, (write_chunk_raw info out off data).2 = { out with warns := w })
    ∨ (off = out.cur_out_ptr ∧ (write_chunk_raw info out off data).2 = after_raw info out data)
    ∨ (out.cur_out_ptr < off ∧ (off - out.cur_out_ptr) % info.block_size = 0
      ∧ (write_chunk_raw info out off data).2
        = after_raw info (after_skip info out (off - out.cur_out_ptr)) data) := by
  by_cases hlt : off < out.cur_out_ptr
  · exact Or.inl ⟨out.warns ++ [ext4_warn.offset_less], by simp [write_chunk_raw, hlt]⟩
  · by_cases hal : off % info.block_size = 0
    · by_cases hgt : off > out.cur_out_ptr
      · have hgap : (off - out.cur_out_ptr) % info.block_size = 0 :=
          Nat.sub_mod_eq_zero_of_mod_eq (by rw [hal, hcur])
        exact Or.inr (Or.inr ⟨hgt, hgap, by
          rw [write_chunk_raw_gap_eq info out off data h0 hal hgt hgap hlen hend]⟩)
      · have he : off = out.cur_out_ptr := by omega
        subst he
        exact Or.inr (Or.inl ⟨rfl, by
          rw [write_chunk_raw_cursor_eq info out data h0 hal hlen hend]⟩)
    · have hgt : off > out.cur_out_ptr := by
        by_contra hc
        have he : off = out.cur_out_ptr := by omega
        rw [he] at hal
        exact hal hcur
      have hgap : (off - out.cur_out_ptr) % info.block_size ≠ 0 := by
        intro hc
        apply hal
        have e : off = out.cur_out_ptr + (off - out.cur_out_ptr) := by omega
        rw [e, Nat.add_mod, hcur, hc]
        simp
      exact Or.inl ⟨out.warns ++ [ext4_warn.skip_not_multiple]
          ++ [ext4_warn.offset_not_multiple], by
        simp [write_chunk_raw, hlt, hgt, hal, emit_skip_chunk_unaligned info out _ hgap]⟩

/-- One call, a write with `len + B` within `int` range or a pad, keeps the invariant of
the cursor and does not move the cursor back. -/
theorem cursor_inv_apply_op (info : fs_info) (out : output_file) (op : out_op) (k : Nat)
    (hB : info.block_size = 2 ^ k) (hk : k < 32)
    (hblocks : info.len / info.block_size < 4294967296)
    (hop : ∀ off data, op = out_op.write off data →
      data.length + info.block_size ≤ 2147483648)
    (h : cursor_inv info out) :
    cursor_inv info (apply_op info out op)
    ∧ out.cur_out_ptr ≤ (apply_op info out op).cur_out_ptr := by
  have h0 : 0 < info.block_size := by rw [hB]; exact Nat.two_pow_pos k
  have hs := h.1
  have hfp := h.2.1
  have hcur := h.2.2.1
  have hgapdiv : ∀ n, n ≤ info.len → n / info.block_size < 4294967296 := fun n hn =>
    Nat.lt_of_le_of_lt (Nat.div_le_div_right hn) hblocks
  cases op with
  | write off data =>
    have hlb := hop off data rfl
    have hl : data.length < 2147483648 := by omega
    obtain ⟨q, _, _, hge, hlt⟩ := rnd_up_blocks info data.length k hB hk hl
    have hle : info.block_size ≤ 2147483648 := by
      rw [hB]
      calc 2 ^ k ≤ 2 ^ 31 := Nat.pow_le_pow_right (by norm_num) (by omega)
        _ = 2147483648 := by norm_num
    simp only [apply_op]
    by_cases hpast : off + data.length > info.len
    · simp only [write_data_block, hpast, if_true]
      exact ⟨cursor_inv_warns info out _ h, le_refl _⟩
    · simp only [write_data_block, hpast, if_false, hs, if_true]
      rcases write_chunk_raw_cases info out off data h0 hcur (by omega) hfp with
        ⟨w, hr⟩ | ⟨he, hr⟩ | ⟨hgt, hgap, hr⟩
      · rw [hr]
        exact ⟨cursor_inv_warns info out _ h, le_refl _⟩
      · rw [hr]
        refine ⟨cursor_inv_raw info out data k hB hk hl (by omega) h, ?_⟩
        simp only [after_raw]
        omega
      · rw [hr]
        have hsk := cursor_inv_skip info out (off - out.cur_out_ptr) hgap
          (hgapdiv _ (by omega)) (by omega) h
        have hc : (after_skip info out (off - out.cur_out_ptr)).cur_out_ptr = off := by
          simp only [after_skip]; omega
        refine ⟨cursor_inv_raw info _ data k hB hk hl (by rw [hc]; omega) hsk, ?_⟩
        simp only [after_raw, after_skip]
        omega
  | pad len =>
    simp only [apply_op]
    unfold pad_output_file
    by_cases hpast : len > info.len
    · rw [if_pos hpast]
      exact ⟨cursor_inv_warns info out _ h, le_refl _⟩
    · rw [if_neg hpast, if_pos hs]
      by_cases hlt : len < out.cur_out_ptr
      · rw [if_pos hlt]
        exact ⟨cursor_inv_warns info out _ h, le_refl _⟩
      · rw [if_neg hlt]
        by_cases hgt : len > out.cur_out_ptr
        · rw [if_pos hgt]
          by_cases hgap : (len - out.cur_out_ptr) % info.block_size = 0
          · rw [emit_skip_chunk_eq info out _ h0 hgap hfp]
            refine ⟨cursor_inv_skip info out _ hgap (hgapdiv _ (by omega)) (by omega) h, ?_⟩
            simp only [after_skip]
            omega
          · rw [emit_skip_chunk_unaligned info out _ hgap]
            exact ⟨cursor_inv_warns info out _ h, le_refl _⟩
        · rw [if_neg hgt]
          exact ⟨h, le_refl _⟩

/-- Every sequence of calls keeps the invariant of the cursor and does not move the
cursor back. -/
theorem cursor_inv_run_ops (info : fs_info) (k : Nat) (hB : info.block_size = 2 ^ k)
    (hk : k < 32) (hblocks : info.len / info.block_size < 4294967296) :
    ∀ (ops : List out_op) (out : output_file),
      (∀ off data, out_op.write off data ∈ ops →
        data.length + info.block_size ≤ 2147483648) →
      cursor_inv info out →
      cursor_inv info (run_ops info out ops)
      ∧ out.cur_out_ptr ≤ (run_ops info out ops).cur_out_ptr := by
  intro ops
  induction ops with
  | nil => intro out _ h; exact ⟨h, le_refl _⟩
  | cons op rest ih =>
    intro out hops h
    have h1 := cursor_inv_apply_op info out op k hB hk hblocks
      (fun off data he => hops off data (by rw [he]; exact List.mem_cons_self _ _)) h
    have h2 := ih (apply_op info out op)
      (fun off data hm => hops off data (List.mem_cons_of_mem _ hm)) h1.1
    exact ⟨h2.1, Nat.le_trans h1.2 h2.2⟩

theorem run_ops_append (info : fs_info) (out : output_file) (a b : List out_op) :
    run_ops info out (a ++ b) = run_ops info (run_ops info out a) b := by
  simp only [run_ops, List.foldl_append]

theorem u32_wrap_add_left (a b : Nat) : u32_wrap (u32_wrap a + b) = u32_wrap (a + b) := by
  simp only [u32_wrap]
  omega

/-- One turn of the chunk loop on a `DontCare` record with a 12-byte header: the blocks
are counted and the stream goes on behind the header. -/
theorem simg_chunk_loop_dont_care (hdr : sparse_header_t) (ch : chunk_header_t)
    (n index : Nat) (s : simg_state) (rest : List u8) (hres : s.result = 0)
    (hin : s.io.inp = chunk_header_bytes ch ++ rest)
    (hty : ch.chunk_type = CHUNK_TYPE_DONT_CARE) (hrs : ch.reserved1 = 0)
    (hcs : ch.chunk_sz < 4294967296) (hts : ch.total_sz = CHUNK_HEADER_LEN)
    (hhs : hdr.chunk_hdr_sz = 12) (hbs : hdr.blk_sz < 4294967296) :
    ∃ io, io.inp = rest
      ∧ simg_chunk_loop hdr (n + 1) index s
        = simg_chunk_loop hdr n (index + 1)
            { s with io := io, total_blocks := u32_wrap (s.total_blocks + ch.chunk_sz) } := by
  have hlen : 12 ≤ s.io.inp.length := by
    rw [hin, List.length_append, chunk_header_bytes_length]; omega
  have htake : s.io.inp.take 12 = chunk_header_bytes ch := by
    rw [hin]; exact List.take_left' (chunk_header_bytes_length ch)
  have hdrop : s.io.inp.drop (max 12 hdr.chunk_hdr_sz) = rest := by
    rw [hhs, Nat.max_self, hin]; exact List.drop_left' (chunk_header_bytes_length ch)
  have hch : chunk_header_of_bytes (chunk_header_bytes ch) = ch := by
    rw [chunk_header_of_bytes_bytes]
    obtain ⟨ty, rs, cs, ts⟩ := ch
    simp only at hty hrs hcs hts
    subst hty hrs hts
    simp only [CHUNK_TYPE_DONT_CARE, CHUNK_HEADER_LEN, Nat.mod_eq_of_lt hcs]
  obtain ⟨r, hr, _, hrin⟩ := simg_process_skip_chunk_returns
    { inp := rest, out := s.io.out, crc32 := s.io.crc32 } ch.chunk_sz hdr.blk_sz hcs hbs
  refine ⟨r.2, hrin, ?_⟩
  rw [simg_chunk_loop_step hdr n index s hres hlen, htake, hdrop, hch]
  have hne : ¬ (ch.chunk_type = CHUNK_TYPE_RAW) := by
    rw [hty]; decide
  have hts2 : ¬ (ch.total_sz ≠ hdr.chunk_hdr_sz) := by
    rw [hts, hhs]; decide
  unfold simg_process_chunk
  rw [if_neg hne, if_pos hty, if_neg hts2]
  simp only [hr]

/-- The chunk loop over well-formed chunk records: no error, and the blocks counted are
the sum of `chunk_sz`. -/
theorem simg_chunk_loop_emitted (hdr : sparse_header_t) (hhs : hdr.chunk_hdr_sz = 12)
    (hbs : hdr.blk_sz < 4294967296) :
    ∀ (chunks : List (chunk_header_t × List u8)) (index : Nat) (s : simg_state)
      (rest : List u8), s.result = 0 → s.total_blocks < 4294967296 →
      s.io.inp = (chunks.map chunk_record).flatten ++ rest →
      (∀ c ∈ chunks, emitted_chunk hdr.blk_sz c) →
      ∃ s1, simg_chunk_loop hdr chunks.length index s = some s1 ∧ s1.result = 0
        ∧ s1.total_blocks = u32_wrap (s.total_blocks + chunk_sz_sum chunks)
        ∧ s1.io.inp = rest := by
  intro chunks
  induction chunks with
  | nil =>
    intro index s rest hres htb hin _
    refine ⟨s, rfl, hres, ?_, by simpa using hin⟩
    simp only [chunk_sz_sum, List.map_nil, List.sum_nil, Nat.add_zero, u32_wrap]
    omega
  | cons c cs ih =>
    intro index s rest hres htb hin hwf
    have hc := hwf c (List.mem_cons_self _ _)
    have hcs : ∀ d ∈ cs, emitted_chunk hdr.blk_sz d := fun d hd =>
      hwf d (List.mem_cons_of_mem _ hd)
    have hsum : chunk_sz_sum (c :: cs) = c.1.chunk_sz + chunk_sz_sum cs := by
      simp only [chunk_sz_sum, List.map_cons, List.sum_cons]
    simp only [List.map_cons, List.flatten_cons, chunk_record, List.append_assoc] at hin
    obtain ⟨hrs, hsz, hkind⟩ := hc
    rw [List.length_cons, hsum]
    rcases hkind with ⟨hty, h31, hpl, hts⟩ | ⟨hty, hnil, hts⟩
    · have hok : simg_raw_size_ok hdr c.1 = true := by
        simp only [simg_raw_size_ok, decide_eq_true_eq, hts, hhs, hpl, CHUNK_HEADER_LEN,
          u32_wrap]
        omega
      rw [simg_chunk_loop_raw hdr c.1 cs.length index s c.2 _ hres hin hty
        (by rw [hrs]; norm_num) h31 (by rw [hts]; exact Nat.mod_lt _ (by norm_num)) hhs hok
        hpl]
      obtain ⟨s1, h1, h2, h3, h4⟩ := ih (index + 1)
        { s with
          io := { inp := (cs.map chunk_record).flatten ++ rest,
                  out := { data := file_write_at s.io.out.data s.io.out.pos c.2,
                           pos := s.io.out.pos + c.2.length },
                  crc32 := sparse_crc32 s.io.crc32 c.2 },
          total_blocks := u32_wrap (s.total_blocks + c.1.chunk_sz) } rest hres
        (Nat.mod_lt _ (by norm_num)) rfl hcs
      refine ⟨s1, h1, h2, ?_, h4⟩
      rw [h3]
      simp only
      rw [u32_wrap_add_left, Nat.add_assoc]
    · rw [hnil, List.nil_append] at hin
      obtain ⟨io, hio, hstep⟩ := simg_chunk_loop_dont_care hdr c.1 cs.length index s _ hres
        hin hty hrs hsz hts hhs hbs
      rw [hstep]
      obtain ⟨s1, h1, h2, h3, h4⟩ := ih (index + 1)
        { s with io := io, total_blocks := u32_wrap (s.total_blocks + c.1.chunk_sz) } rest
        hres (Nat.mod_lt _ (by norm_num)) hio hcs
      refine ⟨s1, h1, h2, ?_, h4⟩
      rw [h3]
      simp only
      rw [u32_wrap_add_left, Nat.add_assoc]

/-- C27 (the claim as stated fails): on a file system of `2 ^ 44` bytes in blocks of 4096
bytes, padding a freshly opened sparse output to the full length moves the cursor to
`2 ^ 44` and emits a single `DontCare` chunk whose `chunk_sz`, the low 32 bits of
`2 ^ 32` blocks, is 0: the cursor is not the block size times the sum of `chunk_sz`. -/
theorem skip_chunk_sz_wraps :
    (run_ops wide_info (open_output_file wide_info false true)
        [out_op.pad 17592186044416]).cur_out_ptr = 17592186044416
    ∧ (run_ops wide_info (open_output_file wide_info false true)
        [out_op.pad 17592186044416]).file
      = sparse_header_bytes (closed_header wide_info 0 0)
        ++ chunk_header_bytes
          { chunk_type := CHUNK_TYPE_DONT_CARE, reserved1 := 0, chunk_sz := 0, total_sz := 12 }
    ∧ (run_ops wide_info (open_output_file wide_info false true)
        [out_op.pad 17592186044416]).cur_out_ptr
      ≠ wide_info.block_size
        * chunk_sz_sum [Prod.mk (chunk_header_t.mk CHUNK_TYPE_DONT_CARE 0 0 12) []] := by
  have hrun : run_ops wide_info (open_output_file wide_info false true)
      [out_op.pad 17592186044416]
      = after_skip wide_info (open_output_file wide_info false true) 17592186044416 := by
    have hp : ¬ (17592186044416 > wide_info.len) := by
      simp only [wide_info]; omega
    have hal : (17592186044416 - (open_output_file wide_info false true).cur_out_ptr)
        % wide_info.block_size = 0 := by
      rw [open_output_file_sparse]
      simp only [wide_info]
    show pad_output_file wide_info (open_output_file wide_info false true) 17592186044416 = _
    unfold pad_output_file
    rw [if_neg hp, if_pos (by rw [open_output_file_sparse]),
      if_neg (by rw [open_output_file_sparse]; simp),
      if_pos (by rw [open_output_file_sparse]; simp),
      emit_skip_chunk_eq wide_info _ _ (by simp only [wide_info]; omega) hal
        (by rw [open_output_file_sparse]; rfl)]
    rw [open_output_file_sparse]
    simp only [Nat.sub_zero]
  rw [hrun, open_output_file_sparse]
  refine ⟨by simp only [after_skip], ?_, ?_⟩
  · simp only [after_skip, wide_info, u32_wrap, CHUNK_HEADER_LEN]
  · simp only [after_skip, wide_info, chunk_sz_sum, List.map_cons, List.map_nil,
      List.sum_cons, List.sum_nil]
    omega

/-- C27 (amended): for a block size that is a power of two below `2 ^ 32`, a file system
of fewer than `2 ^ 32 - 1` blocks and every sequence of writes (each with `len + B`
within `int` range, so that `rnd_up_len` and `zero_len` of `write_chunk_raw` do not
overflow) and pads on a freshly opened sparse output, the cursor at the end is not
below the cursor after any part of the sequence, it is a multiple of the block size, and
it is the block size times the sum of `chunk_sz` over the chunk records in the file,
of which there are `chunk_cnt`; the chunk loop of the decoder over these records ends
without error and has counted the cursor divided by the block size as blocks. -/
theorem encoder_cursor_counts_blocks (info : fs_info) (gz : Bool) (k : Nat)
    (ops : List out_op) (dev : List u8)
    (hB : info.block_size = 2 ^ k) (hk : k < 32)
    (hblocks : info.len / info.block_size + 1 < 4294967296)
    (hops : ∀ off data, out_op.write off data ∈ ops →
      data.length + info.block_size ≤ 2147483648) :
    (∀ pre post, ops = pre ++ post →
      (run_ops info (open_output_file info gz true) pre).cur_out_ptr
        ≤ (run_ops info (open_output_file info gz true) ops).cur_out_ptr)
    ∧ (run_ops info (open_output_file info gz true) ops).cur_out_ptr % info.block_size = 0
    ∧ ∃ chunks : List (chunk_header_t × List u8),
        (run_ops info (open_output_file info gz true) ops).file
          = sparse_header_bytes (closed_header info 0 0) ++ (chunks.map chunk_record).flatten
        ∧ (run_ops info (open_output_file info gz true) ops).chunk_cnt = chunks.length
        ∧ (run_ops info (open_output_file info gz true) ops).cur_out_ptr
          = info.block_size * chunk_sz_sum chunks
        ∧ ∃ s, simg_chunk_loop (closed_header info 0 0)
              (run_ops info (open_output_file info gz true) ops).chunk_cnt 0
              (simg_start
                ((run_ops info (open_output_file info gz true) ops).file.drop 28) dev)
            = some s
          ∧ s.result = 0
          ∧ s.total_blocks
            = (run_ops info (open_output_file info gz true) ops).cur_out_ptr
              / info.block_size := by
  have h0 : 0 < info.block_size := by rw [hB]; exact Nat.two_pow_pos k
  have hbs : info.block_size < 4294967296 := by
    rw [hB]
    calc 2 ^ k ≤ 2 ^ 31 := Nat.pow_le_pow_right (by norm_num) (by omega)
      _ < 4294967296 := by norm_num
  have hopen := cursor_inv_open info gz h0
  have hrun := cursor_inv_run_ops info k hB hk (by omega)
  refine ⟨?_, ?_, ?_⟩
  · intro pre post he
    have hpre := hrun pre _ (fun off data hm => hops off data (by
      rw [he]; exact List.mem_append_left _ hm)) hopen
    have hpost := hrun post _ (fun off data hm => hops off data (by
      rw [he]; exact List.mem_append_right _ hm)) hpre.1
    rw [he, run_ops_append]
    exact hpost.2
  · exact (hrun ops _ hops hopen).1.2.2.1
  · obtain ⟨_, _, _, hend, chunks, hfile, hwf, hsum, hcnt⟩ := (hrun ops _ hops hopen).1
    refine ⟨chunks, hfile, hcnt, hsum, ?_⟩
    have hblk : (closed_header info 0 0).blk_sz = info.block_size := by
      simp only [closed_header, u32_wrap]
      exact Nat.mod_eq_of_lt hbs
    have hdrop : (run_ops info (open_output_file info gz true) ops).file.drop 28
        = (chunks.map chunk_record).flatten ++ [] := by
      rw [hfile, List.append_nil]
      exact List.drop_left' (sparse_header_bytes_length _)
    obtain ⟨s, h1, h2, h3, _⟩ := simg_chunk_loop_emitted (closed_header info 0 0) rfl
      (by rw [hblk]; exact hbs) chunks 0
      (simg_start ((run_ops info (open_output_file info gz true) ops).file.drop 28) dev) []
      rfl (by simp [simg_start]) hdrop (by rw [hblk]; exact hwf)
    refine ⟨s, by rw [hcnt]; exact h1, h2, ?_⟩
    rw [h3, hsum, Nat.mul_div_cancel_left _ h0]
    have hle : chunk_sz_sum chunks ≤ info.len / info.block_size + 1 := by
      have h4 : info.block_size * chunk_sz_sum chunks ≤ info.len + info.block_size := by
        rw [← hsum]; omega
      have h5 := Nat.div_le_div_right (c := info.block_size) h4
      rw [Nat.mul_div_cancel_left _ h0, Nat.add_div_right _ h0] at h5
      exact h5
    simp only [simg_start, u32_wrap, Nat.zero_add]
    exact Nat.mod_eq_of_lt (by omega)

theorem encoder_cursor_counts_blocks_witness :
    (run_ops small_info (open_output_file small_info false true)
        [out_op.write 0 [1, 2, 3], out_op.pad 16]).cur_out_ptr % small_info.block_size = 0 :=
  (encoder_cursor_counts_blocks small_info false 2
    [out_op.write 0 [1, 2, 3], out_op.pad 16] [] rfl (by decide) (by decide)
    (by
      intro off data hm
      simp only [List.mem_cons, out_op.write.injEq, List.mem_singleton, reduceCtorEq,
        or_false, List.not_mem_nil] at hm
      rw [hm.2]
      decide)).2.1

/-! ## Gaps of `2 ^ 32` blocks -/

/-- The pad of a freshly opened sparse output of `wide_info` to the full length emits a
`DontCare` chunk for `2 ^ 44` bytes. -/
theorem pad_wide_eq :
    pad_output_file wide_info (open_output_file wide_info false true) 17592186044416
      = after_skip wide_info (open_output_file wide_info false true) 17592186044416 := by
  have hp : ¬ (17592186044416 > wide_info.len) := by
    simp only [wide_info]; omega
  have hal : (17592186044416 - (open_output_file wide_info false true).cur_out_ptr)
      % wide_info.block_size = 0 := by
    rw [open_output_file_sparse]
    simp only [wide_info]
  unfold pad_output_file
  rw [if_neg hp, if_pos (by rw [open_output_file_sparse]),
    if_neg (by rw [open_output_file_sparse]; simp),
    if_pos (by rw [open_output_file_sparse]; simp),
    emit_skip_chunk_eq wide_info _ _ (by simp only [wide_info]; omega) hal
      (by rw [open_output_file_sparse]; rfl)]
  rw [open_output_file_sparse]
  simp only [Nat.sub_zero]

/-- C7 (the claim as stated fails): on a file system of `2 ^ 44` bytes in blocks of 4096
bytes, `pad_output_file` on a freshly opened sparse output with the target length
`2 ^ 44`, which is within the file system length and beyond the cursor by `2 ^ 32` whole
blocks, moves the cursor to the target and appends one `DontCare` header whose `chunk_sz`
is 0, not the `2 ^ 32` blocks of the gap. -/
theorem pad_chunk_sz_wraps :
    (open_output_file wide_info false true).sparse = true
    ∧ 17592186044416 ≤ wide_info.len
    ∧ (17592186044416 - (open_output_file wide_info false true).cur_out_ptr)
        % wide_info.block_size = 0
    ∧ (17592186044416 - (open_output_file wide_info false true).cur_out_ptr)
        / wide_info.block_size = 4294967296
    ∧ (pad_output_file wide_info (open_output_file wide_info false true)
        17592186044416).cur_out_ptr = 17592186044416
    ∧ (pad_output_file wide_info (open_output_file wide_info false true)
        17592186044416).file
      = (open_output_file wide_info false true).file
        ++ chunk_header_bytes
          { chunk_type := CHUNK_TYPE_DONT_CARE, reserved1 := 0, chunk_sz := 0,
            total_sz := 12 } := by
  rw [pad_wide_eq, open_output_file_sparse]
  refine ⟨rfl, by simp only [wide_info]; omega, by simp only [wide_info], ?_, ?_, ?_⟩
  · simp only [wide_info]
  · simp only [after_skip]
  · simp only [after_skip, wide_info, u32_wrap, CHUNK_HEADER_LEN]

/-- C3 (the claim as stated fails): on a file system of `2 ^ 45` bytes in blocks of 4096
bytes, one write of a single byte at the block-aligned offset `2 ^ 44` on a freshly
opened sparse output, a gap of `2 ^ 32` whole blocks, emits a `DontCare` header whose
`chunk_sz` is 0, not the `2 ^ 32` blocks of the gap, followed by the `Raw` chunk. -/
theorem write_gap_chunk_sz_wraps :
    17592186044416 % deep_info.block_size = 0
    ∧ (17592186044416 - (open_output_file deep_info false true).cur_out_ptr)
        / deep_info.block_size = 4294967296
    ∧ (write_data_block deep_info (open_output_file deep_info false true)
        17592186044416 [1]).file
      = (open_output_file deep_info false true).file
        ++ chunk_header_bytes
          { chunk_type := CHUNK_TYPE_DONT_CARE, reserved1 := 0, chunk_sz := 0,
            total_sz := 12 }
        ++ chunk_header_bytes
          { chunk_type := CHUNK_TYPE_RAW, reserved1 := 0, chunk_sz := 1, total_sz := 4108 }
        ++ [1] ++ List.replicate 4095 0
    ∧ (write_data_block deep_info (open_output_file deep_info false true)
        17592186044416 [1]).chunk_cnt = 2
    ∧ (write_data_block deep_info (open_output_file deep_info false true)
        17592186044416 [1]).warns = [] := by
  have hr : rnd_up deep_info 1 = 4096 := by
    rw [rnd_up_pow2 deep_info 1 12 rfl (by simp only [deep_info]; omega)]
    simp only [deep_info]
  have hw : write_data_block deep_info (open_output_file deep_info false true)
      17592186044416 [1]
      = after_raw deep_info
          (after_skip deep_info (open_output_file deep_info false true) 17592186044416)
          [1] := by
    have hpast : ¬ (17592186044416 + ([1] : List u8).length > deep_info.len) := by
      simp only [deep_info, List.length_singleton]; omega
    unfold write_data_block
    rw [if_neg hpast, if_pos (by rw [open_output_file_sparse]),
      write_chunk_raw_gap_eq deep_info _ 17592186044416 [1]
        (by simp only [deep_info]; omega) (by simp only [deep_info])
        (by rw [open_output_file_sparse]; simp)
        (by rw [open_output_file_sparse]; simp only [deep_info])
        (by simp only [deep_info, List.length_singleton]; omega)
        (by rw [open_output_file_sparse]; rfl)]
    rw [open_output_file_sparse]
    simp only [Nat.sub_zero]
  rw [hw, open_output_file_sparse]
  refine ⟨by simp only [deep_info], by simp only [deep_info], ?_, ?_, ?_⟩
  · simp only [after_raw, after_skip, List.length_singleton, hr]
    simp only [deep_info, u32_wrap, CHUNK_HEADER_LEN, List.append_assoc]
  · simp only [after_raw, after_skip]
  · simp only [after_raw, after_skip]

end Recovery
